import Mathlib

/-!
Farsight RTP codec negotiation: the SDP compatibility engine, the codec
blueprint cache, the local codec association builder, the validation of the
codec preferences and the derivation of blueprints from codec caps.

A shallow embedding of `gst/fsrtpconference/fs-rtp-specific-nego.c`
(`sdp_is_compat`, `sdp_is_compat_default`, `sdp_is_compat_ilbc`,
`sdp_is_compat_h263_1998`), of `gst/fsrtpconference/fs-rtp-codec-cache.c`
(`load_codecs_cache`, `save_codecs_cache` and their readers and writers) and
of `gst/fsrtpconference/fs-rtp-codec-negotiation.c`
(`create_local_codec_associations` and its helpers,
`validate_codecs_configuration`) and of
`gst/fsrtpconference/fs-rtp-discover-codecs.c` (`parse_codec_cap_list`,
`extract_field_data` and the two validation functions), together with the
library functions they call, followed by theorems about them.

Conventions of the embedding:
* a `gchar *` string is the list of its bytes before the terminating NUL;
* `guint` fields are natural numbers, `gint` fields are integers (no
  arithmetic is done on them by the negotiation code);
* a function returning `FsCodec *` returns `Option FsCodec`, `NULL` being `none`;
* the `rtp_caps` argument of the negotiation functions is only asserted to be
  non-NULL and never read, so it is not carried by the embedding;
* the contents of the cache file are a list of bytes, a 32-bit word being
  four of them, least significant first;
* a `GHashTable` keyed by payload type is an association list with one entry
  for each key.
-/

set_option autoImplicit false

namespace Farsight

/-! ## C strings and the libc / glib string functions -/

/-- A NUL-terminated C string, represented by the bytes that precede the NUL:
every byte is a nonzero `guchar`. -/
structure CString where
  bytes : List Nat
  valid : ∀ b ∈ bytes, 0 < b ∧ b < 256

instance : DecidableEq CString := fun a b =>
  decidable_of_iff (a.bytes = b.bytes) (by cases a; cases b; simp)

/-- The C string holding the characters of an ASCII literal. -/
def cstr (s : String) : CString :=
  ⟨(s.toList.map Char.toNat).filter (fun b => decide (0 < b ∧ b < 256)), by
    intro b hb
    simpa using (List.mem_filter.mp hb).2⟩

/-- glib `g_ascii_tolower`: maps the bytes 'A'..'Z' to 'a'..'z' and leaves every
other byte unchanged. -/
def g_ascii_tolower (c : Nat) : Nat :=
  if 65 ≤ c ∧ c ≤ 90 then c - 65 + 97 else c

/-- The loop of glib `g_ascii_strcasecmp` over the two byte sequences; reaching
the end of a list is reading the terminating NUL. -/
def g_ascii_strcasecmp_bytes : List Nat → List Nat → Int
  | a :: s1, b :: s2 =>
    if g_ascii_tolower a ≠ g_ascii_tolower b then
      (g_ascii_tolower a : Int) - (g_ascii_tolower b : Int)
    else g_ascii_strcasecmp_bytes s1 s2
  | [], [] => 0
  | [], b :: _ => 0 - (b : Int)
  | a :: _, [] => (a : Int) - 0

/-- glib `g_ascii_strcasecmp`: 0 when the strings are equal ignoring ASCII case,
otherwise the difference of the first pair of differing bytes. -/
def g_ascii_strcasecmp (s1 s2 : CString) : Int :=
  g_ascii_strcasecmp_bytes s1.bytes s2.bytes

/-- The byte loop of libc `strcmp`. -/
def strcmp_bytes : List Nat → List Nat → Int
  | a :: s1, b :: s2 => if a ≠ b then (a : Int) - (b : Int) else strcmp_bytes s1 s2
  | [], [] => 0
  | [], b :: _ => 0 - (b : Int)
  | a :: _, [] => (a : Int) - 0

/-- libc `strcmp`: 0 exactly when the two strings are equal, otherwise the
difference of the first pair of differing bytes. -/
def strcmp (s1 s2 : CString) : Int :=
  strcmp_bytes s1.bytes s2.bytes

/-- libc `isspace` in the C locale: space, and the control characters
`\t \n \v \f \r`. -/
def isspace (c : Nat) : Bool :=
  c = 32 || (9 ≤ c && c ≤ 13)

/-- libc `isdigit`. -/
def isdigit (c : Nat) : Bool :=
  48 ≤ c && c ≤ 57

/-- The decimal value of a run of digit bytes. -/
def digits_value (ds : List Nat) : Nat :=
  ds.foldl (fun acc d => acc * 10 + (d - 48)) 0

/-- The conversion of `strtol (s, NULL, 10)` on a 64-bit `long`: leading white
space is skipped, an optional sign is read, then the longest run of decimal
digits; a value outside the range of `long` saturates. -/
def strtol10 (s : List Nat) : Int :=
  let s1 := s.dropWhile isspace
  let neg : Bool := match s1 with
    | 45 :: _ => true
    | _ => false
  let s2 := match s1 with
    | 45 :: t => t
    | 43 :: t => t
    | _ => s1
  let v : Int := (digits_value (s2.takeWhile isdigit) : Int)
  if neg then (if v > 2 ^ 63 then -(2 ^ 63) else -v)
  else (if v > 2 ^ 63 - 1 then 2 ^ 63 - 1 else v)

/-- The conversion of a `long` to a 32-bit `gint` (two's complement wrap). -/
def to_gint (v : Int) : Int :=
  (v + 2 ^ 31) % 2 ^ 32 - 2 ^ 31

/-- libc `atoi`, which is `(int) strtol (s, NULL, 10)`. -/
def atoi (s : CString) : Int :=
  to_gint (strtol10 s.bytes)

/-! ## The codec model (`fs-codec.h`) -/

/-- Modelled from the spec: the `FsMediaType` enumeration of `fs-codec.h`
(media kind audio | video); the header is not among the sources. -/
inductive FsMediaType where
  | FS_MEDIA_TYPE_AUDIO
  | FS_MEDIA_TYPE_VIDEO
  deriving DecidableEq

/-- Modelled from the spec: the `FsCodecParameter` record of `fs-codec.h`, a
(name, value) pair of strings. -/
structure FsCodecParameter where
  name : CString
  value : CString
  deriving DecidableEq

/-- Modelled from the spec: the `FsCodec` record of `fs-codec.h`: payload id,
encoding name, media kind, clock rate (0 = unspecified), channel count
(0 = unspecified) and the ordered list of optional parameters. -/
structure FsCodec where
  id : Int
  encoding_name : CString
  media_type : FsMediaType
  clock_rate : Nat
  channels : Nat
  optional_params : List FsCodecParameter
  deriving DecidableEq

/-- Modelled from the spec: `fs_codec_copy` of `fs-codec.c` (not among the
sources) returns a clone of the codec, every field and every parameter
copied. -/
def fs_codec_copy (codec : FsCodec) : FsCodec :=
  { id := codec.id
    encoding_name := codec.encoding_name
    media_type := codec.media_type
    clock_rate := codec.clock_rate
    channels := codec.channels
    optional_params := codec.optional_params.map
      (fun p => { name := p.name, value := p.value }) }

/-! ## `fs-rtp-specific-nego.c` -/

/-- How a scan of the negotiated parameter list for one local parameter ends:
`hit l` is a `break` (the cursor is non-NULL) leaving the list as `l`,
`exhausted` is the cursor running off the end (NULL), `reject` is the
early `return NULL` / `goto failure`. -/
inductive ScanEnd where
  | hit (negotiated : List FsCodecParameter)
  | exhausted
  | reject
  deriving DecidableEq

/-- The inner `for` loop of `sdp_is_compat_default` (lines 128-142): walks the
negotiated parameters looking for the name of `local_param`. -/
def default_scan (local_param : FsCodecParameter) :
    List FsCodecParameter → ScanEnd
  | [] => ScanEnd.exhausted
  | negotiated_param :: rest =>
    if g_ascii_strcasecmp local_param.name negotiated_param.name = 0 then
      if strcmp local_param.value negotiated_param.value = 0 then
        ScanEnd.hit (negotiated_param :: rest)
      else ScanEnd.reject
    else
      match default_scan local_param rest with
      | ScanEnd.hit rest1 => ScanEnd.hit (negotiated_param :: rest1)
      | e => e

/-- The outer `for` loop of `sdp_is_compat_default` (lines 123-153) over the
local parameters still to be visited, threading the negotiated parameter
list; `none` is the `return NULL` of line 139. -/
def default_params :
    List FsCodecParameter → List FsCodecParameter → Option (List FsCodecParameter)
  | [], negotiated => some negotiated
  | local_param :: rest, negotiated =>
    match default_scan local_param negotiated with
    | ScanEnd.reject => none
    | ScanEnd.hit negotiated1 => default_params rest negotiated1
    | ScanEnd.exhausted =>
      default_params rest
        (negotiated ++ [{ name := local_param.name, value := local_param.value }])

/-- The head shared by `sdp_is_compat_default` (lines 101-121) and
`sdp_is_compat_ilbc` (lines 168-188): the clock-rate test, the channel test,
then the copy of the remote codec with its missing channel count and clock
rate taken from the local codec. -/
def negotiated_head (local_codec remote_codec : FsCodec) : Option FsCodec :=
  if remote_codec.clock_rate ≠ 0 ∧
      local_codec.clock_rate ≠ remote_codec.clock_rate then none
  else if local_codec.channels ≠ 0 ∧ remote_codec.channels ≠ 0 ∧
      local_codec.channels ≠ remote_codec.channels then none
  else
    let negotiated_codec := fs_codec_copy remote_codec
    let negotiated_codec :=
      if negotiated_codec.channels = 0 ∧ local_codec.channels ≠ 0 then
        { negotiated_codec with channels := local_codec.channels }
      else negotiated_codec
    let negotiated_codec :=
      if negotiated_codec.clock_rate = 0 then
        { negotiated_codec with clock_rate := local_codec.clock_rate }
      else negotiated_codec
    some negotiated_codec

/-- The function `sdp_is_compat_default` (lines 92-156). -/
def sdp_is_compat_default (local_codec remote_codec : FsCodec) : Option FsCodec :=
  match negotiated_head local_codec remote_codec with
  | none => none
  | some negotiated_codec =>
    match default_params local_codec.optional_params
        negotiated_codec.optional_params with
    | none => none
    | some params => some { negotiated_codec with optional_params := params }

/-- The inner `for` loop of `sdp_is_compat_ilbc` (lines 195-226), returning
the value of `has_mode` after the loop together with the way the loop ended.
When both modes are valid and equal (no branch of lines 207-215 taken) the
loop goes on to the next negotiated parameter. -/
def ilbc_scan (local_param : FsCodecParameter) :
    List FsCodecParameter → Bool → Bool × ScanEnd
  | [], has_mode => (has_mode, ScanEnd.exhausted)
  | negotiated_param :: rest, has_mode =>
    if g_ascii_strcasecmp local_param.name negotiated_param.name = 0 then
      if g_ascii_strcasecmp local_param.name (cstr "mode") = 0 then
        let local_mode := atoi local_param.value
        let remote_mode := atoi negotiated_param.value
        if remote_mode ≠ 20 ∧ remote_mode ≠ 30 then (true, ScanEnd.reject)
        else if local_mode ≠ remote_mode then
          (true, ScanEnd.hit ({ negotiated_param with value := cstr "30" } :: rest))
        else
          match ilbc_scan local_param rest true with
          | (hm, ScanEnd.hit rest1) => (hm, ScanEnd.hit (negotiated_param :: rest1))
          | e => e
      else
        if strcmp local_param.value negotiated_param.value = 0 then
          (has_mode, ScanEnd.hit (negotiated_param :: rest))
        else (has_mode, ScanEnd.reject)
    else
      match ilbc_scan local_param rest has_mode with
      | (hm, ScanEnd.hit rest1) => (hm, ScanEnd.hit (negotiated_param :: rest1))
      | e => e

/-- The outer `for` loop of `sdp_is_compat_ilbc` (lines 190-241), threading
the negotiated parameter list and `has_mode`; `none` is `goto failure`. -/
def ilbc_params :
    List FsCodecParameter → List FsCodecParameter → Bool →
      Option (List FsCodecParameter × Bool)
  | [], negotiated, has_mode => some (negotiated, has_mode)
  | local_param :: rest, negotiated, has_mode =>
    match ilbc_scan local_param negotiated has_mode with
    | (_, ScanEnd.reject) => none
    | (hm, ScanEnd.hit negotiated1) => ilbc_params rest negotiated1 hm
    | (hm, ScanEnd.exhausted) =>
      ilbc_params rest
        (negotiated ++ [{ name := local_param.name, value := local_param.value }])
        (if g_ascii_strcasecmp local_param.name (cstr "mode") = 0 then true else hm)

/-- The function `sdp_is_compat_ilbc` (lines 158-274). -/
def sdp_is_compat_ilbc (local_codec remote_codec : FsCodec) : Option FsCodec :=
  match negotiated_head local_codec remote_codec with
  | none => none
  | some negotiated_codec =>
    match ilbc_params local_codec.optional_params
        negotiated_codec.optional_params false with
    | none => none
    | some (params, has_mode) =>
      -- lines 245-255: look for "mode" among the negotiated parameters
      let has_mode := has_mode ||
        params.any (fun p => g_ascii_strcasecmp p.name (cstr "mode") = 0)
      -- lines 259-265: still no mode, add the default of 30 ms
      let params :=
        if has_mode then params
        else params ++ [{ name := cstr "mode", value := cstr "30" }]
      some { negotiated_codec with optional_params := params }

/-- The scan of the local parameters for "profile" in
`sdp_is_compat_h263_1998` (lines 316-340), entered at a remote "profile"
parameter: the first local "profile" decides, and no local "profile" is a
rejection. -/
def h263_local_profile (local_codec remote_codec : FsCodec)
    (remote_param : FsCodecParameter) : List FsCodecParameter → Option FsCodec
  | [] => none
  | local_param :: rest =>
    if g_ascii_strcasecmp local_param.name (cstr "profile") = 0 then
      if g_ascii_strcasecmp local_param.value remote_param.value ≠ 0 then none
      else
        let negotiated_codec := fs_codec_copy local_codec
        some { negotiated_codec with id := remote_codec.id }
    else h263_local_profile local_codec remote_codec remote_param rest

/-- The loop over the remote parameters in `sdp_is_compat_h263_1998`
(lines 302-346). `profile` is the variable of that name (the remote
"profile" parameter seen so far, if any). -/
def h263_remote_params (local_codec remote_codec : FsCodec) :
    List FsCodecParameter → Option FsCodecParameter → Option FsCodec
  | [], _ => some (fs_codec_copy local_codec)
  | remote_param :: rest, profile =>
    if g_ascii_strcasecmp remote_param.name (cstr "profile") = 0 then
      match profile with
      | some _ => none
      | none =>
        h263_local_profile local_codec remote_codec remote_param
          local_codec.optional_params
    else h263_remote_params local_codec remote_codec rest profile

/-- The function `sdp_is_compat_h263_1998` (lines 278-347). -/
def sdp_is_compat_h263_1998 (local_codec remote_codec : FsCodec) : Option FsCodec :=
  if remote_codec.clock_rate ≠ 90000 then none
  else if remote_codec.channels > 1 then none
  else h263_remote_params local_codec remote_codec remote_codec.optional_params none

/-- One row of the table `sdp_compat_checks` (`struct SdpCompatCheck`). -/
structure SdpCompatCheck where
  media_type : FsMediaType
  encoding_name : CString
  sdp_is_compat : FsCodec → FsCodec → Option FsCodec

/-- The table `sdp_compat_checks` (lines 46-50), without its terminating
all-NULL row. -/
def sdp_compat_checks : List SdpCompatCheck :=
  [ { media_type := FsMediaType.FS_MEDIA_TYPE_AUDIO,
      encoding_name := cstr "iLBC", sdp_is_compat := sdp_is_compat_ilbc },
    { media_type := FsMediaType.FS_MEDIA_TYPE_VIDEO,
      encoding_name := cstr "H263-1998", sdp_is_compat := sdp_is_compat_h263_1998 } ]

/-- The dispatch loop of `sdp_is_compat` (lines 80-89) over the rows of the
table still to be visited. -/
def sdp_dispatch (local_codec remote_codec : FsCodec) :
    List SdpCompatCheck → Option FsCodec
  | [] => sdp_is_compat_default local_codec remote_codec
  | check :: rest =>
    if check.media_type = remote_codec.media_type ∧
        g_ascii_strcasecmp check.encoding_name remote_codec.encoding_name = 0 then
      check.sdp_is_compat local_codec remote_codec
    else sdp_dispatch local_codec remote_codec rest

/-- The function `sdp_is_compat` (lines 57-90). -/
def sdp_is_compat (local_codec remote_codec : FsCodec) : Option FsCodec :=
  if local_codec.media_type ≠ remote_codec.media_type then none
  else if g_ascii_strcasecmp local_codec.encoding_name
      remote_codec.encoding_name ≠ 0 then none
  else sdp_dispatch local_codec remote_codec sdp_compat_checks

/-! ## Vocabulary of the statements -/

/-- The ASCII case folding of a string: every byte through `g_ascii_tolower`.
Two names are equal case-insensitively when their foldings are equal. -/
def casefold (s : CString) : List Nat :=
  s.bytes.map g_ascii_tolower

/-- The folded names of a parameter list, in order. -/
def param_names (ps : List FsCodecParameter) : List (List Nat) :=
  ps.map (fun p => casefold p.name)

/-- Whether the parameter list has a parameter with the given name, compared
case-insensitively. -/
def has_param (ps : List FsCodecParameter) (name : CString) : Bool :=
  ps.any (fun p => decide (casefold p.name = casefold name))

/-- The clock-rate test of lines 101-106 passes. -/
def clock_rate_ok (local_codec remote_codec : FsCodec) : Prop :=
  ¬ (remote_codec.clock_rate ≠ 0 ∧ local_codec.clock_rate ≠ remote_codec.clock_rate)

/-- The channel test of lines 108-113 passes. -/
def channels_ok (local_codec remote_codec : FsCodec) : Prop :=
  ¬ (local_codec.channels ≠ 0 ∧ remote_codec.channels ≠ 0 ∧
      local_codec.channels ≠ remote_codec.channels)

instance (l r : FsCodec) : Decidable (clock_rate_ok l r) := by
  unfold clock_rate_ok; infer_instance

instance (l r : FsCodec) : Decidable (channels_ok l r) := by
  unfold channels_ok; infer_instance

/-- The codec is an audio codec named iLBC (case-insensitively). -/
def is_ilbc (codec : FsCodec) : Prop :=
  codec.media_type = FsMediaType.FS_MEDIA_TYPE_AUDIO ∧
    casefold codec.encoding_name = casefold (cstr "iLBC")

/-- The codec is a video codec named H263-1998 (case-insensitively). -/
def is_h263_1998 (codec : FsCodec) : Prop :=
  codec.media_type = FsMediaType.FS_MEDIA_TYPE_VIDEO ∧
    casefold codec.encoding_name = casefold (cstr "H263-1998")

instance (c : FsCodec) : Decidable (is_ilbc c) := by
  unfold is_ilbc; infer_instance

instance (c : FsCodec) : Decidable (is_h263_1998 c) := by
  unfold is_h263_1998; infer_instance

/-- Whether a parameter is named "mode" (case-insensitively). -/
def is_mode (p : FsCodecParameter) : Prop :=
  casefold p.name = casefold (cstr "mode")

instance (p : FsCodecParameter) : Decidable (is_mode p) := by
  unfold is_mode; infer_instance

/-- Whether a parameter is named "profile" (case-insensitively). -/
def is_profile (p : FsCodecParameter) : Prop :=
  casefold p.name = casefold (cstr "profile")

instance (p : FsCodecParameter) : Decidable (is_profile p) := by
  unfold is_profile; infer_instance

/-- The parameter list with the value of every "mode" parameter set to "30". -/
def force_mode_30 (ps : List FsCodecParameter) : List FsCodecParameter :=
  ps.map (fun p => if is_mode p then { p with value := cstr "30" } else p)

/-! ## Example codecs -/

/-- A parameter given by ASCII literals. -/
def ex_param (name value : String) : FsCodecParameter :=
  { name := cstr name, value := cstr value }

/-- A codec given by ASCII literals. -/
def ex_codec (id : Int) (name : String) (media : FsMediaType) (clock_rate channels : Nat)
    (params : List FsCodecParameter) : FsCodec :=
  { id := id, encoding_name := cstr name, media_type := media, clock_rate := clock_rate,
    channels := channels, optional_params := params }

/-- An audio codec given by ASCII literals. -/
def ex_audio (id : Int) (name : String) (clock_rate channels : Nat)
    (params : List FsCodecParameter) : FsCodec :=
  ex_codec id name FsMediaType.FS_MEDIA_TYPE_AUDIO clock_rate channels params

/-- A video codec given by ASCII literals. -/
def ex_video (id : Int) (name : String) (clock_rate channels : Nat)
    (params : List FsCodecParameter) : FsCodec :=
  ex_codec id name FsMediaType.FS_MEDIA_TYPE_VIDEO clock_rate channels params

/-! ## The blueprint model (`fs-rtp-discover-codecs.h`) -/

/-- A GStreamer `GstCaps` value. The code embedded here never looks inside one:
it serialises it (`gst_caps_to_string`), parses it back
(`gst_caps_from_string`) and hands it to the intersection test of the library.
It is represented by its serialised text. -/
structure GstCaps where
  text : CString
  deriving DecidableEq

/-- GStreamer `gst_caps_to_string`. -/
def gst_caps_to_string (caps : GstCaps) : CString :=
  caps.text

/-- GStreamer `gst_caps_from_string`, on the text `gst_caps_to_string` produced. -/
def gst_caps_from_string (text : CString) : GstCaps :=
  { text := text }

/-- A GStreamer `GstElementFactory`, represented by its feature name, the only
thing the cache code reads from it. -/
structure GstElementFactory where
  name : CString
  deriving DecidableEq

/-- GStreamer `gst_plugin_feature_get_name` on an element factory. -/
def gst_plugin_feature_get_name (fact : GstElementFactory) : CString :=
  fact.name

/-- GStreamer `gst_element_factory_find`, in the registry the blueprints were
discovered from: the factory registered under the name. -/
def gst_element_factory_find (name : CString) : GstElementFactory :=
  { name := name }

/-- Modelled from the spec: the `CodecBlueprint` record of
`fs-rtp-discover-codecs.h` (the header is not among the sources): the codec
template, the media and RTP capability descriptors, the send and receive
pipelines (each an ordered list of chains of element factories) and the four
derived flags. -/
structure CodecBlueprint where
  codec : FsCodec
  media_caps : GstCaps
  rtp_caps : GstCaps
  send_pipeline_factory : List (List GstElementFactory)
  receive_pipeline_factory : List (List GstElementFactory)
  has_sink : Bool
  has_src : Bool
  send_has_unique : Bool
  receive_has_unique : Bool
  deriving DecidableEq

/-- Modelled from the spec: `fs_codec_add_optional_parameter` of `fs-codec.c`
(not among the sources) adds a copy of the (name, value) pair at the end of
the ordered parameter list of the codec. -/
def fs_codec_add_optional_parameter (codec : FsCodec) (name value : CString) : FsCodec :=
  { codec with optional_params := codec.optional_params ++ [{ name := name, value := value }] }

/-! ## `fs-rtp-codec-cache.c`: the readers -/

/-- The four bytes of a 32-bit word in memory, in the byte order of the host
(least significant byte first). -/
def word_bytes (v : Nat) : List Nat :=
  [v % 256, v / 256 % 256, v / 65536 % 256, v / 16777216 % 256]

/-- The 32-bit word held by the first four bytes of a byte sequence. -/
def bytes_word (b : List Nat) : Nat :=
  b.getD 0 0 % 256 + 256 * (b.getD 1 0 % 256) + 65536 * (b.getD 2 0 % 256) +
    16777216 * (b.getD 3 0 % 256)

/-- The conversion of a `gint` to the unsigned `gsize` (64 bits) that the
comparison `*size < str_length` performs. -/
def gsize_of_gint (v : Int) : Nat :=
  (v % 2 ^ 64).toNat

/-- The NUL-terminated string that starts a zero-filled buffer into which the
bytes were copied: the bytes up to the first NUL. -/
def cstring_of_bytes (b : List Nat) : CString :=
  ⟨(b.map (fun x => x % 256)).takeWhile (fun x => decide (x ≠ 0)), by
    intro x hx
    have h1 := List.mem_takeWhile_imp hx
    have h2 := (List.takeWhile_sublist _).subset hx
    simp only [ne_eq, decide_not, Bool.not_eq_true', decide_eq_false_iff_not] at h1
    obtain ⟨y, _, rfl⟩ := List.mem_map.mp h2
    omega⟩

/-- The read cursor of the cache loader: `inp` is what the pointer `*in` points
at, namely the bytes from there to the end of the file contents, and `size` is
the variable `*size`. -/
structure Cursor where
  inp : List Nat
  size : Nat
  deriving DecidableEq

/-- The outcome of a reader: `ok val cur` is success with the cursor moved,
`fail` is the return of FALSE or NULL, `fault` is a read of bytes beyond the
end of the file contents. -/
inductive Read (α : Type) where
  | ok (val : α) (cur : Cursor)
  | fail
  | fault
  deriving DecidableEq

/-- Sequencing of readers: `READ_CHECK`. -/
def Read.andThen {α β : Type} (r : Read α) (f : α → Cursor → Read β) : Read β :=
  match r with
  | Read.ok val cur => f val cur
  | Read.fail => Read.fail
  | Read.fault => Read.fault

/-- The function `read_codec_blueprint_uint` (lines 121-130). -/
def read_codec_blueprint_uint (c : Cursor) : Read Nat :=
  if c.size < 4 then Read.fail
  else if c.inp.length < 4 then Read.fault
  else Read.ok (bytes_word (c.inp.take 4)) { inp := c.inp.drop 4, size := c.size - 4 }

/-- The function `read_codec_blueprint_int` (lines 132-141). -/
def read_codec_blueprint_int (c : Cursor) : Read Int :=
  if c.size < 4 then Read.fail
  else if c.inp.length < 4 then Read.fault
  else Read.ok (to_gint (bytes_word (c.inp.take 4)))
    { inp := c.inp.drop 4, size := c.size - 4 }

/-- The function `read_codec_blueprint_string` (lines 143-159). The length is
compared as an unsigned `gsize`, and that many bytes are copied. -/
def read_codec_blueprint_string (c : Cursor) : Read CString :=
  (read_codec_blueprint_int c).andThen fun str_length c =>
    if c.size < gsize_of_gint str_length then Read.fail
    else if c.inp.length < gsize_of_gint str_length then Read.fault
    else Read.ok (cstring_of_bytes (c.inp.take (gsize_of_gint str_length)))
      { inp := c.inp.drop (gsize_of_gint str_length),
        size := c.size - gsize_of_gint str_length }

/-- The loop of lines 185-192 of `load_codec_blueprint`, with the number of
rounds still to run: reads (name, value) pairs and adds them to the codec. -/
def load_optional_params : Nat → FsCodec → Cursor → Read FsCodec
  | 0, codec, c => Read.ok codec c
  | n + 1, codec, c =>
    (read_codec_blueprint_string c).andThen fun name c =>
    (read_codec_blueprint_string c).andThen fun value c =>
    load_optional_params n (fs_codec_add_optional_parameter codec name value) c

/-- The inner loop of lines 208-214 (and 225-231) of `load_codec_blueprint`:
reads the element names of one chain and appends the factories found. -/
def load_pipeline_chain : Nat → List GstElementFactory → Cursor →
    Read (List GstElementFactory)
  | 0, tmplist, c => Read.ok tmplist c
  | n + 1, tmplist, c =>
    (read_codec_blueprint_string c).andThen fun tmp c =>
    load_pipeline_chain n (tmplist ++ [gst_element_factory_find tmp]) c

/-- The outer loop of lines 203-217 (and 220-234) of `load_codec_blueprint`:
reads the chains of one pipeline and appends them. -/
def load_pipeline : Nat → List (List GstElementFactory) → Cursor →
    Read (List (List GstElementFactory))
  | 0, pipeline, c => Read.ok pipeline c
  | n + 1, pipeline, c =>
    (read_codec_blueprint_int c).andThen fun tmp_size2 c =>
    (load_pipeline_chain tmp_size2.toNat [] c).andThen fun tmplist c =>
    load_pipeline n (pipeline ++ [tmplist]) c

/-- The zero-filled records `g_slice_new0` gives `load_codec_blueprint`, with
the media type set (lines 166-172). -/
def new_codec_blueprint (media_type : FsMediaType) : CodecBlueprint :=
  { codec :=
      { id := 0, encoding_name := cstr "", media_type := media_type, clock_rate := 0,
        channels := 0, optional_params := [] }
    media_caps := gst_caps_from_string (cstr "")
    rtp_caps := gst_caps_from_string (cstr "")
    send_pipeline_factory := []
    receive_pipeline_factory := []
    has_sink := false
    has_src := false
    send_has_unique := false
    receive_has_unique := false }

/-- The function `load_codec_blueprint` (lines 164-247). -/
def load_codec_blueprint (media_type : FsMediaType) (c : Cursor) : Read CodecBlueprint :=
  let codec_blueprint := new_codec_blueprint media_type
  (read_codec_blueprint_int c).andThen fun id c =>
  (read_codec_blueprint_string c).andThen fun encoding_name c =>
  (read_codec_blueprint_uint c).andThen fun clock_rate c =>
  (read_codec_blueprint_uint c).andThen fun channels c =>
  let codec := { codec_blueprint.codec with
    id := id, encoding_name := encoding_name, clock_rate := clock_rate, channels := channels }
  (read_codec_blueprint_int c).andThen fun tmp_size c =>
  (load_optional_params tmp_size.toNat codec c).andThen fun codec c =>
  (read_codec_blueprint_string c).andThen fun tmp c =>
  let media_caps := gst_caps_from_string tmp
  (read_codec_blueprint_string c).andThen fun tmp c =>
  let rtp_caps := gst_caps_from_string tmp
  (read_codec_blueprint_int c).andThen fun tmp_size c =>
  (load_pipeline tmp_size.toNat codec_blueprint.send_pipeline_factory c).andThen
    fun send_pipeline_factory c =>
  (read_codec_blueprint_int c).andThen fun tmp_size c =>
  (load_pipeline tmp_size.toNat codec_blueprint.receive_pipeline_factory c).andThen
    fun receive_pipeline_factory c =>
  Read.ok { codec_blueprint with
    codec := codec, media_caps := media_caps, rtp_caps := rtp_caps,
    send_pipeline_factory := send_pipeline_factory,
    receive_pipeline_factory := receive_pipeline_factory } c

/-- The loop of lines 351-366 of `load_codecs_cache`, with the number of
rounds still to run: a blueprint that does not load drops the whole list. -/
def load_blueprints (media_type : FsMediaType) :
    Nat → List CodecBlueprint → Cursor → Read (List CodecBlueprint)
  | 0, blueprints, c => Read.ok blueprints c
  | n + 1, blueprints, c =>
    (load_codec_blueprint media_type c).andThen fun blueprint c =>
    load_blueprints media_type n (blueprints ++ [blueprint]) c

/-- The media character of the magic header (lines 276-284 and 511-515). -/
def magic_media (media_type : FsMediaType) : Nat :=
  match media_type with
  | FsMediaType.FS_MEDIA_TYPE_AUDIO => 65
  | FsMediaType.FS_MEDIA_TYPE_VIDEO => 86

/-- The parsing part of `load_codecs_cache` (lines 319-366), on a cursor set
at the start of the file contents: the magic header, the number of
blueprints, the blueprints. -/
def load_codecs_cache_cursor (media_type : FsMediaType) (c : Cursor) :
    Read (List CodecBlueprint) :=
  if c.size < 8 then Read.fail
  else if c.inp.length < 8 then Read.fault
  else
    let magic := c.inp.take 8
    let c : Cursor := { inp := c.inp.drop 8, size := c.size - 8 }
    if magic.getD 0 0 ≠ 70 ∨ magic.getD 1 0 ≠ 83 ∨ magic.getD 2 0 ≠ magic_media media_type ∨
        magic.getD 3 0 ≠ 67 ∨ magic.getD 4 0 ≠ 49 ∨ magic.getD 5 0 ≠ 49 then Read.fail
    else if c.size < 4 then Read.fail
    else if c.inp.length < 4 then Read.fault
    else
      let num_blueprints := to_gint (bytes_word (c.inp.take 4))
      let c : Cursor := { inp := c.inp.drop 4, size := c.size - 4 }
      load_blueprints media_type num_blueprints.toNat [] c

/-- What `load_codecs_cache` hands back: the returned list, NULL being the
empty list, or a read outside the file contents. -/
inductive Loaded where
  | list (blueprints : List CodecBlueprint)
  | fault
  deriving DecidableEq

/-- The parsing part of `load_codecs_cache` on the contents of the cache
file: `in = contents` and `size` is the length of the file. -/
def load_codecs_cache_contents (media_type : FsMediaType) (contents : List Nat) : Loaded :=
  match load_codecs_cache_cursor media_type
      { inp := contents, size := contents.length } with
  | Read.ok blueprints _ => Loaded.list blueprints
  | Read.fail => Loaded.list []
  | Read.fault => Loaded.fault

/-- What the file system shows to `load_codecs_cache`: the `st_mtime` of the
two registry files and of the cache file (none when `stat` fails) and the
bytes of the cache file (none when it cannot be mapped or read). -/
structure CacheFiles where
  registry_xml_mtime : Option Int
  registry_bin_mtime : Option Int
  cache_mtime : Option Int
  contents : Option (List Nat)

/-- The function `codecs_cache_valid` (lines 57-93). -/
def codecs_cache_valid (files : CacheFiles) : Bool :=
  let registry_ts : Int := 0
  let registry_ts :=
    match files.registry_xml_mtime with
    | some st_mtime => st_mtime
    | none => registry_ts
  let registry_ts :=
    match files.registry_bin_mtime with
    | some st_mtime => if registry_ts < st_mtime then st_mtime else registry_ts
    | none => registry_ts
  let cache_ts : Int :=
    match files.cache_mtime with
    | some st_mtime => st_mtime
    | none => 0
  decide (registry_ts ≠ 0 ∧ cache_ts > registry_ts)

/-- The function `load_codecs_cache` (lines 259-376). -/
def load_codecs_cache (media_type : FsMediaType) (files : CacheFiles) : Loaded :=
  if ¬ codecs_cache_valid files then Loaded.list []
  else
    match files.contents with
    | none => Loaded.list []
    | some contents => load_codecs_cache_contents media_type contents

/-! ## `fs-rtp-codec-cache.c`: the writers -/

/-- The bytes `write_codec_blueprint_int` writes (lines 380-383). -/
def write_codec_blueprint_int (val : Int) : List Nat :=
  word_bytes (val % 2 ^ 32).toNat

/-- The bytes `write_codec_blueprint_string` writes (lines 385-392); none when
it returns FALSE. `size` is `strlen` converted to `gint`, and `write` is asked
for `size` bytes. -/
def write_codec_blueprint_string (str : CString) : Option (List Nat) :=
  let size := to_gint str.bytes.length
  if size < 0 then none
  else some (write_codec_blueprint_int size ++ str.bytes.take size.toNat)

/-- The loop of lines 412-417 of `save_codec_blueprint`. -/
def save_optional_params : List FsCodecParameter → Option (List Nat)
  | [] => some []
  | param :: walk => do
    let name ← write_codec_blueprint_string param.name
    let value ← write_codec_blueprint_string param.value
    let rest ← save_optional_params walk
    pure (name ++ value ++ rest)

/-- The inner loop of lines 437-441 (and 454-458) of `save_codec_blueprint`. -/
def save_pipeline_chain : List GstElementFactory → Option (List Nat)
  | [] => some []
  | fact :: walk2 => do
    let factory_name ← write_codec_blueprint_string (gst_plugin_feature_get_name fact)
    let rest ← save_pipeline_chain walk2
    pure (factory_name ++ rest)

/-- The outer loop of lines 432-442 (and 449-459) of `save_codec_blueprint`. -/
def save_pipeline_chains : List (List GstElementFactory) → Option (List Nat)
  | [] => some []
  | walk2 :: walk => do
    let chain ← save_pipeline_chain walk2
    let rest ← save_pipeline_chains walk
    pure (write_codec_blueprint_int (to_gint walk2.length) ++ chain ++ rest)

/-- The bytes `save_codec_blueprint` writes (lines 394-462); none when it
returns FALSE. -/
def save_codec_blueprint (codec_blueprint : CodecBlueprint) : Option (List Nat) := do
  let id := write_codec_blueprint_int codec_blueprint.codec.id
  let encoding_name ← write_codec_blueprint_string codec_blueprint.codec.encoding_name
  let clock_rate := write_codec_blueprint_int (to_gint codec_blueprint.codec.clock_rate)
  let channels := write_codec_blueprint_int (to_gint codec_blueprint.codec.channels)
  let size := write_codec_blueprint_int (to_gint codec_blueprint.codec.optional_params.length)
  let params ← save_optional_params codec_blueprint.codec.optional_params
  let media_caps ← write_codec_blueprint_string (gst_caps_to_string codec_blueprint.media_caps)
  let rtp_caps ← write_codec_blueprint_string (gst_caps_to_string codec_blueprint.rtp_caps)
  let send_size := write_codec_blueprint_int (to_gint codec_blueprint.send_pipeline_factory.length)
  let send ← save_pipeline_chains codec_blueprint.send_pipeline_factory
  let receive_size :=
    write_codec_blueprint_int (to_gint codec_blueprint.receive_pipeline_factory.length)
  let receive ← save_pipeline_chains codec_blueprint.receive_pipeline_factory
  pure (id ++ encoding_name ++ clock_rate ++ channels ++ size ++ params ++ media_caps ++
    rtp_caps ++ send_size ++ send ++ receive_size ++ receive)

/-- The loop of lines 530-541 of `save_codecs_cache`. -/
def save_blueprints : List CodecBlueprint → Option (List Nat)
  | [] => some []
  | codec_blueprint :: item => do
    let first ← save_codec_blueprint codec_blueprint
    let rest ← save_blueprints item
    pure (first ++ rest)

/-- The magic header `save_codecs_cache` writes (lines 506-521): eight bytes,
the last two zero. -/
def cache_magic (media_type : FsMediaType) : List Nat :=
  [70, 83, magic_media media_type, 67, 49, 49, 0, 0]

/-- The function `save_codecs_cache` (lines 465-562) when the temporary file
can be created and every `write` stores the bytes it is given: the bytes of
the cache file it leaves, or none when it returns FALSE. -/
def save_codecs_cache (media_type : FsMediaType) (blueprints : List CodecBlueprint) :
    Option (List Nat) := do
  let size := write_codec_blueprint_int (to_gint blueprints.length)
  let records ← save_blueprints blueprints
  pure (cache_magic media_type ++ size ++ records)

/-! ## Vocabulary of the cache statements -/

/-- The cursor `load_codecs_cache` starts from: `in` at the first byte of the
contents, `size` their length. -/
def cursor_at (contents : List Nat) : Cursor :=
  { inp := contents, size := contents.length }

/-- The length of the string fits a signed 32-bit integer. -/
def string_fits (s : CString) : Prop :=
  s.bytes.length < 2 ^ 31

/-- The fields of the codec are values of their C types (`gint` id, `guint`
clock rate and channel count), and its strings and its parameter count fit a
signed 32-bit integer. -/
def codec_fits (codec : FsCodec) : Prop :=
  -(2 ^ 31) ≤ codec.id ∧ codec.id < 2 ^ 31 ∧ string_fits codec.encoding_name ∧
    codec.clock_rate < 2 ^ 32 ∧ codec.channels < 2 ^ 32 ∧
    codec.optional_params.length < 2 ^ 31 ∧
    ∀ p ∈ codec.optional_params, string_fits p.name ∧ string_fits p.value

/-- The chain count, the element counts and the element names of a pipeline
fit a signed 32-bit integer. -/
def pipeline_fits (pipeline : List (List GstElementFactory)) : Prop :=
  pipeline.length < 2 ^ 31 ∧
    ∀ chain ∈ pipeline, chain.length < 2 ^ 31 ∧ ∀ fact ∈ chain, string_fits fact.name

/-- Every string length and every count of the blueprint fits a signed 32-bit
integer. -/
def blueprint_fits (bp : CodecBlueprint) : Prop :=
  codec_fits bp.codec ∧ string_fits bp.media_caps.text ∧ string_fits bp.rtp_caps.text ∧
    pipeline_fits bp.send_pipeline_factory ∧ pipeline_fits bp.receive_pipeline_factory

/-- Every blueprint of the list fits, and so does their number. -/
def blueprints_fit (blueprints : List CodecBlueprint) : Prop :=
  blueprints.length < 2 ^ 31 ∧ ∀ bp ∈ blueprints, blueprint_fits bp

instance (s : CString) : Decidable (string_fits s) := by
  unfold string_fits; infer_instance

instance (codec : FsCodec) : Decidable (codec_fits codec) := by
  unfold codec_fits; infer_instance

instance (pipeline : List (List GstElementFactory)) : Decidable (pipeline_fits pipeline) := by
  unfold pipeline_fits; infer_instance

instance (bp : CodecBlueprint) : Decidable (blueprint_fits bp) := by
  unfold blueprint_fits; infer_instance

instance (blueprints : List CodecBlueprint) : Decidable (blueprints_fit blueprints) := by
  unfold blueprints_fit; infer_instance

/-- The blueprint `load_codec_blueprint` rebuilds from the record of `bp`: the
fields that are stored, the requested media type, and the four flags as
`g_slice_new0` left them. -/
def reloaded (media_type : FsMediaType) (bp : CodecBlueprint) : CodecBlueprint :=
  { codec := { bp.codec with media_type := media_type }
    media_caps := bp.media_caps
    rtp_caps := bp.rtp_caps
    send_pipeline_factory := bp.send_pipeline_factory
    receive_pipeline_factory := bp.receive_pipeline_factory
    has_sink := false
    has_src := false
    send_has_unique := false
    receive_has_unique := false }

/-- A reader that, started with `size` equal to the number of bytes under the
cursor, never reads beyond them (never faults), leaves the cursor in the same
state, and returns the same value when more bytes follow the contents. -/
def Stable {α : Type} (reader : Cursor → Read α) : Prop :=
  ∀ p : List Nat, reader (cursor_at p) = Read.fail ∨
    ∃ val q, reader (cursor_at p) = Read.ok val (cursor_at q) ∧
      ∀ e, reader (cursor_at (p ++ e)) = Read.ok val (cursor_at (q ++ e))

/-! ## Example blueprints and files -/

/-- An element factory given by its name. -/
def ex_factory (name : String) : GstElementFactory :=
  { name := cstr name }

/-- A PCMU blueprint: static id 0, one parameter, a two-element send chain and
two one-element receive chains, three of the flags set. -/
def ex_blueprint_pcmu : CodecBlueprint :=
  { codec := ex_audio 0 "PCMU" 8000 1 [ex_param "a" "1"]
    media_caps := { text := cstr "audio/x-mulaw" }
    rtp_caps := { text := cstr "application/x-rtp" }
    send_pipeline_factory := [[ex_factory "mulawenc", ex_factory "rtppcmupay"]]
    receive_pipeline_factory := [[ex_factory "rtppcmudepay"], [ex_factory "mulawdec"]]
    has_sink := true
    has_src := true
    send_has_unique := false
    receive_has_unique := true }

/-- A small blueprint with an unassigned id, no parameter and empty pipelines. -/
def ex_blueprint_small : CodecBlueprint :=
  { codec := ex_audio (-1) "X" 1 0 []
    media_caps := { text := cstr "a" }
    rtp_caps := { text := cstr "r" }
    send_pipeline_factory := []
    receive_pipeline_factory := []
    has_sink := false
    has_src := false
    send_has_unique := false
    receive_has_unique := false }

/-- Cache and registry files with the given modification times and cache
contents, every `stat` succeeding. -/
def ex_files (registry_xml registry_bin cache : Int) (contents : List Nat) : CacheFiles :=
  { registry_xml_mtime := some registry_xml
    registry_bin_mtime := some registry_bin
    cache_mtime := some cache
    contents := some contents }

/-! ## `fs-rtp-codec-negotiation.c`: the local association builder -/

/-- Modelled from the spec: the reserved id `FS_CODEC_ID_ANY` of `fs-codec.h`,
"unassigned". -/
def FS_CODEC_ID_ANY : Int := -1

/-- Modelled from the spec: the reserved id `FS_CODEC_ID_DISABLE` of
`fs-codec.h`, "this capability is explicitly disabled". -/
def FS_CODEC_ID_DISABLE : Int := -2

/-- The capability functions the builder calls without looking inside a
descriptor, taken as parameters: `fs_codec_to_gst_caps` (none for NULL),
`gst_caps_intersect` and `gst_caps_is_empty`. -/
structure CapsLibrary where
  fs_codec_to_gst_caps : FsCodec → Option GstCaps
  gst_caps_intersect : GstCaps → GstCaps → GstCaps
  gst_caps_is_empty : GstCaps → Bool

/-- The record `CodecAssociation` of `fs-rtp-codec-negotiation.h`. The pointer
`blueprint` is the position of the blueprint in the blueprint list
(`blueprint_index`, what pointer comparison compares) together with the
blueprint it points to. -/
structure CodecAssociation where
  blueprint_index : Nat
  blueprint : CodecBlueprint
  codec : FsCodec
  deriving DecidableEq

/-- A `GHashTable` from payload ids (`GINT_TO_POINTER (id)`, hashed and
compared directly) to codec associations: its entries, one per key. -/
abbrev GHashTable := List (Int × CodecAssociation)

/-- glib `g_hash_table_lookup_extended`: whether the key is in the table. -/
def g_hash_table_lookup_extended (table : GHashTable) (key : Int) : Bool :=
  table.any (fun entry => decide (entry.1 = key))

/-- glib `g_hash_table_insert`: the entry of an existing key is replaced. -/
def g_hash_table_insert (table : GHashTable) (key : Int) (value : CodecAssociation) :
    GHashTable :=
  table.filter (fun entry => decide (entry.1 ≠ key)) ++ [(key, value)]

/-- The function `_ht_has_codec_blueprint` (lines 197-206), the blueprint
pointer being given by its position. -/
def _ht_has_codec_blueprint (value : CodecAssociation) (user_data : Nat) : Bool :=
  decide (value.blueprint_index = user_data)

/-- glib `g_hash_table_find` with `_ht_has_codec_blueprint`: some entry of the
table holds the blueprint. -/
def g_hash_table_find_blueprint (table : GHashTable) (user_data : Nat) : Bool :=
  table.any (fun entry => _ht_has_codec_blueprint entry.2 user_data)

/-- The loop of `_find_matching_blueprint` (lines 152-166) over the blueprints
from position `index` on. -/
def matching_blueprint_loop (lib : CapsLibrary) (caps : GstCaps) :
    Nat → List CodecBlueprint → Option (Nat × CodecBlueprint)
  | _, [] => none
  | index, bp :: rest =>
    if ¬ lib.gst_caps_is_empty (lib.gst_caps_intersect caps bp.rtp_caps) then some (index, bp)
    else matching_blueprint_loop lib caps (index + 1) rest

/-- The function `_find_matching_blueprint` (lines 138-174). `item` is NULL
when it is tested at line 144, so the function returns NULL there. -/
def _find_matching_blueprint (lib : CapsLibrary) (codec : FsCodec)
    (blueprints : List CodecBlueprint) : Option (Nat × CodecBlueprint) :=
  let item : Option (Nat × CodecBlueprint) := none
  if item.isNone then none
  else
    match lib.fs_codec_to_gst_caps codec with
    | none => none
    | some caps => matching_blueprint_loop lib caps 0 blueprints

/-- The ids the loop of `_find_first_empty_dynamic_entry` visits: 96 to 127. -/
def dynamic_ids : List Int :=
  (List.range 32).map (fun (i : Nat) => (96 : Int) + (i : Int))

/-- The loop of `_find_first_empty_dynamic_entry` (lines 182-192) over the ids
still to be visited. -/
def first_empty_loop (new_codec_associations old_codec_associations : Option GHashTable) :
    List Int → Int
  | [] => -1
  | id :: rest =>
    if (match new_codec_associations with
        | some table => g_hash_table_lookup_extended table id
        | none => false) then
      first_empty_loop new_codec_associations old_codec_associations rest
    else if (match old_codec_associations with
        | some table => g_hash_table_lookup_extended table id
        | none => false) then
      first_empty_loop new_codec_associations old_codec_associations rest
    else id

/-- The function `_find_first_empty_dynamic_entry` (lines 176-195). -/
def _find_first_empty_dynamic_entry
    (new_codec_associations old_codec_associations : Option GHashTable) : Int :=
  first_empty_loop new_codec_associations old_codec_associations dynamic_ids

/-- The function `_is_disabled` (lines 208-240). -/
def _is_disabled (lib : CapsLibrary) : List FsCodec → CodecBlueprint → Bool
  | [], _ => false
  | codec :: rest, bp =>
    if codec.id ≠ FS_CODEC_ID_DISABLE then _is_disabled lib rest bp
    else
      match lib.fs_codec_to_gst_caps codec with
      | none => _is_disabled lib rest bp
      | some caps =>
        if ¬ lib.gst_caps_is_empty (lib.gst_caps_intersect caps bp.rtp_caps) then true
        else _is_disabled lib rest bp

/-- The loop of lines 298-317 of `create_local_codec_associations`: the
parameters of the blueprint that the codec does not name yet are added. -/
def merge_blueprint_params : List FsCodecParameter → FsCodec → FsCodec
  | [], codec => codec
  | bp_param :: rest, codec =>
    if codec.optional_params.any
        (fun pref_param => decide (g_ascii_strcasecmp bp_param.name pref_param.name = 0)) then
      merge_blueprint_params rest codec
    else
      merge_blueprint_params rest
        { codec with optional_params :=
            codec.optional_params ++ [{ name := bp_param.name, value := bp_param.value }] }

/-- The first loop of `create_local_codec_associations` (lines 263-321): the
list `local_codec_association_list` built from the preferences. -/
def preference_associations (lib : CapsLibrary) (blueprints : List CodecBlueprint) :
    List FsCodec → List CodecAssociation
  | [] => []
  | codec_pref :: rest =>
    match _find_matching_blueprint lib codec_pref blueprints with
    | none => preference_associations lib blueprints rest
    | some (index, bp) =>
      if codec_pref.id = FS_CODEC_ID_DISABLE then preference_associations lib blueprints rest
      else
        let codec := fs_codec_copy codec_pref
        let codec :=
          if codec.id = FS_CODEC_ID_ANY ∧ (bp.codec.id ≥ 0 ∨ bp.codec.id < 128) then
            { codec with id := bp.codec.id }
          else codec
        let codec :=
          if codec.clock_rate ≤ 0 then { codec with clock_rate := bp.codec.clock_rate }
          else codec
        let codec :=
          if codec.channels = 0 then { codec with channels := bp.codec.channels }
          else codec
        let codec := merge_blueprint_params bp.codec.optional_params codec
        { blueprint_index := index, blueprint := bp, codec := codec } ::
          preference_associations lib blueprints rest

/-- The variables `codec_associations` and `local_codecs` of
`create_local_codec_associations`, and whether the warning "We've run out of
dynamic payload types" was issued and the build left through `goto out`. -/
structure Build where
  codec_associations : GHashTable
  local_codecs : List FsCodec
  out_of_payload_types : Bool

/-- The second loop of `create_local_codec_associations` (lines 326-349): the
preference associations receive their payload ids. -/
def assign_preference_ids (current_codec_associations : Option GHashTable) :
    List CodecAssociation → Build → Build
  | [], build => build
  | lca :: next, build =>
    if g_hash_table_lookup_extended build.codec_associations lca.codec.id ∨ lca.codec.id < 0 then
      let id := _find_first_empty_dynamic_entry current_codec_associations
        (some build.codec_associations)
      if id < 0 then { build with out_of_payload_types := true }
      else
        let lca := { lca with codec := { lca.codec with id := id } }
        assign_preference_ids current_codec_associations next
          { build with
            local_codecs := build.local_codecs ++ [lca.codec]
            codec_associations := g_hash_table_insert build.codec_associations lca.codec.id lca }
    else
      assign_preference_ids current_codec_associations next
        { build with
          local_codecs := build.local_codecs ++ [lca.codec]
          codec_associations := g_hash_table_insert build.codec_associations lca.codec.id lca }

/-- The third loop of `create_local_codec_associations` (lines 352-389) over
the blueprints from position `index` on. -/
def add_blueprints (lib : CapsLibrary) (codec_prefs : List FsCodec)
    (current_codec_associations : Option GHashTable) :
    Nat → List CodecBlueprint → Build → Build
  | _, [], build => build
  | index, bp :: rest, build =>
    if bp.codec.clock_rate ≤ 0 then
      add_blueprints lib codec_prefs current_codec_associations (index + 1) rest build
    else if g_hash_table_find_blueprint build.codec_associations index then
      add_blueprints lib codec_prefs current_codec_associations (index + 1) rest build
    else if _is_disabled lib codec_prefs bp then
      add_blueprints lib codec_prefs current_codec_associations (index + 1) rest build
    else
      let codec := fs_codec_copy bp.codec
      if codec.id < 0 then
        let id := _find_first_empty_dynamic_entry current_codec_associations
          (some build.codec_associations)
        if id < 0 then { build with out_of_payload_types := true }
        else
          let codec := { codec with id := id }
          add_blueprints lib codec_prefs current_codec_associations (index + 1) rest
            { build with
              codec_associations := g_hash_table_insert build.codec_associations codec.id
                { blueprint_index := index, blueprint := bp, codec := codec }
              local_codecs := build.local_codecs ++ [codec] }
      else
        add_blueprints lib codec_prefs current_codec_associations (index + 1) rest
          { build with
            codec_associations := g_hash_table_insert build.codec_associations codec.id
              { blueprint_index := index, blueprint := bp, codec := codec }
            local_codecs := build.local_codecs ++ [codec] }

/-- What `create_local_codec_associations` hands back: the returned table
(none for NULL), the list stored in `*local_codecs_list`, and whether the
warning about the dynamic payload types was issued. -/
structure LocalAssociations where
  codec_associations : Option GHashTable
  local_codecs : List FsCodec
  out_of_payload_types : Bool

set_option linter.unusedVariables false in
/-- The function `create_local_codec_associations` (lines 243-423). The
`media_type` is only used for a debug message. A codec that sits in
`local_codecs` stays there when `g_hash_table_insert` replaces its
association. -/
def create_local_codec_associations (lib : CapsLibrary) (media_type : FsMediaType)
    (blueprints : List CodecBlueprint) (codec_prefs : List FsCodec)
    (current_codec_associations : Option GHashTable) : LocalAssociations :=
  if blueprints = [] then
    { codec_associations := none, local_codecs := [], out_of_payload_types := false }
  else
    let local_codec_association_list := preference_associations lib blueprints codec_prefs
    let build : Build :=
      { codec_associations := [], local_codecs := [], out_of_payload_types := false }
    let build := assign_preference_ids current_codec_associations
      local_codec_association_list build
    let build :=
      if build.out_of_payload_types then build
      else add_blueprints lib codec_prefs current_codec_associations 0 blueprints build
    if build.local_codecs = [] then
      { codec_associations := none, local_codecs := [],
        out_of_payload_types := build.out_of_payload_types }
    else
      { codec_associations := some build.codec_associations,
        local_codecs := build.local_codecs,
        out_of_payload_types := build.out_of_payload_types }

/-! ## Vocabulary and examples of the builder statements -/

/-- The keys of a table. -/
def table_keys (table : GHashTable) : List Int :=
  table.map (fun entry => entry.1)

/-- The keys of the previous-session mapping, NULL having none. -/
def previous_keys (current_codec_associations : Option GHashTable) : List Int :=
  match current_codec_associations with
  | some table => table_keys table
  | none => []

/-- Whether the RTP capability descriptor of the blueprint intersects the
descriptor derived from some DISABLE entry of the preferences. -/
def intersects_disable_entry (lib : CapsLibrary) (codec_prefs : List FsCodec)
    (bp : CodecBlueprint) : Bool :=
  codec_prefs.any (fun codec =>
    decide (codec.id = FS_CODEC_ID_DISABLE) &&
      match lib.fs_codec_to_gst_caps codec with
      | some caps => !lib.gst_caps_is_empty (lib.gst_caps_intersect caps bp.rtp_caps)
      | none => false)

/-- An example capability library: the descriptor of a codec is its encoding
name, two descriptors intersect when the names are equal ignoring case, and
the empty descriptor is the empty text. -/
def ex_caps_library : CapsLibrary :=
  { fs_codec_to_gst_caps := fun codec => some { text := codec.encoding_name }
    gst_caps_intersect := fun a b =>
      if casefold a.text = casefold b.text then a else { text := cstr "" }
    gst_caps_is_empty := fun caps => decide (caps.text.bytes = []) }

/-- An example audio blueprint for the library `ex_caps_library`: its RTP
descriptor is its encoding name; no parameters, empty pipelines. -/
def ex_blueprint (id : Int) (name : String) (clock_rate : Nat) : CodecBlueprint :=
  { codec := ex_audio id name clock_rate 1 []
    media_caps := { text := cstr name }
    rtp_caps := { text := cstr name }
    send_pipeline_factory := []
    receive_pipeline_factory := []
    has_sink := false
    has_src := false
    send_has_unique := false
    receive_has_unique := false }

/-- The codec `c` is the codec of the blueprint `bp` with its payload id
settled: the same codec when the blueprint has an id (not negative), and
otherwise the codec with an id of the dynamic range [96,127] in place of the
unassigned one. -/
def from_blueprint (c : FsCodec) (bp : CodecBlueprint) : Prop :=
  (0 ≤ bp.codec.id → c = bp.codec) ∧
    (bp.codec.id < 0 → ∃ id : Int, 96 ≤ id ∧ id ≤ 127 ∧ c = { bp.codec with id := id })

/-- An example table entry: under the key, the association of the blueprint at
the given position with its codec carrying the key as id. -/
def ex_entry (key : Int) (blueprint_index : Nat) (bp : CodecBlueprint) :
    Int × CodecAssociation :=
  (key, { blueprint_index := blueprint_index, blueprint := bp,
          codec := { bp.codec with id := key } })

/-! ## The dispatch in the words of the specification -/

/-- The rule the specification names for a pair of codecs of equal media type
and case-insensitively equal names: the iLBC rule for audio codecs named iLBC,
the H263-1998 rule for video codecs named H263-1998, names compared
case-insensitively, and the default rule for every other pair. It is stated
apart from the table `sdp_compat_checks` and the loop `sdp_dispatch`, to be
compared with them. -/
def sdp_is_compat_by_rule (local_codec remote_codec : FsCodec) : Option FsCodec :=
  if is_ilbc remote_codec then sdp_is_compat_ilbc local_codec remote_codec
  else if is_h263_1998 remote_codec then sdp_is_compat_h263_1998 local_codec remote_codec
  else sdp_is_compat_default local_codec remote_codec

/-- The small blueprint with the two flags that discovery derives from the
pipelines set. -/
def ex_blueprint_small_flagged : CodecBlueprint :=
  { ex_blueprint_small with has_sink := true, has_src := true }

/-! ## `fs-rtp-codec-negotiation.c`: the validation of the preferences -/

/-- The innermost loop of `validate_codecs_configuration` (lines 83-96) for
one parameter of the preference codec: false is `goto next_blueprint`, true is
leaving the loop through `break` or at the end of the blueprint parameters. -/
def validate_blueprint_params (codecparam : FsCodecParameter) :
    List FsCodecParameter → Bool
  | [] => true
  | bpparam :: rest =>
    if g_ascii_strcasecmp codecparam.name bpparam.name = 0 then
      if g_ascii_strcasecmp codecparam.value bpparam.value ≠ 0 then false
      else true
    else validate_blueprint_params codecparam rest

/-- The loop over the parameters of the preference codec (lines 78-97): false
is `goto next_blueprint`. -/
def validate_codec_params (blueprint : CodecBlueprint) : List FsCodecParameter → Bool
  | [] => true
  | codecparam :: rest =>
    if validate_blueprint_params codecparam blueprint.codec.optional_params then
      validate_codec_params blueprint rest
    else false

/-- The loop over the blueprints (lines 56-101): whether it is left through
`break`, that is with `blueprint_e` not NULL. -/
def validate_find_blueprint (codec : FsCodec) : List CodecBlueprint → Bool
  | [] => false
  | blueprint :: rest =>
    if g_ascii_strcasecmp blueprint.codec.encoding_name codec.encoding_name ≠ 0 then
      validate_find_blueprint codec rest
    else if blueprint.codec.clock_rate ≠ 0 ∧ codec.clock_rate ≠ 0 ∧
        blueprint.codec.clock_rate ≠ codec.clock_rate then
      validate_find_blueprint codec rest
    else if blueprint.codec.clock_rate = 0 ∧ codec.clock_rate = 0 then
      validate_find_blueprint codec rest
    else if validate_codec_params blueprint codec.optional_params then true
    else validate_find_blueprint codec rest

/-- The function `validate_codecs_configuration` (lines 40-124): the list it
returns, the links of the removed codecs deleted. -/
def validate_codecs_configuration (media_type : FsMediaType)
    (blueprints : List CodecBlueprint) : List FsCodec → List FsCodec
  | [] => []
  | codec :: rest =>
    if media_type ≠ codec.media_type then
      validate_codecs_configuration media_type blueprints rest
    else if ¬ validate_find_blueprint codec blueprints then
      validate_codecs_configuration media_type blueprints rest
    else codec :: validate_codecs_configuration media_type blueprints rest

/-! ## Vocabulary of the validation statements -/

/-- The clock rates of a preference and a blueprint go together: at least one
of them is specified (nonzero), and when both are they are equal. -/
def clock_rates_agree (a b : Nat) : Prop :=
  (a ≠ 0 ∨ b ≠ 0) ∧ (a ≠ 0 → b ≠ 0 → a = b)

instance (a b : Nat) : Decidable (clock_rates_agree a b) := by
  unfold clock_rates_agree; infer_instance

/-- Every parameter of the preference that the blueprint names too has, in the
first blueprint parameter of that name, the same value; names and values are
compared case-insensitively. -/
def shared_params_agree (codec_params bp_params : List FsCodecParameter) : Prop :=
  ∀ p ∈ codec_params,
    ∀ q ∈ bp_params.find? (fun q => decide (casefold p.name = casefold q.name)),
      casefold p.value = casefold q.value

instance (codec_params bp_params : List FsCodecParameter) :
    Decidable (shared_params_agree codec_params bp_params) := by
  unfold shared_params_agree; infer_instance

/-- A preference codec is valid for the requested media type and the
blueprints: it has that media type, and some blueprint has the same name
(case-insensitively), a clock rate that goes with its clock rate, and agrees
with it on the parameters both name. -/
def valid_preference (media_type : FsMediaType) (blueprints : List CodecBlueprint)
    (codec : FsCodec) : Prop :=
  codec.media_type = media_type ∧
    ∃ bp ∈ blueprints,
      casefold bp.codec.encoding_name = casefold codec.encoding_name ∧
      clock_rates_agree bp.codec.clock_rate codec.clock_rate ∧
      shared_params_agree codec.optional_params bp.codec.optional_params

instance (media_type : FsMediaType) (blueprints : List CodecBlueprint) (codec : FsCodec) :
    Decidable (valid_preference media_type blueprints codec) := by
  unfold valid_preference; infer_instance

/-! ## Vocabulary of the statements about a whole build -/

/-- The blueprints the third loop of `create_local_codec_associations` does not
skip: a clock rate, and no DISABLE entry whose descriptor intersects the RTP
descriptor of the blueprint. -/
def usable_blueprints (lib : CapsLibrary) (codec_prefs : List FsCodec)
    (blueprints : List CodecBlueprint) : List CodecBlueprint :=
  blueprints.filter (fun bp => decide (bp.codec.clock_rate ≠ 0) &&
    !intersects_disable_entry lib codec_prefs bp)

/-- The payload ids handed out dynamically, in the order of the codec list: the
ids of the codecs that stand for a blueprint with an unassigned (negative) id,
the codecs being listed next to their blueprints. -/
def handed_out_ids : List FsCodec → List CodecBlueprint → List Int
  | c :: codecs, bp :: blueprints =>
    if bp.codec.id < 0 then c.id :: handed_out_ids codecs blueprints
    else handed_out_ids codecs blueprints
  | _, _ => []

/-- What the third loop of the builder did on the blueprints `rest`, started in
the state `build` and ended in the state `result`: it added the codecs `added`
for the blueprints `kept`, which are the usable blueprints of `rest` or, when
the dynamic payload types ran out, those before the blueprint `next` that
needed one; the ids handed out increase and were free when the loop started. -/
def blueprints_added (lib : CapsLibrary) (codec_prefs : List FsCodec)
    (current : Option GHashTable) (rest : List CodecBlueprint) (build result : Build) : Prop :=
  ∃ added kept,
    result.local_codecs = build.local_codecs ++ added ∧
    List.Forall₂ from_blueprint added kept ∧
    List.Pairwise (fun a b => a < b) (handed_out_ids added kept) ∧
    (∀ d ∈ handed_out_ids added kept, 96 ≤ d ∧ d ≤ 127 ∧
      d ∉ table_keys build.codec_associations ∧ d ∉ previous_keys current) ∧
    ((result.out_of_payload_types = build.out_of_payload_types ∧
        kept = usable_blueprints lib codec_prefs rest) ∨
      (result.out_of_payload_types = true ∧
        ∃ next rest1, usable_blueprints lib codec_prefs rest = kept ++ next :: rest1 ∧
          next.codec.id < 0 ∧
          ∀ j, 96 ≤ j → j ≤ 127 →
            j ∈ table_keys result.codec_associations ∨ j ∈ previous_keys current))

/-- Example blueprints: that many blueprints with an unassigned id and a clock
rate. -/
def ex_unassigned_blueprints (n : Nat) : List CodecBlueprint :=
  List.replicate n (ex_blueprint (-1) "X" 8000)

/-! ## `fs-rtp-discover-codecs.c`: from codec caps to blueprints -/

/-- A GLib `GValue` as `extract_field_data` tells values apart, by type:
`G_TYPE_STRING`, `G_TYPE_INT` (a `gint`), `GST_TYPE_INT_RANGE`, or any other
type. -/
inductive GValue where
  | string (s : CString)
  | int (v : Int)
  | int_range (min max : Int)
  | other
  deriving DecidableEq

/-- A GStreamer `GstStructure`: its name and its fields in order, each a field
name with its value. -/
structure GstStructure where
  name : CString
  fields : List (CString × GValue)
  deriving DecidableEq

/-- The record `CodecCap` (lines 42-50). A `GstCaps` is seen here through
`gst_caps_get_size` and `gst_caps_get_structure`: it is the list of its
structures. -/
structure CodecCap where
  caps : List GstStructure
  rtp_caps : List GstStructure
  element_list1 : List GstElementFactory
  element_list2 : List GstElementFactory
  deriving DecidableEq

/-- The `FsCodec` that `parse_codec_cap_list` allocates with `g_new0` and
`extract_field_data` fills in: the fields of `FsCodec`, the encoding name being
NULL (none) until a string field "encoding-name" is met. -/
structure CodecFields where
  id : Int
  encoding_name : Option CString
  media_type : FsMediaType
  clock_rate : Nat
  channels : Nat
  optional_params : List FsCodecParameter
  deriving DecidableEq

/-- The conversion of a `gint` to `guint` in the assignment
`codec->clock_rate = g_value_get_int (value)`. -/
def guint_of_gint (v : Int) : Nat :=
  (v % 2 ^ 32).toNat

/-- glib `g_ascii_strtoull (s, NULL, 10)`: leading white space is skipped, an
optional sign is read, then the longest run of decimal digits; a value beyond
`G_MAXUINT64` saturates, and a minus sign negates in 64-bit unsigned
arithmetic. -/
def g_ascii_strtoull (s : CString) : Nat :=
  let s1 := s.bytes.dropWhile isspace
  let negative : Bool := match s1 with
    | 45 :: _ => true
    | _ => false
  let s2 := match s1 with
    | 45 :: t => t
    | 43 :: t => t
    | _ => s1
  let v := digits_value (s2.takeWhile isdigit)
  let result := if v > 2 ^ 64 - 1 then 2 ^ 64 - 1 else v
  if negative then (2 ^ 64 - result) % 2 ^ 64 else result

/-- The function `extract_field_data` (lines 1320-1434): the value it returns
(FALSE for a field it rejects) and the codec as it leaves it. -/
def extract_field_data (field_name : CString) (value : GValue) (codec : CodecFields) :
    Bool × CodecFields :=
  if strcmp field_name (cstr "media") = 0 then
    match value with
    | GValue.string tmp =>
      if strcmp tmp (cstr "audio") = 0 then
        (true, { codec with media_type := FsMediaType.FS_MEDIA_TYPE_AUDIO })
      else if strcmp tmp (cstr "video") = 0 then
        (true, { codec with media_type := FsMediaType.FS_MEDIA_TYPE_VIDEO })
      else (true, codec)
    | _ => (false, codec)
  else if strcmp field_name (cstr "payload") = 0 then
    match value with
    | GValue.int_range min max =>
      if min < 96 ∨ max > 255 then (false, codec) else (true, codec)
    | GValue.int id =>
      if id > 96 then (false, codec) else (true, { codec with id := id })
    | _ => (false, codec)
  else if strcmp field_name (cstr "clock-rate") = 0 then
    match value with
    | GValue.int_range _ _ => (true, { codec with clock_rate := 0 })
    | GValue.int v => (true, { codec with clock_rate := guint_of_gint v })
    | _ => (false, codec)
  else if strcmp field_name (cstr "ssrc") = 0 ∨ strcmp field_name (cstr "clock-base") = 0 ∨
      strcmp field_name (cstr "seqnum-base") = 0 then
    (true, codec)
  else if strcmp field_name (cstr "encoding-name") = 0 then
    match value with
    | GValue.string s =>
      if codec.encoding_name.isNone then (true, { codec with encoding_name := some s })
      else (true, codec)
    | _ => (false, codec)
  else if strcmp field_name (cstr "encoding-params") = 0 then
    match value with
    | GValue.string s => (true, { codec with channels := g_ascii_strtoull s % 2 ^ 32 })
    | _ => (false, codec)
  else
    match value with
    | GValue.string s =>
      (true, { codec with
        optional_params := codec.optional_params ++ [{ name := field_name, value := s }] })
    | _ => (true, codec)

/-- GStreamer `gst_structure_foreach` with `extract_field_data` as the function:
the fields are visited in order, the visit stops at the first field for which
the function returns FALSE, and the result is whether it returned TRUE for
every field. -/
def gst_structure_foreach : List (CString × GValue) → CodecFields → Bool × CodecFields
  | [], codec => (true, codec)
  | (field_name, value) :: rest, codec =>
    match extract_field_data field_name value codec with
    | (false, codec) => (false, codec)
    | (true, codec) => gst_structure_foreach rest codec

/-- GStreamer `gst_structure_get_string`: the value of the field when the
structure has the field and it holds a string, NULL (none) otherwise. -/
def gst_structure_get_string (s : GstStructure) (fieldname : CString) :
    Option CString :=
  match s.fields.find? (fun field => decide (field.1 = fieldname)) with
  | some (_, GValue.string s) => some s
  | _ => none

/-- The function `validate_h263_codecs` (lines 349-398); none is `strcmp` on a
NULL pointer. -/
def validate_h263_codecs (codec_cap : CodecCap) : Option Bool :=
  match codec_cap.caps.head? with
  | none => none
  | some media_struct =>
    if strcmp media_struct.name (cstr "video/x-h263") ≠ 0 then some true
    else
      let encoding_name :=
        codec_cap.rtp_caps.head?.bind
          (fun rtp_struct => gst_structure_get_string rtp_struct (cstr "encoding-name"))
      match gst_structure_get_string media_struct (cstr "h263version") with
      | none => none
      | some h263version =>
        if strcmp h263version (cstr "h263") = 0 then
          match encoding_name with
          | none => none
          | some encoding_name =>
            if strcmp encoding_name (cstr "H263") ≠ 0 ∧
                strcmp encoding_name (cstr "H263-1998") ≠ 0 then some false
            else some true
        else if strcmp h263version (cstr "h263p") = 0 then
          match encoding_name with
          | none => none
          | some encoding_name =>
            if strcmp encoding_name (cstr "H263-1998") ≠ 0 then some false else some true
        else if strcmp h263version (cstr "h263pp") = 0 then
          match encoding_name with
          | none => none
          | some encoding_name =>
            if strcmp encoding_name (cstr "H263-2000") ≠ 0 then some false else some true
        else some true

/-- The function `validate_amr_codecs` (lines 401-433); none is `strcmp` on a
NULL pointer. -/
def validate_amr_codecs (codec_cap : CodecCap) : Option Bool :=
  match codec_cap.caps.head? with
  | none => none
  | some media_struct =>
    let encoding_name :=
      codec_cap.rtp_caps.head?.bind
        (fun rtp_struct => gst_structure_get_string rtp_struct (cstr "encoding-name"))
    if strcmp media_struct.name (cstr "audio/AMR-WB") = 0 then
      match encoding_name with
      | none => none
      | some encoding_name =>
        if strcmp encoding_name (cstr "AMR-WB") = 0 then some true else some false
    else if strcmp media_struct.name (cstr "audio/AMR") = 0 then
      match encoding_name with
      | none => none
      | some encoding_name =>
        if strcmp encoding_name (cstr "AMR") = 0 then some true else some false
    else some true

/-- A blueprint as `parse_codec_cap_list` builds it (lines 561-591), given by
its codec and by the codec cap whose two descriptors and two element lists it
copies. -/
structure DiscoveredBlueprint where
  codec : FsCodec
  codec_cap : CodecCap
  deriving DecidableEq

/-- One round of the loop of `parse_codec_cap_list` (lines 510-605): the
blueprints appended for one codec cap, none when a validation function hands
NULL to `strcmp`. The codec starts as `g_new0` leaves it (media type 0, the
first enumerator, audio), with the id ANY and the clock rate 0. The value
`gst_structure_foreach` returns is not looked at. -/
def parse_codec_cap (codec_cap : CodecCap) : Option (List DiscoveredBlueprint) :=
  let codec : CodecFields :=
    { id := FS_CODEC_ID_ANY, encoding_name := none,
      media_type := FsMediaType.FS_MEDIA_TYPE_AUDIO, clock_rate := 0, channels := 0,
      optional_params := [] }
  let codec := codec_cap.rtp_caps.foldl
    (fun codec rtp_struct => (gst_structure_foreach rtp_struct.fields codec).2) codec
  match codec.encoding_name with
  | none => some []
  | some encoding_name =>
    let valid :=
      match codec.media_type with
      | FsMediaType.FS_MEDIA_TYPE_VIDEO => validate_h263_codecs codec_cap
      | FsMediaType.FS_MEDIA_TYPE_AUDIO => validate_amr_codecs codec_cap
    match valid with
    | none => none
    | some false => some []
    | some true =>
      let codec : FsCodec :=
        { id := codec.id, encoding_name := encoding_name, media_type := codec.media_type,
          clock_rate := codec.clock_rate, channels := codec.channels,
          optional_params := codec.optional_params }
      if g_ascii_strcasecmp codec.encoding_name (cstr "H263-1998") = 0 then
        some [{ codec := codec, codec_cap := codec_cap },
          { codec := { fs_codec_copy codec with encoding_name := cstr "H263-N800" },
            codec_cap := codec_cap }]
      else some [{ codec := codec, codec_cap := codec_cap }]

set_option linter.unusedVariables false in
/-- The function `parse_codec_cap_list` (lines 498-606): the blueprints it
appends to the list of the media type, in order. The `media_type` selects the
list and is used in debug messages. -/
def parse_codec_cap_list : List CodecCap → FsMediaType → Option (List DiscoveredBlueprint)
  | [], _ => some []
  | codec_cap :: rest, media_type =>
    match parse_codec_cap codec_cap with
    | none => none
    | some added =>
      match parse_codec_cap_list rest media_type with
      | none => none
      | some more => some (added ++ more)

/-! ## Example codec caps -/

/-- A field given by ASCII literals, holding a string. -/
def ex_string_field (name value : String) : CString × GValue :=
  (cstr name, GValue.string (cstr value))

/-- A field given by an ASCII literal, holding an integer. -/
def ex_int_field (name : String) (value : Int) : CString × GValue :=
  (cstr name, GValue.int value)

/-- A codec cap with one media structure of the given name and one RTP
structure `application/x-rtp` with the given fields, and no elements. -/
def ex_codec_cap (media_name : String) (rtp_fields : List (CString × GValue)) : CodecCap :=
  { caps := [{ name := cstr media_name, fields := [] }]
    rtp_caps := [{ name := cstr "application/x-rtp", fields := rtp_fields }]
    element_list1 := []
    element_list2 := [] }

/-- An audio codec being filled in, its encoding name read already; no
channel count, no parameters. -/
def ex_codec_fields (id : Int) (name : String) (clock_rate : Nat) : CodecFields :=
  { id := id, encoding_name := some (cstr name),
    media_type := FsMediaType.FS_MEDIA_TYPE_AUDIO, clock_rate := clock_rate, channels := 0,
    optional_params := [] }

/-! ## String lemmas -/

theorem CString.ext_bytes {a b : CString} (h : a.bytes = b.bytes) : a = b := by
  cases a; cases b; simp_all

theorem strcmp_bytes_eq_zero_iff (a b : List Nat)
    (ha : ∀ x ∈ a, 0 < x) (hb : ∀ x ∈ b, 0 < x) :
    strcmp_bytes a b = 0 ↔ a = b := by
  induction a generalizing b with
  | nil =>
    cases b with
    | nil => simp [strcmp_bytes]
    | cons y ys =>
      have hy : 0 < y := hb y (by simp)
      simp [strcmp_bytes]; omega
  | cons x xs ih =>
    cases b with
    | nil =>
      have hx : 0 < x := ha x (by simp)
      simp [strcmp_bytes]; omega
    | cons y ys =>
      simp only [strcmp_bytes]
      by_cases hxy : x = y
      · subst hxy
        have := ih ys (fun z hz => ha z (by simp [hz])) (fun z hz => hb z (by simp [hz]))
        simp [this]
      · simp [hxy]; omega

theorem strcmp_eq_zero_iff (a b : CString) : strcmp a b = 0 ↔ a = b := by
  unfold strcmp
  rw [strcmp_bytes_eq_zero_iff a.bytes b.bytes (fun x hx => (a.valid x hx).1)
    (fun x hx => (b.valid x hx).1)]
  exact ⟨CString.ext_bytes, fun h => by rw [h]⟩

theorem g_ascii_tolower_pos {c : Nat} (h : 0 < c) : 0 < g_ascii_tolower c := by
  unfold g_ascii_tolower; split <;> omega

theorem g_ascii_strcasecmp_bytes_eq_zero_iff (a b : List Nat)
    (ha : ∀ x ∈ a, 0 < x) (hb : ∀ x ∈ b, 0 < x) :
    g_ascii_strcasecmp_bytes a b = 0 ↔ a.map g_ascii_tolower = b.map g_ascii_tolower := by
  induction a generalizing b with
  | nil =>
    cases b with
    | nil => simp [g_ascii_strcasecmp_bytes]
    | cons y ys =>
      have hy : 0 < y := hb y (by simp)
      simp [g_ascii_strcasecmp_bytes]; omega
  | cons x xs ih =>
    cases b with
    | nil =>
      have hx : 0 < x := ha x (by simp)
      simp [g_ascii_strcasecmp_bytes]; omega
    | cons y ys =>
      simp only [g_ascii_strcasecmp_bytes]
      by_cases hxy : g_ascii_tolower x = g_ascii_tolower y
      · have := ih ys (fun z hz => ha z (by simp [hz])) (fun z hz => hb z (by simp [hz]))
        simp [hxy, this]
      · simp [hxy]; omega

/-- The function `g_ascii_strcasecmp` returns 0 exactly on strings with equal
case foldings. -/
theorem g_ascii_strcasecmp_eq_zero_iff (a b : CString) :
    g_ascii_strcasecmp a b = 0 ↔ casefold a = casefold b := by
  unfold g_ascii_strcasecmp casefold
  exact g_ascii_strcasecmp_bytes_eq_zero_iff a.bytes b.bytes
    (fun x hx => (a.valid x hx).1) (fun x hx => (b.valid x hx).1)

@[simp] theorem fs_codec_copy_eq (c : FsCodec) : fs_codec_copy c = c := by
  cases c
  simp [fs_codec_copy]

/-! ## The default rule -/

theorem default_scan_absent (lp : FsCodecParameter) (N : List FsCodecParameter)
    (h : ∀ np ∈ N, casefold lp.name ≠ casefold np.name) :
    default_scan lp N = ScanEnd.exhausted := by
  induction N with
  | nil => rfl
  | cons x xs ih =>
    have hx : ¬ g_ascii_strcasecmp lp.name x.name = 0 := by
      rw [g_ascii_strcasecmp_eq_zero_iff]; exact h x (by simp)
    simp [default_scan, hx, ih (fun np hnp => h np (by simp [hnp]))]

theorem default_scan_present (lp np : FsCodecParameter) (N : List FsCodecParameter)
    (hN : (param_names N).Nodup) (hmem : np ∈ N)
    (hname : casefold lp.name = casefold np.name) :
    default_scan lp N = if lp.value = np.value then ScanEnd.hit N else ScanEnd.reject := by
  induction N with
  | nil => simp at hmem
  | cons x xs ih =>
    simp only [param_names, List.map_cons, List.nodup_cons, List.mem_map, not_exists,
      not_and] at hN
    rcases List.mem_cons.mp hmem with rfl | hin
    · have hx : g_ascii_strcasecmp lp.name np.name = 0 := by
        rw [g_ascii_strcasecmp_eq_zero_iff]; exact hname
      simp [default_scan, hx, strcmp_eq_zero_iff]
    · have hx : ¬ g_ascii_strcasecmp lp.name x.name = 0 := by
        rw [g_ascii_strcasecmp_eq_zero_iff, hname]
        intro hc
        exact hN.1 np hin hc
      have := ih hN.2 hin
      by_cases hv : lp.value = np.value
      · simp only [hv, if_true] at this ⊢
        simp [default_scan, hx, this]
      · simp only [hv, if_false] at this ⊢
        simp [default_scan, hx, this]


theorem has_param_eq_false_iff (N : List FsCodecParameter) (name : CString) :
    has_param N name = false ↔ ∀ np ∈ N, casefold name ≠ casefold np.name := by
  simp only [has_param, List.any_eq_false, decide_eq_true_eq]
  constructor
  · intro h np hnp hc; exact h np hnp hc.symm
  · intro h np hnp hc; exact h np hnp hc.symm

theorem has_param_eq_true_iff (N : List FsCodecParameter) (name : CString) :
    has_param N name = true ↔ ∃ np ∈ N, casefold name = casefold np.name := by
  simp only [has_param, List.any_eq_true, decide_eq_true_eq]
  constructor
  · rintro ⟨np, hnp, hc⟩; exact ⟨np, hnp, hc.symm⟩
  · rintro ⟨np, hnp, hc⟩; exact ⟨np, hnp, hc.symm⟩

/-- The outer loop of the default rule, when no name occurs twice in either
list: it succeeds exactly when every shared name carries equal values, and
then appends the local parameters whose names the negotiated list lacks. -/
theorem default_params_spec (L N : List FsCodecParameter)
    (hL : (param_names L).Nodup) (hN : (param_names N).Nodup) :
    default_params L N =
      if (∀ lp ∈ L, ∀ np ∈ N, casefold lp.name = casefold np.name → lp.value = np.value)
      then some (N ++ L.filter (fun lp => !has_param N lp.name)) else none := by
  induction L generalizing N with
  | nil => simp [default_params]
  | cons lp rest ih =>
    simp only [param_names, List.map_cons, List.nodup_cons, List.mem_map, not_exists,
      not_and] at hL
    by_cases hex : ∃ np ∈ N, casefold lp.name = casefold np.name
    · obtain ⟨np, hnp, hname⟩ := hex
      have hscan := default_scan_present lp np N hN hnp hname
      have hhas : has_param N lp.name = true :=
        (has_param_eq_true_iff N lp.name).mpr ⟨np, hnp, hname⟩
      have huniq : ∀ np2 ∈ N, casefold lp.name = casefold np2.name → np2 = np := by
        intro np2 hnp2 hc
        exact List.inj_on_of_nodup_map hN hnp2 hnp (by show casefold np2.name = casefold np.name; rw [← hc, hname])
      by_cases hv : lp.value = np.value
      · simp only [hv, if_true] at hscan
        simp only [default_params, hscan, ih N hL.2 hN, List.forall_mem_cons,
          List.filter_cons, hhas, Bool.not_true]
        have hlp : ∀ np2 ∈ N, casefold lp.name = casefold np2.name → lp.value = np2.value := by
          intro np2 hnp2 hc
          rw [huniq np2 hnp2 hc]; exact hv
        simp only [and_iff_right hlp]
        simp
      · simp only [hv, if_false] at hscan
        simp only [default_params, hscan, List.forall_mem_cons]
        have hlp : ¬ ∀ np2 ∈ N, casefold lp.name = casefold np2.name → lp.value = np2.value :=
          fun h => hv (h np hnp hname)
        simp [hlp]
    · have habs : ∀ np ∈ N, casefold lp.name ≠ casefold np.name := by
        intro np hnp hc; exact hex ⟨np, hnp, hc⟩
      have hscan := default_scan_absent lp N habs
      have hhas : has_param N lp.name = false :=
        (has_param_eq_false_iff N lp.name).mpr habs
      have hN2 : (param_names (N ++ [lp])).Nodup := by
        simp only [param_names, List.map_append, List.map_cons, List.map_nil]
        rw [List.nodup_append]
        refine ⟨hN, by simp, ?_⟩
        intro a ha hb
        simp only [List.mem_singleton] at hb
        obtain ⟨np, hnp, rfl⟩ := List.mem_map.mp ha
        exact habs np hnp hb.symm
      have hlp : ∀ np2 ∈ N, casefold lp.name = casefold np2.name → lp.value = np2.value :=
        fun np2 hnp2 hc => absurd hc (habs np2 hnp2)
      have hcond : (∀ lp2 ∈ rest, ∀ np ∈ N ++ [lp],
            casefold lp2.name = casefold np.name → lp2.value = np.value) ↔
          (∀ lp2 ∈ rest, ∀ np ∈ N, casefold lp2.name = casefold np.name →
            lp2.value = np.value) := by
        constructor
        · intro h lp2 hlp2 np hnp hc
          exact h lp2 hlp2 np (by simp [hnp]) hc
        · intro h lp2 hlp2 np hnp hc
          rcases List.mem_append.mp hnp with hin | hin
          · exact h lp2 hlp2 np hin hc
          · simp only [List.mem_singleton] at hin
            subst hin
            exact absurd hc (hL.1 lp2 hlp2)
      have hfilter : rest.filter (fun lp2 => !has_param (N ++ [lp]) lp2.name) =
          rest.filter (fun lp2 => !has_param N lp2.name) := by
        apply List.filter_congr
        intro lp2 hlp2
        have : ¬ casefold lp.name = casefold lp2.name := fun hc => hL.1 lp2 hlp2 hc.symm
        simp [has_param, this]
      have heta : ({ name := lp.name, value := lp.value } : FsCodecParameter) = lp := rfl
      simp only [default_params, hscan, heta, ih (N ++ [lp]) hL.2 hN2, hcond, hfilter,
        List.forall_mem_cons, List.filter_cons, hhas, Bool.not_false, if_true,
        and_iff_right hlp]
      simp

theorem negotiated_head_ok (l r : FsCodec) (hclock : clock_rate_ok l r)
    (hchan : channels_ok l r) :
    negotiated_head l r = some
      { r with
        channels := if r.channels ≠ 0 then r.channels else l.channels
        clock_rate := if r.clock_rate ≠ 0 then r.clock_rate else l.clock_rate } := by
  unfold clock_rate_ok at hclock
  unfold channels_ok at hchan
  simp only [negotiated_head, hclock, hchan, if_false, fs_codec_copy_eq]
  obtain ⟨rid, rname, rmedia, rclock, rchan, rparams⟩ := r
  by_cases h1 : rchan = 0 <;> by_cases h2 : l.channels = 0 <;>
    by_cases h3 : rclock = 0 <;> simp [h1, h2, h3]

theorem negotiated_head_eq_none_iff (l r : FsCodec) :
    negotiated_head l r = none ↔ ¬ clock_rate_ok l r ∨ ¬ channels_ok l r := by
  by_cases hclock : clock_rate_ok l r
  · by_cases hchan : channels_ok l r
    · simp [negotiated_head_ok l r hclock hchan, hclock, hchan]
    · have h1 := hclock
      have h2 := hchan
      unfold clock_rate_ok at h1
      unfold channels_ok at h2
      simp only [not_not] at h2
      simp [negotiated_head, h1, h2, hclock, hchan]
  · have h1 := hclock
    unfold clock_rate_ok at h1
    simp only [not_not] at h1
    simp [negotiated_head, h1, hclock]

theorem sdp_is_compat_default_ok (l r : FsCodec) (hclock : clock_rate_ok l r)
    (hchan : channels_ok l r) :
    sdp_is_compat_default l r =
      (default_params l.optional_params r.optional_params).map (fun params =>
        { r with
          channels := if r.channels ≠ 0 then r.channels else l.channels
          clock_rate := if r.clock_rate ≠ 0 then r.clock_rate else l.clock_rate
          optional_params := params }) := by
  simp only [sdp_is_compat_default, negotiated_head_ok l r hclock hchan]
  cases default_params l.optional_params r.optional_params <;> rfl

/-! ## The iLBC rule, the H263-1998 rule and the dispatch -/

/-- The negotiated codec starts with the parameter list of the remote codec. -/
theorem negotiated_head_params (l r n : FsCodec) (h : negotiated_head l r = some n) :
    n.optional_params = r.optional_params := by
  unfold negotiated_head at h
  split at h
  · simp at h
  · split at h
    · simp at h
    · simp only [fs_codec_copy_eq, Option.some.injEq] at h
      rw [← h]
      split <;> split <;> rfl

/-- A scan of the default rule that ends on a `break` leaves the list unchanged. -/
theorem default_scan_hit (lp : FsCodecParameter) (N N1 : List FsCodecParameter)
    (h : default_scan lp N = ScanEnd.hit N1) : N1 = N := by
  induction N generalizing N1 with
  | nil => simp [default_scan] at h
  | cons x xs ih =>
    simp only [default_scan] at h
    split at h
    · split at h
      · simpa using h.symm
      · simp at h
    · cases hs : default_scan lp xs with
      | hit r1 =>
        rw [hs] at h
        simp only [ScanEnd.hit.injEq] at h
        rw [← h, ih r1 hs]
      | exhausted => rw [hs] at h; simp at h
      | reject => rw [hs] at h; simp at h

/-- Every parameter the default rule returns comes from the negotiated list it started
with or from the local list. -/
theorem default_params_mem (L N ps : List FsCodecParameter)
    (h : default_params L N = some ps) : ∀ p ∈ ps, p ∈ N ∨ p ∈ L := by
  induction L generalizing N with
  | nil =>
    simp only [default_params, Option.some.injEq] at h
    subst h
    intro p hp; exact Or.inl hp
  | cons lp rest ih =>
    unfold default_params at h
    cases hs : default_scan lp N with
    | reject => rw [hs] at h; simp at h
    | hit N1 =>
      rw [hs] at h
      simp only at h
      rw [default_scan_hit lp N N1 hs] at h
      intro p hp
      rcases ih N h p hp with h1 | h1
      · exact Or.inl h1
      · exact Or.inr (by simp [h1])
    | exhausted =>
      rw [hs] at h
      simp only at h
      intro p hp
      rcases ih _ h p hp with h1 | h1
      · rcases List.mem_append.mp h1 with h2 | h2
        · exact Or.inl h2
        · simp only [List.mem_singleton] at h2
          subst h2
          exact Or.inr (by simp)
      · exact Or.inr (by simp [h1])

theorem strcasecmp_mode_iff (p : FsCodecParameter) :
    g_ascii_strcasecmp p.name (cstr "mode") = 0 ↔ is_mode p := by
  rw [g_ascii_strcasecmp_eq_zero_iff]; rfl

/-- For a local parameter that is not named "mode", the scan of the iLBC rule
is the scan of the default rule and leaves `has_mode` alone. -/
theorem ilbc_scan_not_mode (lp : FsCodecParameter) (N : List FsCodecParameter) (hm : Bool)
    (hlp : ¬ is_mode lp) : ilbc_scan lp N hm = (hm, default_scan lp N) := by
  have hlp2 : ¬ g_ascii_strcasecmp lp.name (cstr "mode") = 0 := by
    rw [strcasecmp_mode_iff]; exact hlp
  induction N with
  | nil => rfl
  | cons x xs ih =>
    simp only [ilbc_scan, default_scan, hlp2, if_false]
    by_cases hx : g_ascii_strcasecmp lp.name x.name = 0
    · simp only [hx, if_true]
      split <;> rfl
    · simp only [hx, if_false, ih]
      cases default_scan lp xs <;> rfl

/-- A scan of the iLBC rule that meets no parameter of the same name runs off the
end of the list and leaves `has_mode` alone. -/
theorem ilbc_scan_absent (lp : FsCodecParameter) (N : List FsCodecParameter) (hm : Bool)
    (h : ∀ np ∈ N, casefold lp.name ≠ casefold np.name) :
    ilbc_scan lp N hm = (hm, ScanEnd.exhausted) := by
  induction N with
  | nil => rfl
  | cons x xs ih =>
    have hx : ¬ g_ascii_strcasecmp lp.name x.name = 0 := by
      rw [g_ascii_strcasecmp_eq_zero_iff]; exact h x (by simp)
    simp [ilbc_scan, hx, ih (fun np hnp => h np (by simp [hnp]))]

theorem force_mode_30_of_no_mode (N : List FsCodecParameter)
    (h : ∀ np ∈ N, ¬ is_mode np) : force_mode_30 N = N := by
  induction N with
  | nil => rfl
  | cons x xs ih =>
    have hx : ¬ is_mode x := h x (by simp)
    simp only [force_mode_30, List.map_cons, hx, if_false, List.cons.injEq, true_and]
    exact ih (fun np hnp => h np (by simp [hnp]))

/-- A local "mode" parameter meeting the single negotiated "mode" parameter
with a valid and different mode: the negotiated value becomes "30". -/
theorem ilbc_scan_mode_differ (lp np : FsCodecParameter) (N : List FsCodecParameter)
    (hm : Bool) (hN : (param_names N).Nodup) (hmem : np ∈ N)
    (hlp : is_mode lp) (hnp : is_mode np)
    (hvalid : atoi np.value = 20 ∨ atoi np.value = 30)
    (hdiff : atoi lp.value ≠ atoi np.value) :
    ilbc_scan lp N hm = (true, ScanEnd.hit (force_mode_30 N)) := by
  have hlp2 : g_ascii_strcasecmp lp.name (cstr "mode") = 0 :=
    (strcasecmp_mode_iff lp).mpr hlp
  induction N generalizing hm with
  | nil => simp at hmem
  | cons x xs ih =>
    simp only [param_names, List.map_cons, List.nodup_cons, List.mem_map, not_exists,
      not_and] at hN
    rcases List.mem_cons.mp hmem with rfl | hin
    · have hx : g_ascii_strcasecmp lp.name np.name = 0 := by
        rw [g_ascii_strcasecmp_eq_zero_iff]; exact hlp.trans hnp.symm
      have hv : ¬ (atoi np.value ≠ 20 ∧ atoi np.value ≠ 30) := by
        rcases hvalid with h | h <;> simp [h]
      have hrest : force_mode_30 xs = xs :=
        force_mode_30_of_no_mode xs (fun q hq hmq => hN.1 q hq (hmq.trans hnp.symm))
      simp only [ilbc_scan, hx, hlp2, hv, hdiff, if_true, if_false, ne_eq, not_false_eq_true]
      simp only [force_mode_30, List.map_cons, hnp, if_true] at hrest ⊢
      rw [hrest]
    · have hxm : ¬ is_mode x := fun hmx => hN.1 np hin (hnp.trans hmx.symm)
      have hx : ¬ g_ascii_strcasecmp lp.name x.name = 0 := by
        rw [g_ascii_strcasecmp_eq_zero_iff]
        intro hc
        exact hxm (hc.symm.trans hlp)
      simp only [ilbc_scan, hx, if_false, ih hm hN.2 hin]
      simp [force_mode_30, hxm]

/-- A local "mode" parameter against a negotiated list that has a "mode"
parameter, none of them with a valid mode: the scan rejects. -/
theorem ilbc_scan_mode_invalid (lp : FsCodecParameter) (N : List FsCodecParameter)
    (hm : Bool) (hlp : is_mode lp) (hex : ∃ np ∈ N, is_mode np)
    (hinv : ∀ np ∈ N, is_mode np → atoi np.value ≠ 20 ∧ atoi np.value ≠ 30) :
    (ilbc_scan lp N hm).2 = ScanEnd.reject := by
  have hlp2 : g_ascii_strcasecmp lp.name (cstr "mode") = 0 :=
    (strcasecmp_mode_iff lp).mpr hlp
  induction N generalizing hm with
  | nil => simp at hex
  | cons x xs ih =>
    by_cases hxm : is_mode x
    · have hx : g_ascii_strcasecmp lp.name x.name = 0 := by
        rw [g_ascii_strcasecmp_eq_zero_iff]; exact hlp.trans hxm.symm
      have hv := hinv x (by simp) hxm
      simp [ilbc_scan, hx, hlp2, hv]
    · have hx : ¬ g_ascii_strcasecmp lp.name x.name = 0 := by
        rw [g_ascii_strcasecmp_eq_zero_iff]
        intro hc
        exact hxm (hc.symm.trans hlp)
      obtain ⟨np, hnp, hnpm⟩ := hex
      have hin : np ∈ xs := by
        rcases List.mem_cons.mp hnp with rfl | h
        · exact absurd hnpm hxm
        · exact h
      have := ih hm ⟨np, hin, hnpm⟩ (fun q hq => hinv q (by simp [hq]))
      simp only [ilbc_scan, hx, if_false]
      revert this
      cases ilbc_scan lp xs hm with
      | mk a b => cases b <;> simp

theorem param_names_force_mode_30 (N : List FsCodecParameter) :
    param_names (force_mode_30 N) = param_names N := by
  induction N with
  | nil => rfl
  | cons x xs ih =>
    simp only [param_names, force_mode_30, List.map_cons, List.cons.injEq] at ih ⊢
    refine ⟨?_, ih⟩
    split <;> rfl

theorem has_param_eq_of_names (N1 N2 : List FsCodecParameter) (name : CString)
    (h : param_names N1 = param_names N2) : has_param N1 name = has_param N2 name := by
  have h1 : ∀ N : List FsCodecParameter, has_param N name =
      (param_names N).any (fun n => decide (n = casefold name)) := by
    intro N
    induction N with
    | nil => rfl
    | cons x xs ih =>
      simp only [has_param, param_names, List.any_cons, List.map_cons] at ih ⊢
      rw [ih]
  rw [h1, h1, h]

theorem has_param_cons (p : FsCodecParameter) (ps : List FsCodecParameter) (name : CString) :
    has_param (p :: ps) name = (decide (casefold p.name = casefold name) || has_param ps name) := by
  simp [has_param]

theorem mem_force_mode_30 (N : List FsCodecParameter) (p : FsCodecParameter)
    (h : p ∈ force_mode_30 N) :
    ∃ q ∈ N, casefold p.name = casefold q.name ∧ (¬ is_mode q → p = q) ∧
      (is_mode q → p.value = cstr "30") := by
  simp only [force_mode_30, List.mem_map] at h
  obtain ⟨q, hq, rfl⟩ := h
  refine ⟨q, hq, ?_, ?_, ?_⟩
  · split <;> rfl
  · intro hnm; simp [hnm]
  · intro hmq; simp [hmq]

theorem force_mode_30_append (N1 N2 : List FsCodecParameter) :
    force_mode_30 (N1 ++ N2) = force_mode_30 N1 ++ force_mode_30 N2 := by
  simp [force_mode_30]

/-- The outer loop of the iLBC rule when no name occurs twice in either list,
shared names other than "mode" carry equal values, and a "mode" present on
both sides is valid on the negotiated side and differs from the local one. -/
theorem ilbc_params_spec (L N : List FsCodecParameter) (hm : Bool)
    (hL : (param_names L).Nodup) (hN : (param_names N).Nodup)
    (hother : ∀ lp ∈ L, ∀ np ∈ N, casefold lp.name = casefold np.name →
      ¬ is_mode lp → lp.value = np.value)
    (hmode : ∀ lp ∈ L, ∀ np ∈ N, is_mode lp → is_mode np →
      (atoi np.value = 20 ∨ atoi np.value = 30) ∧ atoi lp.value ≠ atoi np.value) :
    ilbc_params L N hm =
      some ((if has_param L (cstr "mode") then force_mode_30 N else N) ++
          L.filter (fun lp => !has_param N lp.name),
        hm || has_param L (cstr "mode")) := by
  induction L generalizing N hm with
  | nil => simp [ilbc_params, has_param]
  | cons lp rest ih =>
    simp only [param_names, List.map_cons, List.nodup_cons, List.mem_map, not_exists,
      not_and] at hL
    have heta : ({ name := lp.name, value := lp.value } : FsCodecParameter) = lp := rfl
    have hrest_mode : is_mode lp → has_param rest (cstr "mode") = false := by
      intro hlm
      rw [has_param_eq_false_iff]
      intro q hq hc
      exact hL.1 q hq (hc.symm.trans hlm.symm)
    by_cases hex : ∃ np ∈ N, casefold lp.name = casefold np.name
    · obtain ⟨np, hnp, hname⟩ := hex
      have hhas : has_param N lp.name = true :=
        (has_param_eq_true_iff N lp.name).mpr ⟨np, hnp, hname⟩
      by_cases hlm : is_mode lp
      · -- the local "mode" meets the negotiated "mode"
        have hnm : is_mode np := hname.symm.trans hlm
        obtain ⟨hvalid, hdiff⟩ := hmode lp (by simp) np hnp hlm hnm
        have hscan := ilbc_scan_mode_differ lp np N hm hN hnp hlm hnm hvalid hdiff
        have hN2 : (param_names (force_mode_30 N)).Nodup := by
          rw [param_names_force_mode_30]; exact hN
        have hother2 : ∀ lp2 ∈ rest, ∀ np2 ∈ force_mode_30 N,
            casefold lp2.name = casefold np2.name → ¬ is_mode lp2 → lp2.value = np2.value := by
          intro lp2 hlp2 np2 hnp2 hc hnm2
          obtain ⟨q, hq, hqn, hqe, _⟩ := mem_force_mode_30 N np2 hnp2
          have hqm : ¬ is_mode q := fun hqm => hnm2 ((hc.trans hqn).trans hqm)
          rw [hqe hqm]
          exact hother lp2 (by simp [hlp2]) q hq (hc.trans hqn) hnm2
        have hmode2 : ∀ lp2 ∈ rest, ∀ np2 ∈ force_mode_30 N, is_mode lp2 → is_mode np2 →
            (atoi np2.value = 20 ∨ atoi np2.value = 30) ∧ atoi lp2.value ≠ atoi np2.value := by
          intro lp2 hlp2 np2 _ hm2 _
          exact absurd (hm2.trans hlm.symm) (hL.1 lp2 hlp2)
        have hfilter : rest.filter (fun lp2 => !has_param (force_mode_30 N) lp2.name) =
            rest.filter (fun lp2 => !has_param N lp2.name) := by
          apply List.filter_congr
          intro lp2 _
          rw [has_param_eq_of_names _ _ _ (param_names_force_mode_30 N)]
        have hl : has_param (lp :: rest) (cstr "mode") = true := by
          rw [has_param_cons]; simp [show casefold lp.name = casefold (cstr "mode") from hlm]
        simp only [ilbc_params, hscan, ih (force_mode_30 N) true hL.2 hN2 hother2 hmode2,
          hrest_mode hlm, hfilter, hl, List.filter_cons, hhas]
        simp
      · have hv : lp.value = np.value := hother lp (by simp) np hnp hname hlm
        have hscan : ilbc_scan lp N hm = (hm, ScanEnd.hit N) := by
          rw [ilbc_scan_not_mode lp N hm hlm, default_scan_present lp np N hN hnp hname]
          simp [hv]
        have hl : has_param (lp :: rest) (cstr "mode") = has_param rest (cstr "mode") := by
          rw [has_param_cons]
          simp [show ¬ casefold lp.name = casefold (cstr "mode") from hlm]
        simp only [ilbc_params, hscan, hl, List.filter_cons, hhas,
          ih N hm hL.2 hN (fun lp2 hlp2 => hother lp2 (by simp [hlp2]))
            (fun lp2 hlp2 => hmode lp2 (by simp [hlp2]))]
        simp
    · have habs : ∀ np ∈ N, casefold lp.name ≠ casefold np.name := by
        intro np hnp hc; exact hex ⟨np, hnp, hc⟩
      have hscan := ilbc_scan_absent lp N hm habs
      have hhas : has_param N lp.name = false :=
        (has_param_eq_false_iff N lp.name).mpr habs
      have hN2 : (param_names (N ++ [lp])).Nodup := by
        simp only [param_names, List.map_append, List.map_cons, List.map_nil]
        rw [List.nodup_append]
        refine ⟨hN, by simp, ?_⟩
        intro a ha hb
        simp only [List.mem_singleton] at hb
        obtain ⟨np, hnp, rfl⟩ := List.mem_map.mp ha
        exact habs np hnp hb.symm
      have hother2 : ∀ lp2 ∈ rest, ∀ np2 ∈ N ++ [lp],
          casefold lp2.name = casefold np2.name → ¬ is_mode lp2 → lp2.value = np2.value := by
        intro lp2 hlp2 np2 hnp2 hc hnm2
        rcases List.mem_append.mp hnp2 with hin | hin
        · exact hother lp2 (by simp [hlp2]) np2 hin hc hnm2
        · simp only [List.mem_singleton] at hin
          subst hin
          exact absurd hc (hL.1 lp2 hlp2)
      have hmode2 : ∀ lp2 ∈ rest, ∀ np2 ∈ N ++ [lp], is_mode lp2 → is_mode np2 →
          (atoi np2.value = 20 ∨ atoi np2.value = 30) ∧ atoi lp2.value ≠ atoi np2.value := by
        intro lp2 hlp2 np2 hnp2 hm2 hnm2
        rcases List.mem_append.mp hnp2 with hin | hin
        · exact hmode lp2 (by simp [hlp2]) np2 hin hm2 hnm2
        · simp only [List.mem_singleton] at hin
          subst hin
          exact absurd (hm2.trans hnm2.symm) (hL.1 lp2 hlp2)
      have hfilter : rest.filter (fun lp2 => !has_param (N ++ [lp]) lp2.name) =
          rest.filter (fun lp2 => !has_param N lp2.name) := by
        apply List.filter_congr
        intro lp2 hlp2
        have : ¬ casefold lp.name = casefold lp2.name := fun hc => hL.1 lp2 hlp2 hc.symm
        simp [has_param, this]
      simp only [ilbc_params, hscan, heta, ih (N ++ [lp]) _ hL.2 hN2 hother2 hmode2, hfilter,
        List.filter_cons, hhas, strcasecmp_mode_iff, force_mode_30_append]
      by_cases hlm : is_mode lp
      · have hl : has_param (lp :: rest) (cstr "mode") = true := by
          rw [has_param_cons]; simp [show casefold lp.name = casefold (cstr "mode") from hlm]
        have hNm : force_mode_30 N = N :=
          force_mode_30_of_no_mode N (fun q hq hqm => habs q hq (hlm.trans hqm.symm))
        simp [hl, hrest_mode hlm, hlm, hNm]
      · have hl : has_param (lp :: rest) (cstr "mode") = has_param rest (cstr "mode") := by
          rw [has_param_cons]
          simp [show ¬ casefold lp.name = casefold (cstr "mode") from hlm]
        have hf : force_mode_30 [lp] = [lp] := by simp [force_mode_30, hlm]
        simp only [hl, hlm, if_false, hf, Bool.not_false, if_true]
        split <;> simp

/-- The outer loop of the iLBC rule fails when the local list has a "mode"
parameter and the negotiated list has "mode" parameters, none of them valid. -/
theorem ilbc_params_invalid_mode (L N : List FsCodecParameter) (hm : Bool)
    (hL : ∃ lp ∈ L, is_mode lp) (hN : ∃ np ∈ N, is_mode np)
    (hinv : ∀ np ∈ N, is_mode np → atoi np.value ≠ 20 ∧ atoi np.value ≠ 30) :
    ilbc_params L N hm = none := by
  induction L generalizing N hm with
  | nil => simp at hL
  | cons lp rest ih =>
    by_cases hlm : is_mode lp
    · have hs := ilbc_scan_mode_invalid lp N hm hlm hN hinv
      unfold ilbc_params
      revert hs
      cases ilbc_scan lp N hm with
      | mk a b => intro hs; simp only at hs; subst hs; rfl
    · have hrest : ∃ q ∈ rest, is_mode q := by
        obtain ⟨q, hq, hqm⟩ := hL
        rcases List.mem_cons.mp hq with rfl | h
        · exact absurd hqm hlm
        · exact ⟨q, h, hqm⟩
      have hlm2 : ¬ g_ascii_strcasecmp lp.name (cstr "mode") = 0 := by
        rw [strcasecmp_mode_iff]; exact hlm
      unfold ilbc_params
      rw [ilbc_scan_not_mode lp N hm hlm]
      cases hs : default_scan lp N with
      | reject => rfl
      | hit N1 =>
        rw [default_scan_hit lp N N1 hs]
        exact ih N hm hrest hN hinv
      | exhausted =>
        simp only [hlm2, if_false]
        apply ih _ hm hrest
        · obtain ⟨np, hnp, hnm⟩ := hN
          exact ⟨np, by simp [hnp], hnm⟩
        · intro np hnp hnm
          rcases List.mem_append.mp hnp with hin | hin
          · exact hinv np hin hnm
          · simp only [List.mem_singleton] at hin
            subst hin
            exact absurd hnm hlm

/-- Without a local "mode" parameter the outer loop of the iLBC rule is the
outer loop of the default rule and leaves `has_mode` alone. -/
theorem ilbc_params_no_local_mode (L N : List FsCodecParameter) (hm : Bool)
    (hL : ∀ lp ∈ L, ¬ is_mode lp) :
    ilbc_params L N hm = (default_params L N).map (fun ps => (ps, hm)) := by
  induction L generalizing N with
  | nil => rfl
  | cons lp rest ih =>
    have hlm : ¬ is_mode lp := hL lp (by simp)
    have hlm2 : ¬ g_ascii_strcasecmp lp.name (cstr "mode") = 0 := by
      rw [strcasecmp_mode_iff]; exact hlm
    have hrest : ∀ q ∈ rest, ¬ is_mode q := fun q hq => hL q (by simp [hq])
    unfold ilbc_params default_params
    rw [ilbc_scan_not_mode lp N hm hlm]
    cases default_scan lp N with
    | reject => rfl
    | hit N1 => exact ih N1 hrest
    | exhausted =>
      simp only [hlm2, if_false]
      exact ih _ hrest

/-- The iLBC rule once the clock-rate and channel tests pass. -/
theorem sdp_is_compat_ilbc_ok (l r : FsCodec) (hclock : clock_rate_ok l r)
    (hchan : channels_ok l r) :
    sdp_is_compat_ilbc l r =
      (ilbc_params l.optional_params r.optional_params false).map (fun res =>
        { r with
          channels := if r.channels ≠ 0 then r.channels else l.channels
          clock_rate := if r.clock_rate ≠ 0 then r.clock_rate else l.clock_rate
          optional_params :=
            if (res.2 || res.1.any (fun p => decide (is_mode p))) = true then res.1
            else res.1 ++ [{ name := cstr "mode", value := cstr "30" }] }) := by
  simp only [sdp_is_compat_ilbc, negotiated_head_ok l r hclock hchan, strcasecmp_mode_iff]
  cases ilbc_params l.optional_params r.optional_params false <;> rfl

theorem sdp_is_compat_ilbc_of_params_none (l r : FsCodec)
    (h : ilbc_params l.optional_params r.optional_params false = none) :
    sdp_is_compat_ilbc l r = none := by
  unfold sdp_is_compat_ilbc
  cases hh : negotiated_head l r with
  | none => rfl
  | some n => simp only [negotiated_head_params l r n hh, h]

/-- Two audio codecs named iLBC are sent to the iLBC rule. -/
theorem sdp_is_compat_of_ilbc (l r : FsCodec) (hl : is_ilbc l) (hr : is_ilbc r) :
    sdp_is_compat l r = sdp_is_compat_ilbc l r := by
  have hmedia : ¬ l.media_type ≠ r.media_type := by rw [hl.1, hr.1]; simp
  have hname : ¬ g_ascii_strcasecmp l.encoding_name r.encoding_name ≠ 0 := by
    rw [not_not, g_ascii_strcasecmp_eq_zero_iff, hl.2, hr.2]
  have hrow : g_ascii_strcasecmp (cstr "iLBC") r.encoding_name = 0 := by
    rw [g_ascii_strcasecmp_eq_zero_iff, hr.2]
  unfold sdp_is_compat
  rw [if_neg hmedia, if_neg hname]
  simp [sdp_compat_checks, sdp_dispatch, hr.1, hrow]

/-- Two video codecs named H263-1998 are sent to the H263-1998 rule. -/
theorem sdp_is_compat_of_h263_1998 (l r : FsCodec) (hl : is_h263_1998 l)
    (hr : is_h263_1998 r) :
    sdp_is_compat l r = sdp_is_compat_h263_1998 l r := by
  have hmedia : ¬ l.media_type ≠ r.media_type := by rw [hl.1, hr.1]; simp
  have hname : ¬ g_ascii_strcasecmp l.encoding_name r.encoding_name ≠ 0 := by
    rw [not_not, g_ascii_strcasecmp_eq_zero_iff, hl.2, hr.2]
  have hrow : g_ascii_strcasecmp (cstr "H263-1998") r.encoding_name = 0 := by
    rw [g_ascii_strcasecmp_eq_zero_iff, hr.2]
  unfold sdp_is_compat
  rw [if_neg hmedia, if_neg hname]
  simp [sdp_compat_checks, sdp_dispatch, hr.1, hrow]

/-- When the remote codec is a video H263-1998 codec, `sdp_is_compat` either
rejects on the media type or the name, or runs the H263-1998 rule. -/
theorem sdp_is_compat_remote_h263_1998 (l r : FsCodec) (hr : is_h263_1998 r) :
    sdp_is_compat l r = none ∨ sdp_is_compat l r = sdp_is_compat_h263_1998 l r := by
  by_cases hmedia : l.media_type ≠ r.media_type
  · left; simp [sdp_is_compat, hmedia]
  · by_cases hname : g_ascii_strcasecmp l.encoding_name r.encoding_name ≠ 0
    · left; simp [sdp_is_compat, hmedia, hname]
    · right
      have hrow : g_ascii_strcasecmp (cstr "H263-1998") r.encoding_name = 0 := by
        rw [g_ascii_strcasecmp_eq_zero_iff, hr.2]
      unfold sdp_is_compat
      rw [if_neg hmedia, if_neg hname]
      simp [sdp_compat_checks, sdp_dispatch, hr.1, hrow]

theorem find_of_filter_eq_singleton {α : Type} (p : α → Bool) (l : List α) (a : α)
    (h : l.filter p = [a]) : l.find? p = some a := by
  induction l with
  | nil => simp at h
  | cons x xs ih =>
    by_cases hx : p x = true
    · simp only [List.filter_cons, hx, if_true, List.cons.injEq] at h
      rw [List.find?_cons, hx, h.1]
    · simp only [List.filter_cons, hx] at h
      simp only [List.find?_cons]
      simp only [Bool.not_eq_true] at hx
      rw [hx]
      exact ih h

/-- The scan of the local parameters decides on the first local "profile"
parameter, comparing its value case-insensitively. -/
theorem h263_local_profile_eq (l r : FsCodec) (rp : FsCodecParameter)
    (L : List FsCodecParameter) :
    h263_local_profile l r rp L =
      match L.find? (fun p => decide (is_profile p)) with
      | none => none
      | some lp =>
        if casefold lp.value = casefold rp.value then some { l with id := r.id } else none := by
  induction L with
  | nil => rfl
  | cons x xs ih =>
    by_cases hx : is_profile x
    · have hx2 : g_ascii_strcasecmp x.name (cstr "profile") = 0 := by
        rw [g_ascii_strcasecmp_eq_zero_iff]; exact hx
      simp only [h263_local_profile, hx2, if_true, List.find?_cons, hx, decide_True, ne_eq,
        g_ascii_strcasecmp_eq_zero_iff, fs_codec_copy_eq]
      by_cases hv : casefold x.value = casefold rp.value <;> simp [hv]
    · have hx2 : ¬ g_ascii_strcasecmp x.name (cstr "profile") = 0 := by
        rw [g_ascii_strcasecmp_eq_zero_iff]; exact hx
      simp only [h263_local_profile, hx2, if_false, List.find?_cons, hx, decide_False, ih]

/-- The loop over the remote parameters stops at the first remote "profile"
parameter. -/
theorem h263_remote_params_eq (l r : FsCodec) (R : List FsCodecParameter) :
    h263_remote_params l r R none =
      match R.find? (fun p => decide (is_profile p)) with
      | none => some l
      | some rp => h263_local_profile l r rp l.optional_params := by
  induction R with
  | nil => simp [h263_remote_params]
  | cons x xs ih =>
    by_cases hx : is_profile x
    · have hx2 : g_ascii_strcasecmp x.name (cstr "profile") = 0 := by
        rw [g_ascii_strcasecmp_eq_zero_iff]; exact hx
      simp only [h263_remote_params, hx2, if_true, List.find?_cons, hx, decide_True]
    · have hx2 : ¬ g_ascii_strcasecmp x.name (cstr "profile") = 0 := by
        rw [g_ascii_strcasecmp_eq_zero_iff]; exact hx
      simp only [h263_remote_params, hx2, if_false, List.find?_cons, hx, decide_False, ih]

/-! ## The claims -/

/-- C1. Default rule, parameter reconciliation: for codecs that pass the
clock-rate and channel tests and in which no parameter name occurs twice
(case-insensitively) inside one codec, `sdp_is_compat_default` succeeds if and
only if every parameter name present on both sides (compared
case-insensitively) has exactly equal values; on success the negotiated
parameter list is the remote parameters in remote order followed by the local
parameters whose names the remote lacks, in local order. -/
theorem default_rule_parameter_reconciliation (l r : FsCodec)
    (hclock : clock_rate_ok l r) (hchan : channels_ok l r)
    (hl : (param_names l.optional_params).Nodup)
    (hr : (param_names r.optional_params).Nodup) :
    ((sdp_is_compat_default l r).isSome = true ↔
      ∀ lp ∈ l.optional_params, ∀ rp ∈ r.optional_params,
        casefold lp.name = casefold rp.name → lp.value = rp.value) ∧
    (∀ n, sdp_is_compat_default l r = some n →
      n.optional_params = r.optional_params ++
        l.optional_params.filter (fun lp => !has_param r.optional_params lp.name)) := by
  rw [sdp_is_compat_default_ok l r hclock hchan,
    default_params_spec l.optional_params r.optional_params hl hr]
  by_cases hc : ∀ lp ∈ l.optional_params, ∀ rp ∈ r.optional_params,
        casefold lp.name = casefold rp.name → lp.value = rp.value
  · rw [if_pos hc]
    refine ⟨by simp only [Option.map_some', Option.isSome_some, true_iff]; exact hc, ?_⟩
    intro n hn
    simp only [Option.map_some', Option.some.injEq] at hn
    rw [← hn]
  · rw [if_neg hc]
    exact ⟨by simp only [Option.map_none', Option.isSome_none]; exact ⟨fun h => by simp at h, fun h => absurd h hc⟩,
      fun n hn => by simp at hn⟩

/-- Witness of C1: local {a:1, b:2} against remote {a:1} gives {a:1, b:2}. -/
theorem default_rule_parameter_reconciliation_witness :
    ((sdp_is_compat_default
        (ex_audio 0 "PCMU" 8000 1 [ex_param "a" "1", ex_param "b" "2"])
        (ex_audio 0 "PCMU" 8000 1 [ex_param "a" "1"])).isSome = true ↔
      ∀ lp ∈ [ex_param "a" "1", ex_param "b" "2"], ∀ rp ∈ [ex_param "a" "1"],
        casefold lp.name = casefold rp.name → lp.value = rp.value) ∧
    (∀ n, sdp_is_compat_default
        (ex_audio 0 "PCMU" 8000 1 [ex_param "a" "1", ex_param "b" "2"])
        (ex_audio 0 "PCMU" 8000 1 [ex_param "a" "1"]) = some n →
      n.optional_params = [ex_param "a" "1"] ++
        [ex_param "a" "1", ex_param "b" "2"].filter
          (fun lp => !has_param [ex_param "a" "1"] lp.name)) :=
  default_rule_parameter_reconciliation
    (ex_audio 0 "PCMU" 8000 1 [ex_param "a" "1", ex_param "b" "2"])
    (ex_audio 0 "PCMU" 8000 1 [ex_param "a" "1"])
    (by decide) (by decide) (by decide) (by decide)

/-- The two examples of C1 evaluated: local {a:1, b:2} against remote {a:1}
gives {a:1, b:2}, and local {a:1} against remote {a:2} is incompatible. -/
theorem default_rule_parameter_examples :
    sdp_is_compat_default
        (ex_audio 0 "PCMU" 8000 1 [ex_param "a" "1", ex_param "b" "2"])
        (ex_audio 0 "PCMU" 8000 1 [ex_param "a" "1"]) =
      some (ex_audio 0 "PCMU" 8000 1 [ex_param "a" "1", ex_param "b" "2"]) ∧
    sdp_is_compat_default (ex_audio 0 "PCMU" 8000 1 [ex_param "a" "1"])
        (ex_audio 0 "PCMU" 8000 1 [ex_param "a" "2"]) = none := by
  decide

/-- C2. For every local and remote codec, `sdp_is_compat` returns incompatible
whenever their media types differ or their encoding names are not equal under
ASCII case-insensitive comparison, whatever their clock rates, channels and
parameters are. -/
theorem sdp_is_compat_media_or_name_mismatch (l r : FsCodec)
    (h : l.media_type ≠ r.media_type ∨ casefold l.encoding_name ≠ casefold r.encoding_name) :
    sdp_is_compat l r = none := by
  by_cases hmedia : l.media_type ≠ r.media_type
  · simp [sdp_is_compat, hmedia]
  · have hname : g_ascii_strcasecmp l.encoding_name r.encoding_name ≠ 0 := by
      rw [ne_eq, g_ascii_strcasecmp_eq_zero_iff]
      rcases h with h | h
      · exact absurd h hmedia
      · exact h
    simp [sdp_is_compat, hmedia, hname]

/-- Witness of C2: local (audio, PCMU) against remote (video, PCMU). -/
theorem sdp_is_compat_media_or_name_mismatch_witness :
    (ex_audio 0 "PCMU" 8000 1 []).media_type ≠ (ex_video 0 "PCMU" 8000 1 []).media_type ∧
      sdp_is_compat (ex_audio 0 "PCMU" 8000 1 []) (ex_video 0 "PCMU" 8000 1 []) = none :=
  ⟨by decide, sdp_is_compat_media_or_name_mismatch _ _ (Or.inl (by decide))⟩

/-- Counterexample to C3 as stated: a local codec with clock rate 0 against a
remote codec with clock rate 8000, with equal channels and no parameters, is
rejected by the default rule. -/
theorem default_rule_local_clock_rate_unspecified_rejected :
    channels_ok (ex_audio 0 "PCMU" 0 1 []) (ex_audio 0 "PCMU" 8000 1 []) ∧
      (ex_audio 0 "PCMU" 0 1 []).optional_params = [] ∧
      (ex_audio 0 "PCMU" 8000 1 []).optional_params = [] ∧
      sdp_is_compat_default (ex_audio 0 "PCMU" 0 1 []) (ex_audio 0 "PCMU" 8000 1 []) = none := by
  decide

/-- C3, amended. Default rule, clock rate: when the channel test passes and the
parameters reconcile, the pair is rejected exactly when the remote codec
specifies a clock rate (nonzero) and the local clock rate differs from it,
an unspecified (0) local clock rate included. -/
theorem default_rule_clock_rate (l r : FsCodec) (hchan : channels_ok l r)
    (hparams : (default_params l.optional_params r.optional_params).isSome = true) :
    sdp_is_compat_default l r = none ↔
      (r.clock_rate ≠ 0 ∧ l.clock_rate ≠ r.clock_rate) := by
  by_cases hclock : clock_rate_ok l r
  · rw [sdp_is_compat_default_ok l r hclock hchan]
    obtain ⟨ps, hps⟩ := Option.isSome_iff_exists.mp hparams
    rw [hps]
    simp only [Option.map_some', false_iff]
    exact ⟨fun h => by simp at h, fun h => absurd h hclock⟩
  · have h1 := hclock
    unfold clock_rate_ok at h1
    simp only [not_not] at h1
    have hhead : negotiated_head l r = none :=
      (negotiated_head_eq_none_iff l r).mpr (Or.inl hclock)
    simp only [sdp_is_compat_default, hhead, true_iff]
    exact h1

/-- Witness of amended C3: local clock rate 0 against remote clock rate 8000. -/
theorem default_rule_clock_rate_witness :
    channels_ok (ex_audio 0 "PCMU" 0 1 []) (ex_audio 8 "PCMU" 8000 1 []) ∧
    (default_params (ex_audio 0 "PCMU" 0 1 []).optional_params
      (ex_audio 8 "PCMU" 8000 1 []).optional_params).isSome = true ∧
    (sdp_is_compat_default (ex_audio 0 "PCMU" 0 1 []) (ex_audio 8 "PCMU" 8000 1 []) = none ↔
      ((ex_audio 8 "PCMU" 8000 1 []).clock_rate ≠ 0 ∧
        (ex_audio 0 "PCMU" 0 1 []).clock_rate ≠ (ex_audio 8 "PCMU" 8000 1 []).clock_rate)) :=
  ⟨by decide, by decide, default_rule_clock_rate _ _ (by decide) (by decide)⟩

/-- C4. Default rule, result fields: whenever `sdp_is_compat_default` succeeds,
the negotiated codec has the id, media type and encoding name of the remote
codec; its channel count is the remote one when that is nonzero and the local
one otherwise; its clock rate is the remote one when that is nonzero and the
local one otherwise. -/
theorem default_rule_result_fields (l r n : FsCodec)
    (h : sdp_is_compat_default l r = some n) :
    n.id = r.id ∧ n.media_type = r.media_type ∧ n.encoding_name = r.encoding_name ∧
      n.channels = (if r.channels ≠ 0 then r.channels else l.channels) ∧
      n.clock_rate = (if r.clock_rate ≠ 0 then r.clock_rate else l.clock_rate) := by
  by_cases hclock : clock_rate_ok l r
  · by_cases hchan : channels_ok l r
    · rw [sdp_is_compat_default_ok l r hclock hchan] at h
      cases hp : default_params l.optional_params r.optional_params with
      | none => rw [hp] at h; simp at h
      | some ps =>
        rw [hp] at h
        simp only [Option.map_some', Option.some.injEq] at h
        subst h
        exact ⟨rfl, rfl, rfl, rfl, rfl⟩
    · have hhead : negotiated_head l r = none :=
        (negotiated_head_eq_none_iff l r).mpr (Or.inr hchan)
      simp [sdp_is_compat_default, hhead] at h
  · have hhead : negotiated_head l r = none :=
      (negotiated_head_eq_none_iff l r).mpr (Or.inl hclock)
    simp [sdp_is_compat_default, hhead] at h

/-- Witness of C4: a remote codec that leaves clock rate and channels unspecified. -/
theorem default_rule_result_fields_witness :
    sdp_is_compat_default (ex_audio 0 "PCMU" 8000 2 []) (ex_audio 96 "pcmu" 0 0 []) =
        some (ex_audio 96 "pcmu" 8000 2 []) ∧
      (ex_audio 96 "pcmu" 8000 2 []).id = 96 ∧
      (ex_audio 96 "pcmu" 8000 2 []).channels = 2 ∧
      (ex_audio 96 "pcmu" 8000 2 []).clock_rate = 8000 :=
  have h : sdp_is_compat_default (ex_audio 0 "PCMU" 8000 2 []) (ex_audio 96 "pcmu" 0 0 []) =
      some (ex_audio 96 "pcmu" 8000 2 []) := by decide
  have hf := default_rule_result_fields _ _ _ h
  ⟨h, hf.1, hf.2.2.2.1, hf.2.2.2.2⟩

/-- C5. iLBC rule, differing modes: for audio iLBC codecs that pass the clock-rate
and channel tests, in which no parameter name occurs twice inside one codec,
each with a "mode" parameter, every other shared name carrying equal values,
where the remote mode is 20 or 30 and the integer value of the local mode
differs from it, negotiation succeeds; the negotiated parameters are the
remote ones with the value of "mode" set to "30", followed by the local ones
the remote lacks, so the negotiated "mode" has the value "30". -/
theorem ilbc_differing_modes (l r : FsCodec) (lm rm : FsCodecParameter)
    (hl : is_ilbc l) (hr : is_ilbc r)
    (hclock : clock_rate_ok l r) (hchan : channels_ok l r)
    (hlnames : (param_names l.optional_params).Nodup)
    (hrnames : (param_names r.optional_params).Nodup)
    (hlm : lm ∈ l.optional_params) (hlmode : is_mode lm)
    (hrm : rm ∈ r.optional_params) (hrmode : is_mode rm)
    (hother : ∀ lp ∈ l.optional_params, ∀ rp ∈ r.optional_params,
      casefold lp.name = casefold rp.name → ¬ is_mode lp → lp.value = rp.value)
    (hvalid : atoi rm.value = 20 ∨ atoi rm.value = 30)
    (hdiff : atoi lm.value ≠ atoi rm.value) :
    ∃ n, sdp_is_compat l r = some n ∧
      n.optional_params = force_mode_30 r.optional_params ++
        l.optional_params.filter (fun lp => !has_param r.optional_params lp.name) ∧
      (∃ p ∈ n.optional_params, is_mode p) ∧
      (∀ p ∈ n.optional_params, is_mode p → p.value = cstr "30") := by
  have hmode : ∀ lp ∈ l.optional_params, ∀ np ∈ r.optional_params, is_mode lp → is_mode np →
      (atoi np.value = 20 ∨ atoi np.value = 30) ∧ atoi lp.value ≠ atoi np.value := by
    intro lp hlp np hnp h1 h2
    have e1 : lp = lm := List.inj_on_of_nodup_map hlnames hlp hlm
      (show casefold lp.name = casefold lm.name from h1.trans hlmode.symm)
    have e2 : np = rm := List.inj_on_of_nodup_map hrnames hnp hrm
      (show casefold np.name = casefold rm.name from h2.trans hrmode.symm)
    rw [e1, e2]; exact ⟨hvalid, hdiff⟩
  have hhasl : has_param l.optional_params (cstr "mode") = true := by
    simp only [has_param, List.any_eq_true, decide_eq_true_eq]
    exact ⟨lm, hlm, hlmode⟩
  have hhasr : has_param r.optional_params lm.name = true :=
    (has_param_eq_true_iff _ _).mpr ⟨rm, hrm, hlmode.trans hrmode.symm⟩
  rw [sdp_is_compat_of_ilbc l r hl hr, sdp_is_compat_ilbc_ok l r hclock hchan,
    ilbc_params_spec _ _ false hlnames hrnames hother hmode]
  simp only [Option.map_some', hhasl, if_true, Bool.false_or, Bool.true_or]
  refine ⟨_, rfl, rfl, ?_, ?_⟩
  · refine ⟨{ rm with value := cstr "30" }, ?_, hrmode⟩
    apply List.mem_append_left
    simp only [force_mode_30, List.mem_map]
    exact ⟨rm, hrm, by simp [hrmode]⟩
  · intro p hp hpm
    rcases List.mem_append.mp hp with hin | hin
    · obtain ⟨q, _, hqn, _, hq30⟩ := mem_force_mode_30 _ p hin
      exact hq30 (hqn.symm.trans hpm)
    · have hf := (List.mem_filter.mp hin).2
      have : has_param r.optional_params p.name = true :=
        (has_param_eq_true_iff _ _).mpr ⟨rm, hrm, hpm.trans hrmode.symm⟩
      simp [this] at hf

/-- Witness of C5: local mode=20 against remote mode=30 gives mode=30. -/
theorem ilbc_differing_modes_witness :
    ∃ n, sdp_is_compat (ex_audio 97 "iLBC" 8000 1 [ex_param "mode" "20"])
        (ex_audio 98 "iLBC" 8000 1 [ex_param "mode" "30"]) = some n ∧
      n.optional_params = force_mode_30 [ex_param "mode" "30"] ++
        [ex_param "mode" "20"].filter (fun lp => !has_param [ex_param "mode" "30"] lp.name) ∧
      (∃ p ∈ n.optional_params, is_mode p) ∧
      (∀ p ∈ n.optional_params, is_mode p → p.value = cstr "30") :=
  ilbc_differing_modes (ex_audio 97 "iLBC" 8000 1 [ex_param "mode" "20"])
    (ex_audio 98 "iLBC" 8000 1 [ex_param "mode" "30"])
    (ex_param "mode" "20") (ex_param "mode" "30")
    (by decide) (by decide) (by decide) (by decide) (by decide) (by decide)
    (by decide) (by decide) (by decide) (by decide) (by decide) (by decide) (by decide)

/-- Counterexample to C6 as stated: local mode="20" against a remote codec without
a "mode" parameter negotiates a codec whose "mode" is "20", not "30". -/
theorem ilbc_local_mode_20_kept :
    is_ilbc (ex_audio 97 "iLBC" 8000 1 [ex_param "mode" "20"]) ∧
    is_ilbc (ex_audio 98 "iLBC" 8000 1 []) ∧
    clock_rate_ok (ex_audio 97 "iLBC" 8000 1 [ex_param "mode" "20"])
      (ex_audio 98 "iLBC" 8000 1 []) ∧
    channels_ok (ex_audio 97 "iLBC" 8000 1 [ex_param "mode" "20"])
      (ex_audio 98 "iLBC" 8000 1 []) ∧
    sdp_is_compat (ex_audio 97 "iLBC" 8000 1 [ex_param "mode" "20"])
      (ex_audio 98 "iLBC" 8000 1 []) =
        some (ex_audio 98 "iLBC" 8000 1 [ex_param "mode" "20"]) ∧
    (ex_param "mode" "20").value ≠ cstr "30" := by
  decide

/-- C6, amended. iLBC rule, mode only on the local side: for audio iLBC codecs that
pass the clock-rate and channel tests, in which no parameter name occurs twice
inside one codec and every shared name carries equal values, where the local
codec has mode="20" and the remote codec has no "mode" parameter, negotiation
succeeds and the local "mode" parameter is appended unchanged after the remote
parameters: the negotiated "mode" has the value "20". -/
theorem ilbc_mode_only_local (l r : FsCodec) (lm : FsCodecParameter)
    (hl : is_ilbc l) (hr : is_ilbc r)
    (hclock : clock_rate_ok l r) (hchan : channels_ok l r)
    (hlnames : (param_names l.optional_params).Nodup)
    (hrnames : (param_names r.optional_params).Nodup)
    (hlm : lm ∈ l.optional_params) (hlmode : is_mode lm) (hlv : lm.value = cstr "20")
    (hrno : has_param r.optional_params (cstr "mode") = false)
    (hother : ∀ lp ∈ l.optional_params, ∀ rp ∈ r.optional_params,
      casefold lp.name = casefold rp.name → lp.value = rp.value) :
    ∃ n, sdp_is_compat l r = some n ∧
      n.optional_params = r.optional_params ++
        l.optional_params.filter (fun lp => !has_param r.optional_params lp.name) ∧
      lm ∈ n.optional_params ∧
      (∀ p ∈ n.optional_params, is_mode p → p.value = cstr "20") := by
  have hrno2 : ∀ np ∈ r.optional_params, ¬ is_mode np := by
    intro np hnp hnm
    have := (has_param_eq_false_iff _ _).mp hrno np hnp
    exact this hnm.symm
  have hmode : ∀ lp ∈ l.optional_params, ∀ np ∈ r.optional_params, is_mode lp → is_mode np →
      (atoi np.value = 20 ∨ atoi np.value = 30) ∧ atoi lp.value ≠ atoi np.value :=
    fun lp _ np hnp _ h2 => absurd h2 (hrno2 np hnp)
  have hhasl : has_param l.optional_params (cstr "mode") = true := by
    simp only [has_param, List.any_eq_true, decide_eq_true_eq]
    exact ⟨lm, hlm, hlmode⟩
  have hlmabs : has_param r.optional_params lm.name = false := by
    rw [has_param_eq_false_iff]
    intro np hnp hc
    exact hrno2 np hnp (hc.symm.trans hlmode)
  have hlmin : lm ∈ l.optional_params.filter (fun lp => !has_param r.optional_params lp.name) :=
    List.mem_filter.mpr ⟨hlm, by simp [hlmabs]⟩
  rw [sdp_is_compat_of_ilbc l r hl hr, sdp_is_compat_ilbc_ok l r hclock hchan,
    ilbc_params_spec _ _ false hlnames hrnames
      (fun lp hlp np hnp hc _ => hother lp hlp np hnp hc) hmode]
  simp only [Option.map_some', hhasl, if_true, Bool.false_or, Bool.true_or,
    force_mode_30_of_no_mode _ hrno2]
  refine ⟨_, rfl, rfl, List.mem_append_right _ hlmin, ?_⟩
  intro p hp hpm
  rcases List.mem_append.mp hp with hin | hin
  · exact absurd hpm (hrno2 p hin)
  · have hpl : p ∈ l.optional_params := (List.mem_filter.mp hin).1
    have e : p = lm := List.inj_on_of_nodup_map hlnames hpl hlm
      (show casefold p.name = casefold lm.name from hpm.trans hlmode.symm)
    rw [e, hlv]

/-- Witness of amended C6: local ptime=20, mode=20 against remote ptime=20. -/
theorem ilbc_mode_only_local_witness :
    ∃ n, sdp_is_compat (ex_audio 97 "iLBC" 8000 1 [ex_param "ptime" "20", ex_param "mode" "20"])
        (ex_audio 98 "iLBC" 8000 1 [ex_param "ptime" "20"]) = some n ∧
      n.optional_params = [ex_param "ptime" "20"] ++
        [ex_param "ptime" "20", ex_param "mode" "20"].filter
          (fun lp => !has_param [ex_param "ptime" "20"] lp.name) ∧
      ex_param "mode" "20" ∈ n.optional_params ∧
      (∀ p ∈ n.optional_params, is_mode p → p.value = cstr "20") :=
  ilbc_mode_only_local
    (ex_audio 97 "iLBC" 8000 1 [ex_param "ptime" "20", ex_param "mode" "20"])
    (ex_audio 98 "iLBC" 8000 1 [ex_param "ptime" "20"]) (ex_param "mode" "20")
    (by decide) (by decide) (by decide) (by decide) (by decide) (by decide)
    (by decide) (by decide) (by decide) (by decide) (by decide)

/-- Counterexample to C7 as stated: local mode="15" against remote mode="20" is not
rejected; the negotiated "mode" is "30". -/
theorem ilbc_invalid_local_mode_accepted :
    is_ilbc (ex_audio 97 "iLBC" 8000 1 [ex_param "mode" "15"]) ∧
    is_ilbc (ex_audio 98 "iLBC" 8000 1 [ex_param "mode" "20"]) ∧
    atoi (ex_param "mode" "15").value = 15 ∧
    sdp_is_compat (ex_audio 97 "iLBC" 8000 1 [ex_param "mode" "15"])
      (ex_audio 98 "iLBC" 8000 1 [ex_param "mode" "20"]) =
        some (ex_audio 98 "iLBC" 8000 1 [ex_param "mode" "30"]) := by
  decide

/-- C7, amended. iLBC rule, invalid modes: for audio iLBC codecs, if the local codec
carries a "mode" parameter and the remote codec carries a "mode" parameter,
none of the remote "mode" values being 20 or 30, `sdp_is_compat` returns
incompatible. -/
theorem ilbc_invalid_remote_mode (l r : FsCodec) (hl : is_ilbc l) (hr : is_ilbc r)
    (hlm : ∃ lp ∈ l.optional_params, is_mode lp)
    (hrm : ∃ rp ∈ r.optional_params, is_mode rp)
    (hinv : ∀ rp ∈ r.optional_params, is_mode rp → atoi rp.value ≠ 20 ∧ atoi rp.value ≠ 30) :
    sdp_is_compat l r = none := by
  rw [sdp_is_compat_of_ilbc l r hl hr]
  exact sdp_is_compat_ilbc_of_params_none l r
    (ilbc_params_invalid_mode _ _ false hlm hrm hinv)

/-- Witness of amended C7: local mode="20" against remote mode="40". -/
theorem ilbc_invalid_remote_mode_witness :
    atoi (ex_param "mode" "40").value = 40 ∧
    sdp_is_compat (ex_audio 97 "iLBC" 8000 1 [ex_param "mode" "20"])
      (ex_audio 98 "iLBC" 8000 1 [ex_param "mode" "40"]) = none :=
  ⟨by decide,
    ilbc_invalid_remote_mode _ _ (by decide) (by decide)
      ⟨ex_param "mode" "20", by decide, by decide⟩
      ⟨ex_param "mode" "40", by decide, by decide⟩ (by decide)⟩

/-- The check of the remote mode is only reached through a local "mode" parameter:
remote mode="40" against a local codec without "mode" is accepted as it is. -/
theorem ilbc_invalid_remote_only_mode_accepted :
    sdp_is_compat (ex_audio 97 "iLBC" 8000 1 [])
      (ex_audio 98 "iLBC" 8000 1 [ex_param "mode" "40"]) =
        some (ex_audio 98 "iLBC" 8000 1 [ex_param "mode" "40"]) := by
  decide

/-- C8. iLBC rule, no mode anywhere: when neither side has a parameter named "mode"
(case-insensitively), the iLBC rule succeeds exactly when the default rule
succeeds on the same pair, and its result is the result of the default rule
with one parameter mode="30" appended at the end of the parameter list. -/
theorem ilbc_no_mode_refines_default (l r : FsCodec)
    (hl : has_param l.optional_params (cstr "mode") = false)
    (hr : has_param r.optional_params (cstr "mode") = false) :
    ((sdp_is_compat_ilbc l r).isSome = (sdp_is_compat_default l r).isSome) ∧
    sdp_is_compat_ilbc l r =
      (sdp_is_compat_default l r).map (fun n =>
        { n with optional_params :=
            n.optional_params ++ [{ name := cstr "mode", value := cstr "30" }] }) := by
  have hl2 : ∀ lp ∈ l.optional_params, ¬ is_mode lp := by
    intro lp hlp hlm
    exact (has_param_eq_false_iff _ _).mp hl lp hlp hlm.symm
  have hr2 : ∀ rp ∈ r.optional_params, ¬ is_mode rp := by
    intro rp hrp hrm
    exact (has_param_eq_false_iff _ _).mp hr rp hrp hrm.symm
  have heq : sdp_is_compat_ilbc l r =
      (sdp_is_compat_default l r).map (fun n =>
        { n with optional_params :=
            n.optional_params ++ [{ name := cstr "mode", value := cstr "30" }] }) := by
    unfold sdp_is_compat_ilbc sdp_is_compat_default
    cases hh : negotiated_head l r with
    | none => rfl
    | some n =>
      have hn := negotiated_head_params l r n hh
      simp only [hn, ilbc_params_no_local_mode _ _ false hl2]
      cases hp : default_params l.optional_params r.optional_params with
      | none => rfl
      | some ps =>
        have hany : ps.any (fun p => decide (g_ascii_strcasecmp p.name (cstr "mode") = 0))
            = false := by
          simp only [List.any_eq_false, decide_eq_true_eq, strcasecmp_mode_iff]
          intro p hp1
          rcases default_params_mem _ _ ps hp p hp1 with h1 | h1
          · exact hr2 p h1
          · exact hl2 p h1
        simp [hany]
  refine ⟨?_, heq⟩
  rw [heq]
  cases sdp_is_compat_default l r <;> rfl

/-- Witness of C8: local ptime=30 against a remote codec without parameters. -/
theorem ilbc_no_mode_refines_default_witness :
    sdp_is_compat_default (ex_audio 97 "iLBC" 8000 1 [ex_param "ptime" "30"])
        (ex_audio 98 "ILBC" 8000 0 []) =
      some (ex_audio 98 "ILBC" 8000 1 [ex_param "ptime" "30"]) ∧
    sdp_is_compat_ilbc (ex_audio 97 "iLBC" 8000 1 [ex_param "ptime" "30"])
        (ex_audio 98 "ILBC" 8000 0 []) =
      some (ex_audio 98 "ILBC" 8000 1 [ex_param "ptime" "30", ex_param "mode" "30"]) :=
  have h1 : sdp_is_compat_default (ex_audio 97 "iLBC" 8000 1 [ex_param "ptime" "30"])
        (ex_audio 98 "ILBC" 8000 0 []) =
      some (ex_audio 98 "ILBC" 8000 1 [ex_param "ptime" "30"]) := by decide
  ⟨h1, by
    rw [(ilbc_no_mode_refines_default
      (ex_audio 97 "iLBC" 8000 1 [ex_param "ptime" "30"])
      (ex_audio 98 "ILBC" 8000 0 []) (by decide) (by decide)).2, h1]
    rfl⟩

/-- Counterexample to C9 as stated: the local profile "A" differs from the remote
profile "a", yet the pair is compatible, the values being compared
case-insensitively. -/
theorem h263_1998_profile_case_insensitive :
    is_h263_1998 (ex_video 34 "H263-1998" 90000 1 [ex_param "profile" "A"]) ∧
    is_h263_1998 (ex_video 96 "H263-1998" 90000 1 [ex_param "profile" "a"]) ∧
    (ex_param "profile" "A").value ≠ (ex_param "profile" "a").value ∧
    sdp_is_compat (ex_video 34 "H263-1998" 90000 1 [ex_param "profile" "A"])
      (ex_video 96 "H263-1998" 90000 1 [ex_param "profile" "a"]) =
        some (ex_video 96 "H263-1998" 90000 1 [ex_param "profile" "A"]) := by
  decide

/-- C9, amended. H263-1998 rule, profile present on remote: for video H263-1998
codecs with remote clock rate 90000 and remote channels at most 1 where the
remote has exactly one "profile" parameter: if the first "profile" parameter
of the local codec has a value equal to the remote one under ASCII
case-insensitive comparison, the result is the local codec with only the id
replaced by the remote id; if that value differs, or the local codec has no
"profile" parameter, the result is incompatible. -/
theorem h263_1998_profile_on_remote (l r : FsCodec) (rp : FsCodecParameter)
    (hl : is_h263_1998 l) (hr : is_h263_1998 r)
    (hclock : r.clock_rate = 90000) (hchan : r.channels ≤ 1)
    (hrp : r.optional_params.filter (fun p => decide (is_profile p)) = [rp]) :
    sdp_is_compat l r =
      match l.optional_params.find? (fun p => decide (is_profile p)) with
      | none => none
      | some lp =>
        if casefold lp.value = casefold rp.value then some { l with id := r.id } else none := by
  have hfind := find_of_filter_eq_singleton _ _ _ hrp
  have hchan2 : ¬ r.channels > 1 := by omega
  rw [sdp_is_compat_of_h263_1998 l r hl hr]
  unfold sdp_is_compat_h263_1998
  simp only [hclock, ne_eq, not_true_eq_false, if_false, hchan2, h263_remote_params_eq, hfind,
    h263_local_profile_eq]

/-- Witness of amended C9: profile "0" on both sides gives the local codec with
the remote id; local "1" against remote "0" is incompatible. -/
theorem h263_1998_profile_on_remote_witness :
    sdp_is_compat (ex_video 34 "H263-1998" 90000 1 [ex_param "profile" "0", ex_param "x" "1"])
        (ex_video 96 "h263-1998" 90000 1 [ex_param "profile" "0"]) =
      some (ex_video 96 "H263-1998" 90000 1 [ex_param "profile" "0", ex_param "x" "1"]) ∧
    sdp_is_compat (ex_video 34 "H263-1998" 90000 1 [ex_param "profile" "1"])
        (ex_video 96 "h263-1998" 90000 1 [ex_param "profile" "0"]) = none :=
  ⟨by
    rw [h263_1998_profile_on_remote _ _ (ex_param "profile" "0") (by decide) (by decide)
      (by decide) (by decide) (by decide)]
    decide,
   by
    rw [h263_1998_profile_on_remote _ _ (ex_param "profile" "0") (by decide) (by decide)
      (by decide) (by decide) (by decide)]
    decide⟩

/-- The first local "profile" parameter decides: local profile "1" followed by
profile "0" against remote profile "0" is incompatible. -/
theorem h263_1998_first_local_profile_decides :
    sdp_is_compat
      (ex_video 34 "H263-1998" 90000 1 [ex_param "profile" "1", ex_param "profile" "0"])
      (ex_video 96 "H263-1998" 90000 1 [ex_param "profile" "0"]) = none := by
  decide

/-- C10. H263-1998 rule, remote preconditions: if the remote codec is a video
H263-1998 codec whose clock rate is not exactly 90000 or whose channel count is
greater than 1, the result of `sdp_is_compat` is incompatible, whatever the
local codec and the parameters on either side are. -/
theorem h263_1998_remote_preconditions (l r : FsCodec) (hr : is_h263_1998 r)
    (h : r.clock_rate ≠ 90000 ∨ r.channels > 1) :
    sdp_is_compat l r = none := by
  have hrule : sdp_is_compat_h263_1998 l r = none := by
    unfold sdp_is_compat_h263_1998
    by_cases hc : r.clock_rate ≠ 90000
    · simp [hc]
    · rcases h with h | h
      · exact absurd h hc
      · simp [h]
  rcases sdp_is_compat_remote_h263_1998 l r hr with h1 | h1
  · exact h1
  · rw [h1, hrule]

/-- Witness of C10: remote clock rate 8000. -/
theorem h263_1998_remote_preconditions_witness :
    is_h263_1998 (ex_video 96 "H263-1998" 8000 1 [ex_param "profile" "0"]) ∧
    (ex_video 96 "H263-1998" 8000 1 [ex_param "profile" "0"]).clock_rate ≠ 90000 ∧
    sdp_is_compat (ex_video 96 "H263-1998" 90000 1 [ex_param "profile" "0"])
      (ex_video 96 "H263-1998" 8000 1 [ex_param "profile" "0"]) = none :=
  ⟨by decide, by decide,
    h263_1998_remote_preconditions _ _ (by decide) (Or.inl (by decide))⟩

/-! ## Claims C11 and C12: the H263-1998 rule -/

/-- C11 (the code at the failing input). A remote codec that carries "profile"
twice is not rejected when the local "profile" equals the first remote one:
the loop of `sdp_is_compat_h263_1998` returns at the first remote "profile",
so its test for a second one (lines 309-311) is never reached. -/
theorem h263_1998_duplicate_remote_profile_accepted :
    is_h263_1998 (ex_video 34 "H263-1998" 90000 1 [ex_param "profile" "0"]) ∧
    is_h263_1998
      (ex_video 96 "H263-1998" 90000 1 [ex_param "profile" "0", ex_param "profile" "0"]) ∧
    sdp_is_compat (ex_video 34 "H263-1998" 90000 1 [ex_param "profile" "0"])
      (ex_video 96 "H263-1998" 90000 1 [ex_param "profile" "0", ex_param "profile" "0"]) =
        some (ex_video 96 "H263-1998" 90000 1 [ex_param "profile" "0"]) := by
  decide

/-- The variable `profile` of `sdp_is_compat_h263_1998` is still unset whenever
the loop looks at a remote parameter: started unset, the loop never reaches
the rejection of a repeated "profile", whatever the remote parameters are. -/
theorem h263_1998_duplicate_check_unreachable (l r : FsCodec)
    (R : List FsCodecParameter) (rp : FsCodecParameter)
    (h : R.find? (fun p => decide (is_profile p)) = some rp) :
    h263_remote_params l r R none = h263_local_profile l r rp l.optional_params := by
  rw [h263_remote_params_eq, h]

/-- C12. H263-1998 rule, no profile on remote: for video H263-1998 codecs with
remote clock rate 90000 and remote channels at most 1 where the remote has no
"profile" parameter, negotiation succeeds and the result is the local codec
in every field, its id included. -/
theorem h263_1998_no_remote_profile (l r : FsCodec)
    (hl : is_h263_1998 l) (hr : is_h263_1998 r)
    (hclock : r.clock_rate = 90000) (hchan : r.channels ≤ 1)
    (hno : has_param r.optional_params (cstr "profile") = false) :
    sdp_is_compat l r = some l := by
  have hfind : r.optional_params.find? (fun p => decide (is_profile p)) = none := by
    rw [List.find?_eq_none]
    intro p hp
    have := (has_param_eq_false_iff _ _).mp hno p hp
    simp only [decide_eq_true_eq]
    exact fun hc => this hc.symm
  have hchan2 : ¬ r.channels > 1 := by omega
  rw [sdp_is_compat_of_h263_1998 l r hl hr]
  unfold sdp_is_compat_h263_1998
  simp only [hclock, ne_eq, not_true_eq_false, if_false, hchan2, h263_remote_params_eq, hfind]

/-- Witness of C12: the local id 34 is kept, the remote id 96 is not taken. -/
theorem h263_1998_no_remote_profile_witness :
    sdp_is_compat (ex_video 34 "H263-1998" 90000 1 [ex_param "profile" "0"])
        (ex_video 96 "h263-1998" 90000 0 [ex_param "x" "1"]) =
      some (ex_video 34 "H263-1998" 90000 1 [ex_param "profile" "0"]) ∧
    (ex_video 34 "H263-1998" 90000 1 [ex_param "profile" "0"]).id = 34 :=
  ⟨h263_1998_no_remote_profile _ _ (by decide) (by decide) (by decide) (by decide)
    (by decide), by decide⟩

/-! ## The cache: readers against writers -/

theorem word_bytes_length (v : Nat) : (word_bytes v).length = 4 := rfl

theorem bytes_word_word_bytes (v : Nat) (rest : List Nat) :
    bytes_word ((word_bytes v ++ rest).take 4) = v % 2 ^ 32 := by
  simp only [word_bytes, List.cons_append, List.nil_append, List.take_succ_cons, List.take_zero,
    bytes_word, List.getD_cons_zero, List.getD_cons_succ]
  omega

theorem to_gint_write (val : Int) (h1 : -(2 ^ 31) ≤ val) (h2 : val < 2 ^ 31) :
    to_gint (((val % 2 ^ 32).toNat % 2 ^ 32 : Nat) : Int) = val := by
  unfold to_gint
  omega

theorem read_codec_blueprint_int_write (val : Int) (rest : List Nat)
    (h1 : -(2 ^ 31) ≤ val) (h2 : val < 2 ^ 31) :
    read_codec_blueprint_int (cursor_at (write_codec_blueprint_int val ++ rest)) =
      Read.ok val (cursor_at rest) := by
  have hlen : (write_codec_blueprint_int val ++ rest).length = rest.length + 4 := by
    simp [write_codec_blueprint_int, word_bytes_length]; omega
  have hdrop : (write_codec_blueprint_int val ++ rest).drop 4 = rest := by
    simp [write_codec_blueprint_int, word_bytes]
  simp only [read_codec_blueprint_int, cursor_at, hlen, hdrop]
  rw [if_neg (by omega), if_neg (by omega)]
  simp only [write_codec_blueprint_int, bytes_word_word_bytes, Nat.add_sub_cancel]
  rw [to_gint_write val h1 h2]

theorem read_codec_blueprint_uint_write (n : Nat) (rest : List Nat) (h : n < 2 ^ 32) :
    read_codec_blueprint_uint (cursor_at (write_codec_blueprint_int (to_gint n) ++ rest)) =
      Read.ok n (cursor_at rest) := by
  have hlen : (write_codec_blueprint_int (to_gint n) ++ rest).length = rest.length + 4 := by
    simp [write_codec_blueprint_int, word_bytes_length]; omega
  have hdrop : (write_codec_blueprint_int (to_gint n) ++ rest).drop 4 = rest := by
    simp [write_codec_blueprint_int, word_bytes]
  simp only [read_codec_blueprint_uint, cursor_at, hlen, hdrop]
  rw [if_neg (by omega), if_neg (by omega)]
  simp only [write_codec_blueprint_int, bytes_word_word_bytes, Nat.add_sub_cancel]
  have : (to_gint (n : Int) % 2 ^ 32).toNat % 2 ^ 32 = n := by
    unfold to_gint
    omega
  rw [this]

theorem cstring_of_bytes_bytes (s : CString) : cstring_of_bytes s.bytes = s := by
  apply CString.ext_bytes
  show (s.bytes.map (fun x => x % 256)).takeWhile (fun x => decide (x ≠ 0)) = s.bytes
  have hmap : s.bytes.map (fun x => x % 256) = s.bytes := by
    conv_rhs => rw [← List.map_id s.bytes]
    apply List.map_congr_left
    intro x hx
    have := s.valid x hx
    simp only [id]
    omega
  rw [hmap, List.takeWhile_eq_self_iff]
  intro x hx
  have := s.valid x hx
  simp only [ne_eq, decide_not, Bool.not_eq_true', decide_eq_false_iff_not]
  omega

theorem write_codec_blueprint_string_eq (str : CString) (h : string_fits str) :
    write_codec_blueprint_string str =
      some (write_codec_blueprint_int (str.bytes.length : Int) ++ str.bytes) := by
  unfold string_fits at h
  have hg : to_gint (str.bytes.length : Int) = (str.bytes.length : Int) := by
    unfold to_gint; omega
  simp only [write_codec_blueprint_string, hg]
  rw [if_neg (by omega)]
  simp

theorem read_codec_blueprint_string_write (str : CString) (rest : List Nat)
    (h : string_fits str) :
    read_codec_blueprint_string
        (cursor_at (write_codec_blueprint_int (str.bytes.length : Int) ++ (str.bytes ++ rest))) =
      Read.ok str (cursor_at rest) := by
  unfold string_fits at h
  have hg : gsize_of_gint (str.bytes.length : Int) = str.bytes.length := by
    unfold gsize_of_gint; omega
  unfold read_codec_blueprint_string
  rw [read_codec_blueprint_int_write _ _ (by omega) (by omega)]
  simp only [Read.andThen, cursor_at, hg, List.length_append, List.take_left', List.drop_left',
    cstring_of_bytes_bytes]
  rw [if_neg (by omega), if_neg (by omega)]
  simp

theorem Read.andThen_ok {α β : Type} (val : α) (cur : Cursor) (f : α → Cursor → Read β) :
    (Read.ok val cur).andThen f = f val cur := rfl

theorem Read.andThen_fail {α β : Type} (f : α → Cursor → Read β) :
    (Read.fail : Read α).andThen f = Read.fail := rfl

theorem Read.andThen_fault {α β : Type} (f : α → Cursor → Read β) :
    (Read.fault : Read α).andThen f = Read.fault := rfl

theorem to_gint_of_count (n : Nat) (h : n < 2 ^ 31) : to_gint (n : Int) = (n : Int) := by
  unfold to_gint; omega


/-- A string the writer stored is read back, the cursor landing behind it. -/
theorem string_roundtrip (str : CString) (h : string_fits str) :
    ∃ img, write_codec_blueprint_string str = some img ∧
      ∀ rest, read_codec_blueprint_string (cursor_at (img ++ rest)) =
        Read.ok str (cursor_at rest) := by
  refine ⟨_, write_codec_blueprint_string_eq str h, ?_⟩
  intro rest
  rw [List.append_assoc]
  exact read_codec_blueprint_string_write str rest h


theorem optional_params_roundtrip (ps : List FsCodecParameter)
    (h : ∀ p ∈ ps, string_fits p.name ∧ string_fits p.value) :
    ∃ img, save_optional_params ps = some img ∧
      ∀ codec rest, load_optional_params ps.length codec (cursor_at (img ++ rest)) =
        Read.ok { codec with optional_params := codec.optional_params ++ ps }
          (cursor_at rest) := by
  induction ps with
  | nil =>
    refine ⟨[], rfl, ?_⟩
    intro codec rest
    simp [load_optional_params]
  | cons p ps ih =>
    obtain ⟨i1, hs1, hr1⟩ := string_roundtrip p.name (h p (by simp)).1
    obtain ⟨i2, hs2, hr2⟩ := string_roundtrip p.value (h p (by simp)).2
    obtain ⟨i3, hs3, hr3⟩ := ih (fun q hq => h q (by simp [hq]))
    refine ⟨i1 ++ i2 ++ i3, by simp [save_optional_params, hs1, hs2, hs3], ?_⟩
    intro codec rest
    simp only [List.length_cons, load_optional_params, List.append_assoc, hr1, hr2, hr3,
      Read.andThen_ok, fs_codec_add_optional_parameter, List.singleton_append]


theorem pipeline_chain_roundtrip (chain : List GstElementFactory)
    (h : ∀ fact ∈ chain, string_fits fact.name) :
    ∃ img, save_pipeline_chain chain = some img ∧
      ∀ tmplist rest, load_pipeline_chain chain.length tmplist (cursor_at (img ++ rest)) =
        Read.ok (tmplist ++ chain) (cursor_at rest) := by
  induction chain with
  | nil =>
    refine ⟨[], rfl, ?_⟩
    intro tmplist rest
    simp [load_pipeline_chain]
  | cons fact chain ih =>
    obtain ⟨i1, hs1, hr1⟩ := string_roundtrip fact.name (h fact (by simp))
    obtain ⟨i2, hs2, hr2⟩ := ih (fun q hq => h q (by simp [hq]))
    refine ⟨i1 ++ i2,
      by simp [save_pipeline_chain, gst_plugin_feature_get_name, hs1, hs2], ?_⟩
    intro tmplist rest
    simp only [List.length_cons, load_pipeline_chain, List.append_assoc, hr1, hr2,
      Read.andThen_ok, gst_element_factory_find, List.singleton_append]


theorem pipeline_roundtrip (pipeline : List (List GstElementFactory))
    (h : ∀ chain ∈ pipeline, chain.length < 2 ^ 31 ∧ ∀ fact ∈ chain, string_fits fact.name) :
    ∃ img, save_pipeline_chains pipeline = some img ∧
      ∀ acc rest, load_pipeline pipeline.length acc (cursor_at (img ++ rest)) =
        Read.ok (acc ++ pipeline) (cursor_at rest) := by
  induction pipeline with
  | nil =>
    refine ⟨[], rfl, ?_⟩
    intro acc rest
    simp [load_pipeline]
  | cons chain pipeline ih =>
    obtain ⟨hlen, hnames⟩ := h chain (by simp)
    obtain ⟨i1, hs1, hr1⟩ := pipeline_chain_roundtrip chain hnames
    obtain ⟨i2, hs2, hr2⟩ := ih (fun q hq => h q (by simp [hq]))
    refine ⟨write_codec_blueprint_int (to_gint chain.length) ++ i1 ++ i2,
      by simp [save_pipeline_chains, hs1, hs2], ?_⟩
    intro acc rest
    have hread := read_codec_blueprint_int_write (chain.length : Int) (i1 ++ (i2 ++ rest))
      (by omega) (by omega)
    simp only [List.length_cons, load_pipeline, List.append_assoc, to_gint_of_count _ hlen]
    rw [hread]
    simp only [Read.andThen_ok, Int.toNat_ofNat]
    rw [hr1]
    simp only [Read.andThen_ok]
    rw [hr2]
    simp only [List.nil_append, List.append_assoc, List.singleton_append]

theorem codec_blueprint_roundtrip (media_type : FsMediaType) (bp : CodecBlueprint)
    (h : blueprint_fits bp) :
    ∃ img, save_codec_blueprint bp = some img ∧
      ∀ rest, load_codec_blueprint media_type (cursor_at (img ++ rest)) =
        Read.ok (reloaded media_type bp) (cursor_at rest) := by
  obtain ⟨⟨hid1, hid2, hname, hclock, hchan, hnparams, hparams⟩, hmedia, hrtp,
    ⟨hnsend, hsend⟩, ⟨hnrecv, hrecv⟩⟩ := h
  obtain ⟨iname, hsname, hrname⟩ := string_roundtrip bp.codec.encoding_name hname
  obtain ⟨iparams, hsparams, hrparams⟩ := optional_params_roundtrip bp.codec.optional_params hparams
  obtain ⟨imedia, hsmedia, hrmedia⟩ := string_roundtrip bp.media_caps.text hmedia
  obtain ⟨irtp, hsrtp, hrrtp⟩ := string_roundtrip bp.rtp_caps.text hrtp
  obtain ⟨isend, hssend, hrsend⟩ := pipeline_roundtrip bp.send_pipeline_factory hsend
  obtain ⟨irecv, hsrecv, hrrecv⟩ := pipeline_roundtrip bp.receive_pipeline_factory hrecv
  refine ⟨_, by
    simp only [save_codec_blueprint, gst_caps_to_string, hsname, hsparams, hsmedia, hsrtp,
      hssend, hsrecv, Option.pure_def, Option.bind_eq_bind, Option.some_bind]
    rfl, ?_⟩
  intro rest
  have hnp := to_gint_of_count _ hnparams
  have hns := to_gint_of_count _ hnsend
  have hnr := to_gint_of_count _ hnrecv
  simp only [load_codec_blueprint, List.append_assoc]
  rw [read_codec_blueprint_int_write _ _ hid1 hid2, Read.andThen_ok, hrname, Read.andThen_ok,
    read_codec_blueprint_uint_write _ _ hclock, Read.andThen_ok,
    read_codec_blueprint_uint_write _ _ hchan, Read.andThen_ok, hnp,
    read_codec_blueprint_int_write _ _ (by omega) (by omega), Read.andThen_ok,
    Int.toNat_ofNat, hrparams, Read.andThen_ok, hrmedia, Read.andThen_ok, hrrtp,
    Read.andThen_ok, hns, read_codec_blueprint_int_write _ _ (by omega) (by omega),
    Read.andThen_ok, Int.toNat_ofNat, hrsend, Read.andThen_ok, hnr,
    read_codec_blueprint_int_write _ _ (by omega) (by omega), Read.andThen_ok,
    Int.toNat_ofNat, hrrecv, Read.andThen_ok]
  rfl

theorem blueprints_roundtrip (media_type : FsMediaType) (bps : List CodecBlueprint)
    (h : ∀ bp ∈ bps, blueprint_fits bp) :
    ∃ img, save_blueprints bps = some img ∧
      ∀ acc rest, load_blueprints media_type bps.length acc (cursor_at (img ++ rest)) =
        Read.ok (acc ++ bps.map (reloaded media_type)) (cursor_at rest) := by
  induction bps with
  | nil =>
    refine ⟨[], rfl, ?_⟩
    intro acc rest
    simp [load_blueprints]
  | cons bp bps ih =>
    obtain ⟨i1, hs1, hr1⟩ := codec_blueprint_roundtrip media_type bp (h bp (by simp))
    obtain ⟨i2, hs2, hr2⟩ := ih (fun q hq => h q (by simp [hq]))
    refine ⟨i1 ++ i2, by simp [save_blueprints, hs1, hs2], ?_⟩
    intro acc rest
    simp only [List.length_cons, load_blueprints, List.append_assoc, hr1, hr2, Read.andThen_ok,
      List.map_cons, List.singleton_append]


/-- The loader reads back what the writer stored and stops at the end of the
image. -/
theorem codecs_cache_roundtrip (media_type : FsMediaType) (bps : List CodecBlueprint)
    (h : blueprints_fit bps) :
    ∃ img, save_codecs_cache media_type bps = some img ∧
      load_codecs_cache_cursor media_type (cursor_at img) =
        Read.ok (bps.map (reloaded media_type)) (cursor_at []) := by
  obtain ⟨hn, hfit⟩ := h
  obtain ⟨irec, hs, hr⟩ := blueprints_roundtrip media_type bps hfit
  refine ⟨_, by simp [save_codecs_cache, hs]; rfl, ?_⟩
  have hcount := to_gint_of_count _ hn
  have hword : (cache_magic media_type ++
      (write_codec_blueprint_int (to_gint bps.length) ++ irec)).drop 8 =
      write_codec_blueprint_int (to_gint bps.length) ++ irec := by
    simp [cache_magic]
  have hlen8 : (cache_magic media_type ++
      (write_codec_blueprint_int (to_gint bps.length) ++ irec)).length = irec.length + 12 := by
    simp [cache_magic, write_codec_blueprint_int, word_bytes_length]; omega
  have hlen4 : (write_codec_blueprint_int (to_gint bps.length) ++ irec).length =
      irec.length + 4 := by
    simp [write_codec_blueprint_int, word_bytes_length]; omega
  have hdrop4 : (write_codec_blueprint_int (to_gint bps.length) ++ irec).drop 4 = irec := by
    simp [write_codec_blueprint_int, word_bytes]
  have hval : to_gint (bytes_word
      ((write_codec_blueprint_int (to_gint bps.length) ++ irec).take 4)) = bps.length := by
    simp only [write_codec_blueprint_int, bytes_word_word_bytes, hcount]
    unfold to_gint; omega
  have hmagic : (cache_magic media_type ++
      (write_codec_blueprint_int (to_gint bps.length) ++ irec)).take 8 =
      cache_magic media_type := by
    simp [cache_magic]
  simp only [load_codecs_cache_cursor, cursor_at, List.append_assoc, hlen8, hword, hmagic]
  rw [if_neg (by omega), if_neg (by omega)]
  simp only [hlen4, hdrop4, hval, Int.toNat_ofNat]
  rw [if_neg (by simp [cache_magic]), if_neg (by omega), if_neg (by omega)]
  have := hr [] []
  simp only [List.append_nil, List.nil_append, cursor_at] at this
  have hsz : irec.length + 12 - 8 - 4 = irec.length := by omega
  rw [hsz]
  exact this

/-! ## The cache: truncated and foreign contents -/

theorem cursor_at_drop (p : List Nat) (n : Nat) :
    ({ inp := p.drop n, size := p.length - n } : Cursor) = cursor_at (p.drop n) := by
  simp [cursor_at]

theorem stable_read_codec_blueprint_int : Stable read_codec_blueprint_int := by
  intro p
  by_cases h : p.length < 4
  · left
    simp [read_codec_blueprint_int, cursor_at, h]
  · right
    refine ⟨to_gint (bytes_word (p.take 4)), p.drop 4, ?_, ?_⟩
    · simp only [read_codec_blueprint_int, cursor_at, h, if_false, List.length_drop]
    · intro e
      have h2 : ¬ (p ++ e).length < 4 := by simp; omega
      simp only [read_codec_blueprint_int, cursor_at, h2, if_false, List.length_drop,
        List.take_append_of_le_length (Nat.le_of_not_lt h),
        List.drop_append_of_le_length (Nat.le_of_not_lt h)]
      congr 2
      simp only [List.length_append, List.length_drop]
      omega

theorem stable_read_codec_blueprint_uint : Stable read_codec_blueprint_uint := by
  intro p
  by_cases h : p.length < 4
  · left
    simp [read_codec_blueprint_uint, cursor_at, h]
  · right
    refine ⟨bytes_word (p.take 4), p.drop 4, ?_, ?_⟩
    · simp only [read_codec_blueprint_uint, cursor_at, h, if_false, List.length_drop]
    · intro e
      have h2 : ¬ (p ++ e).length < 4 := by simp; omega
      simp only [read_codec_blueprint_uint, cursor_at, h2, if_false, List.length_drop,
        List.take_append_of_le_length (Nat.le_of_not_lt h),
        List.drop_append_of_le_length (Nat.le_of_not_lt h)]
      congr 2
      simp only [List.length_append, List.length_drop]
      omega

/-- Sequencing keeps readers stable. -/
theorem stable_andThen {α β : Type} (reader : Cursor → Read α)
    (next : α → Cursor → Read β) (h1 : Stable reader) (h2 : ∀ val, Stable (next val)) :
    Stable (fun c => (reader c).andThen next) := by
  intro p
  rcases h1 p with hf | ⟨val, q, hok, hext⟩
  · left
    simp only [hf, Read.andThen_fail]
  · rcases h2 val q with hf2 | ⟨val2, q2, hok2, hext2⟩
    · left
      simp only [hok, Read.andThen_ok, hf2]
    · right
      refine ⟨val2, q2, ?_, ?_⟩
      · simp only [hok, Read.andThen_ok, hok2]
      · intro e
        simp only [hext e, Read.andThen_ok, hext2 e]

theorem stable_ok {α : Type} (val : α) : Stable (fun c => Read.ok val c) := by
  intro p
  right
  exact ⟨val, p, rfl, fun e => rfl⟩

theorem stable_read_codec_blueprint_string : Stable read_codec_blueprint_string := by
  unfold read_codec_blueprint_string
  apply stable_andThen _ _ stable_read_codec_blueprint_int
  intro str_length p
  by_cases h : p.length < gsize_of_gint str_length
  · left
    simp [cursor_at, h]
  · right
    refine ⟨cstring_of_bytes (p.take (gsize_of_gint str_length)),
      p.drop (gsize_of_gint str_length), ?_, ?_⟩
    · simp only [cursor_at, h, if_false, List.length_drop]
    · intro e
      have h2 : ¬ (p ++ e).length < gsize_of_gint str_length := by simp; omega
      simp only [cursor_at, h2, if_false, List.length_drop,
        List.take_append_of_le_length (Nat.le_of_not_lt h),
        List.drop_append_of_le_length (Nat.le_of_not_lt h)]
      congr 2
      simp only [List.length_append, List.length_drop]
      omega

theorem stable_load_optional_params (n : Nat) :
    ∀ codec, Stable (load_optional_params n codec) := by
  induction n with
  | zero => intro codec; exact stable_ok codec
  | succ n ih =>
    intro codec
    show Stable (fun c => (read_codec_blueprint_string c).andThen fun name c =>
      (read_codec_blueprint_string c).andThen fun value c =>
      load_optional_params n (fs_codec_add_optional_parameter codec name value) c)
    apply stable_andThen _ _ stable_read_codec_blueprint_string
    intro name
    apply stable_andThen _ _ stable_read_codec_blueprint_string
    intro value
    exact ih _

theorem stable_load_pipeline_chain (n : Nat) :
    ∀ tmplist, Stable (load_pipeline_chain n tmplist) := by
  induction n with
  | zero => intro tmplist; exact stable_ok tmplist
  | succ n ih =>
    intro tmplist
    show Stable (fun c => (read_codec_blueprint_string c).andThen fun tmp c =>
      load_pipeline_chain n (tmplist ++ [gst_element_factory_find tmp]) c)
    apply stable_andThen _ _ stable_read_codec_blueprint_string
    intro tmp
    exact ih _

theorem stable_load_pipeline (n : Nat) :
    ∀ pipeline, Stable (load_pipeline n pipeline) := by
  induction n with
  | zero => intro pipeline; exact stable_ok pipeline
  | succ n ih =>
    intro pipeline
    show Stable (fun c => (read_codec_blueprint_int c).andThen fun tmp_size2 c =>
      (load_pipeline_chain tmp_size2.toNat [] c).andThen fun tmplist c =>
      load_pipeline n (pipeline ++ [tmplist]) c)
    apply stable_andThen _ _ stable_read_codec_blueprint_int
    intro tmp_size2
    apply stable_andThen _ _ (stable_load_pipeline_chain _ _)
    intro tmplist
    exact ih _

theorem stable_load_codec_blueprint (media_type : FsMediaType) :
    Stable (load_codec_blueprint media_type) := by
  unfold load_codec_blueprint
  apply stable_andThen _ _ stable_read_codec_blueprint_int
  intro id
  apply stable_andThen _ _ stable_read_codec_blueprint_string
  intro encoding_name
  apply stable_andThen _ _ stable_read_codec_blueprint_uint
  intro clock_rate
  apply stable_andThen _ _ stable_read_codec_blueprint_uint
  intro channels
  apply stable_andThen _ _ stable_read_codec_blueprint_int
  intro tmp_size
  apply stable_andThen _ _ (stable_load_optional_params _ _)
  intro codec
  apply stable_andThen _ _ stable_read_codec_blueprint_string
  intro tmp
  apply stable_andThen _ _ stable_read_codec_blueprint_string
  intro tmp2
  apply stable_andThen _ _ stable_read_codec_blueprint_int
  intro tmp_size3
  apply stable_andThen _ _ (stable_load_pipeline _ _)
  intro send_pipeline_factory
  apply stable_andThen _ _ stable_read_codec_blueprint_int
  intro tmp_size4
  apply stable_andThen _ _ (stable_load_pipeline _ _)
  intro receive_pipeline_factory
  exact stable_ok _

theorem stable_load_blueprints (media_type : FsMediaType) (n : Nat) :
    ∀ blueprints, Stable (load_blueprints media_type n blueprints) := by
  induction n with
  | zero => intro blueprints; exact stable_ok blueprints
  | succ n ih =>
    intro blueprints
    show Stable (fun c => (load_codec_blueprint media_type c).andThen fun blueprint c =>
      load_blueprints media_type n (blueprints ++ [blueprint]) c)
    apply stable_andThen _ _ (stable_load_codec_blueprint media_type)
    intro blueprint
    exact ih _
theorem stable_load_codecs_cache_cursor (media_type : FsMediaType) :
    Stable (load_codecs_cache_cursor media_type) := by
  intro p
  by_cases h8 : p.length < 8
  · left
    simp [load_codecs_cache_cursor, cursor_at, h8]
  · by_cases hmagic : (p.take 8).getD 0 0 ≠ 70 ∨ (p.take 8).getD 1 0 ≠ 83 ∨
        (p.take 8).getD 2 0 ≠ magic_media media_type ∨ (p.take 8).getD 3 0 ≠ 67 ∨
        (p.take 8).getD 4 0 ≠ 49 ∨ (p.take 8).getD 5 0 ≠ 49
    · left
      simp only [load_codecs_cache_cursor, cursor_at, h8, if_false, hmagic, if_true]
    · by_cases h4 : (p.drop 8).length < 4
      · left
        have h4b : p.length - 8 < 4 := by simpa using h4
        simp only [load_codecs_cache_cursor, cursor_at, h8, if_false, hmagic, h4b, if_true]
      · have h4b : ¬ p.length - 8 < 4 := by simpa using h4
        have hcur : ({ inp := List.drop 4 (List.drop 8 p), size := p.length - 8 - 4 } : Cursor) =
            cursor_at ((p.drop 8).drop 4) := by
          simp only [cursor_at, List.length_drop]
        have hbase : load_codecs_cache_cursor media_type (cursor_at p) =
            load_blueprints media_type
              (to_gint (bytes_word ((p.drop 8).take 4))).toNat [] (cursor_at ((p.drop 8).drop 4)) := by
          simp only [load_codecs_cache_cursor, cursor_at, h8, if_false, hmagic, h4b, h4,
            List.length_drop]
        have hext : ∀ e, load_codecs_cache_cursor media_type (cursor_at (p ++ e)) =
            load_blueprints media_type
              (to_gint (bytes_word ((p.drop 8).take 4))).toNat []
              (cursor_at ((p.drop 8).drop 4 ++ e)) := by
          intro e
          have e8 : ¬ (p ++ e).length < 8 := by simp; omega
          have e4 : ¬ (p ++ e).length - 8 < 4 := by simp; omega
          have e4b : ¬ (List.drop 8 p ++ e).length < 4 := by simp; omega
          have ht : (p ++ e).take 8 = p.take 8 :=
            List.take_append_of_le_length (Nat.le_of_not_lt h8)
          have hd : (p ++ e).drop 8 = p.drop 8 ++ e :=
            List.drop_append_of_le_length (Nat.le_of_not_lt h8)
          have ht4 : (p.drop 8 ++ e).take 4 = (p.drop 8).take 4 :=
            List.take_append_of_le_length (Nat.le_of_not_lt h4)
          have hd4 : (p.drop 8 ++ e).drop 4 = (p.drop 8).drop 4 ++ e :=
            List.drop_append_of_le_length (Nat.le_of_not_lt h4)
          simp only [load_codecs_cache_cursor, cursor_at, e8, if_false, ht, hd, hmagic, e4, e4b,
            ht4, hd4]
          congr 2
          simp only [List.length_append, List.length_drop]
          omega
        rcases stable_load_blueprints media_type
            (to_gint (bytes_word ((p.drop 8).take 4))).toNat [] ((p.drop 8).drop 4) with
          hf | ⟨val, q, hok, hx⟩
        · left
          rw [hbase, hf]
        · right
          refine ⟨val, q, by rw [hbase, hok], ?_⟩
          intro e
          rw [hext e, hx e]

/-- On every byte sequence `load_codecs_cache` stays inside the contents. -/
theorem load_codecs_cache_contents_no_fault (media_type : FsMediaType) (contents : List Nat) :
    load_codecs_cache_contents media_type contents ≠ Loaded.fault := by
  unfold load_codecs_cache_contents
  rcases stable_load_codecs_cache_cursor media_type contents with hf | ⟨val, q, hok, _⟩
  · simp only [cursor_at] at hf
    rw [hf]
    simp
  · simp only [cursor_at] at hok
    rw [hok]
    simp

theorem load_codecs_cache_contents_of_ok (media_type : FsMediaType) (contents : List Nat)
    (val : List CodecBlueprint) (c : Cursor)
    (h : load_codecs_cache_cursor media_type (cursor_at contents) = Read.ok val c) :
    load_codecs_cache_contents media_type contents = Loaded.list val := by
  unfold load_codecs_cache_contents
  simp only [cursor_at] at h
  rw [h]

/-- A strict prefix of a saved image does not load. -/
theorem load_codecs_cache_cursor_truncated (media_type : FsMediaType)
    (bps : List CodecBlueprint) (img : List Nat) (k : Nat)
    (hfit : blueprints_fit bps) (hsave : save_codecs_cache media_type bps = some img)
    (hk : k < img.length) :
    load_codecs_cache_cursor media_type (cursor_at (img.take k)) = Read.fail := by
  obtain ⟨img2, hs2, hload⟩ := codecs_cache_roundtrip media_type bps hfit
  have himg : img2 = img := by rw [hs2] at hsave; exact Option.some.inj hsave
  subst himg
  rcases stable_load_codecs_cache_cursor media_type (img2.take k) with hf | ⟨val, q, _, hx⟩
  · exact hf
  · exfalso
    have h1 := hx (img2.drop k)
    rw [List.take_append_drop, hload] at h1
    simp only [Read.ok.injEq, cursor_at, Cursor.mk.injEq] at h1
    have h2 : (q ++ img2.drop k).length = 0 := by rw [← h1.2.1]; rfl
    simp only [List.length_append, List.length_drop] at h2
    omega

/-! ## Claims C13 to C16: the capability cache -/

/-- The bytes written for the small blueprint, and what loading them gives:
the stored fields come back, the media type is the requested one. -/
theorem cache_small_image :
    save_codecs_cache FsMediaType.FS_MEDIA_TYPE_AUDIO [ex_blueprint_small] =
      some [70, 83, 65, 67, 49, 49, 0, 0, 1, 0, 0, 0, 255, 255, 255, 255, 1, 0, 0, 0, 88,
        1, 0, 0, 0, 0, 0, 0, 0, 0, 0, 0, 0, 1, 0, 0, 0, 97, 1, 0, 0, 0, 114,
        0, 0, 0, 0, 0, 0, 0, 0] ∧
    load_codecs_cache_contents FsMediaType.FS_MEDIA_TYPE_AUDIO
        [70, 83, 65, 67, 49, 49, 0, 0, 1, 0, 0, 0, 255, 255, 255, 255, 1, 0, 0, 0, 88,
          1, 0, 0, 0, 0, 0, 0, 0, 0, 0, 0, 0, 1, 0, 0, 0, 97, 1, 0, 0, 0, 114,
          0, 0, 0, 0, 0, 0, 0, 0] =
      Loaded.list [ex_blueprint_small] := by
  decide

theorem take_six_of_magic (contents : List Nat) (m : Nat) (h8 : ¬ contents.length < 8)
    (h : ¬ ((contents.take 8).getD 0 0 ≠ 70 ∨ (contents.take 8).getD 1 0 ≠ 83 ∨
      (contents.take 8).getD 2 0 ≠ m ∨ (contents.take 8).getD 3 0 ≠ 67 ∨
      (contents.take 8).getD 4 0 ≠ 49 ∨ (contents.take 8).getD 5 0 ≠ 49)) :
    contents.take 6 = [70, 83, m, 67, 49, 49] := by
  match contents, h8 with
  | b0 :: b1 :: b2 :: b3 :: b4 :: b5 :: b6 :: b7 :: rest, _ =>
    simp only [List.take_succ_cons, List.take_zero, List.getD_cons_zero, List.getD_cons_succ,
      ne_eq, not_or, not_not] at h
    obtain ⟨h0, h1, h2, h3, h4, h5⟩ := h
    simp [h0, h1, h2, h3, h4, h5]
  | [], h8 => simp at h8
  | [_], h8 => simp at h8
  | [_, _], h8 => simp at h8
  | [_, _, _], h8 => simp at h8
  | [_, _, _, _], h8 => simp at h8
  | [_, _, _, _, _], h8 => simp at h8
  | [_, _, _, _, _, _], h8 => simp at h8
  | [_, _, _, _, _, _, _], h8 => simp at h8

/-- C15. Cache magic: for every byte buffer whose first six bytes are not 'F',
'S', the media character of the requested media type ('A' for audio, 'V' for
video), 'C', '1', '1', `load_codecs_cache` returns the empty result. -/
theorem cache_magic_mismatch (media_type : FsMediaType) (contents : List Nat)
    (h : contents.take 6 ≠ [70, 83, magic_media media_type, 67, 49, 49]) :
    load_codecs_cache_contents media_type contents = Loaded.list [] ∧
    ∀ files, files.contents = some contents →
      load_codecs_cache media_type files = Loaded.list [] := by
  have h1 : load_codecs_cache_contents media_type contents = Loaded.list [] := by
    unfold load_codecs_cache_contents load_codecs_cache_cursor
    by_cases h8 : contents.length < 8
    · simp only [h8, if_true]
    · simp only [h8, if_false]
      by_cases hm : (contents.take 8).getD 0 0 ≠ 70 ∨ (contents.take 8).getD 1 0 ≠ 83 ∨
          (contents.take 8).getD 2 0 ≠ magic_media media_type ∨
          (contents.take 8).getD 3 0 ≠ 67 ∨
          (contents.take 8).getD 4 0 ≠ 49 ∨ (contents.take 8).getD 5 0 ≠ 49
      · rw [if_pos hm]
      · exact absurd (take_six_of_magic contents _ h8 hm) h
  refine ⟨h1, ?_⟩
  intro files hcontents
  unfold load_codecs_cache
  split
  · rfl
  · rw [hcontents]
    exact h1

/-- Witness of C15: the image written for audio is rejected when it is loaded
as video. -/
theorem cache_magic_mismatch_witness :
    save_codecs_cache FsMediaType.FS_MEDIA_TYPE_AUDIO [ex_blueprint_small] =
      some [70, 83, 65, 67, 49, 49, 0, 0, 1, 0, 0, 0, 255, 255, 255, 255, 1, 0, 0, 0, 88,
        1, 0, 0, 0, 0, 0, 0, 0, 0, 0, 0, 0, 1, 0, 0, 0, 97, 1, 0, 0, 0, 114,
        0, 0, 0, 0, 0, 0, 0, 0] ∧
    load_codecs_cache_contents FsMediaType.FS_MEDIA_TYPE_VIDEO
      [70, 83, 65, 67, 49, 49, 0, 0, 1, 0, 0, 0, 255, 255, 255, 255, 1, 0, 0, 0, 88,
        1, 0, 0, 0, 0, 0, 0, 0, 0, 0, 0, 0, 1, 0, 0, 0, 97, 1, 0, 0, 0, 114,
        0, 0, 0, 0, 0, 0, 0, 0] = Loaded.list [] :=
  ⟨by decide, (cache_magic_mismatch FsMediaType.FS_MEDIA_TYPE_VIDEO _ (by decide)).1⟩

/-- An image with other version digits ("1", "2") is rejected, while the same
bytes with the digits "1", "1" load. -/
theorem cache_version_digits :
    load_codecs_cache_contents FsMediaType.FS_MEDIA_TYPE_AUDIO
      [70, 83, 65, 67, 49, 50, 0, 0, 1, 0, 0, 0, 255, 255, 255, 255, 1, 0, 0, 0, 88,
        1, 0, 0, 0, 0, 0, 0, 0, 0, 0, 0, 0, 1, 0, 0, 0, 97, 1, 0, 0, 0, 114,
        0, 0, 0, 0, 0, 0, 0, 0] = Loaded.list [] ∧
    load_codecs_cache_contents FsMediaType.FS_MEDIA_TYPE_AUDIO
      [70, 83, 65, 67, 49, 49, 0, 0, 1, 0, 0, 0, 255, 255, 255, 255, 1, 0, 0, 0, 88,
        1, 0, 0, 0, 0, 0, 0, 0, 0, 0, 0, 0, 1, 0, 0, 0, 97, 1, 0, 0, 0, 114,
        0, 0, 0, 0, 0, 0, 0, 0] = Loaded.list [ex_blueprint_small] := by
  decide

/-- C16. Cache staleness: `codecs_cache_valid` accepts the cache only if the
modification time of the cache file (0 when it cannot be examined) is
strictly greater than the modification time of each registry file; and
whenever a registry file is as new as the cache file or newer, equal times
included, the cache is rejected and `load_codecs_cache` returns the empty
result whatever the file holds. -/
theorem cache_staleness (media_type : FsMediaType) (files : CacheFiles) :
    (codecs_cache_valid files = true →
      ∀ t, (files.registry_xml_mtime = some t ∨ files.registry_bin_mtime = some t) →
        t < files.cache_mtime.getD 0) ∧
    (∀ r c, (files.registry_xml_mtime = some r ∨ files.registry_bin_mtime = some r) →
      files.cache_mtime = some c → c ≤ r →
        codecs_cache_valid files = false ∧
          load_codecs_cache media_type files = Loaded.list []) := by
  obtain ⟨xml, bin, cache, contents⟩ := files
  constructor
  · intro hvalid t ht
    simp only [codecs_cache_valid, decide_eq_true_eq] at hvalid
    cases xml <;> cases bin <;> cases cache <;>
      simp only [Option.getD_some, Option.getD_none, Option.some.injEq, false_or, or_false,
        reduceCtorEq] at ht hvalid ⊢ <;>
      (try split at hvalid) <;> (try rcases ht with ht | ht) <;> omega
  · intro r c hr hc hle
    have hinv : codecs_cache_valid
        { registry_xml_mtime := xml, registry_bin_mtime := bin, cache_mtime := cache,
          contents := contents } = false := by
      simp only [codecs_cache_valid, decide_eq_false_iff_not]
      simp only at hc
      subst hc
      cases xml <;> cases bin <;>
        simp only [Option.some.injEq, false_or, or_false, reduceCtorEq] at hr ⊢ <;>
        (try split) <;> (try rcases hr with hr | hr) <;> omega
    refine ⟨hinv, ?_⟩
    simp [load_codecs_cache, hinv]

/-- The equal-times case of C16 on a well-formed file: registry and cache both
modified at time 100 give the empty result, a cache modified at 101 loads. -/
theorem cache_staleness_equal_times :
    load_codecs_cache FsMediaType.FS_MEDIA_TYPE_AUDIO
      (ex_files 100 90 100
        [70, 83, 65, 67, 49, 49, 0, 0, 1, 0, 0, 0, 255, 255, 255, 255, 1, 0, 0, 0, 88,
          1, 0, 0, 0, 0, 0, 0, 0, 0, 0, 0, 0, 1, 0, 0, 0, 97, 1, 0, 0, 0, 114,
          0, 0, 0, 0, 0, 0, 0, 0]) = Loaded.list [] ∧
    load_codecs_cache FsMediaType.FS_MEDIA_TYPE_AUDIO
      (ex_files 100 90 101
        [70, 83, 65, 67, 49, 49, 0, 0, 1, 0, 0, 0, 255, 255, 255, 255, 1, 0, 0, 0, 88,
          1, 0, 0, 0, 0, 0, 0, 0, 0, 0, 0, 0, 1, 0, 0, 0, 97, 1, 0, 0, 0, 114,
          0, 0, 0, 0, 0, 0, 0, 0]) = Loaded.list [ex_blueprint_small] := by
  decide

/-! ## The local association builder -/

theorem find_matching_blueprint_none (lib : CapsLibrary) (codec : FsCodec)
    (blueprints : List CodecBlueprint) :
    _find_matching_blueprint lib codec blueprints = none := rfl

theorem preference_associations_nil (lib : CapsLibrary) (blueprints : List CodecBlueprint)
    (codec_prefs : List FsCodec) :
    preference_associations lib blueprints codec_prefs = [] := by
  induction codec_prefs with
  | nil => rfl
  | cons codec_pref rest ih =>
    simp only [preference_associations, find_matching_blueprint_none, ih]

/-- No association comes from a preference list that holds DISABLE entries
only, whatever `_find_matching_blueprint` finds. -/
theorem preference_associations_disable (lib : CapsLibrary)
    (blueprints : List CodecBlueprint) (codec_prefs : List FsCodec)
    (h : ∀ codec ∈ codec_prefs, codec.id = FS_CODEC_ID_DISABLE) :
    preference_associations lib blueprints codec_prefs = [] := by
  induction codec_prefs with
  | nil => rfl
  | cons codec_pref rest ih =>
    have hrest := ih (fun c hc => h c (by simp [hc]))
    have hid : codec_pref.id = FS_CODEC_ID_DISABLE := h codec_pref (by simp)
    unfold preference_associations
    cases _find_matching_blueprint lib codec_pref blueprints with
    | none => exact hrest
    | some found => simp only [hid, if_true, hrest]

/-- The builder is its third loop when the preferences give no association. -/
theorem create_local_codec_associations_eq (lib : CapsLibrary) (media_type : FsMediaType)
    (blueprints : List CodecBlueprint) (codec_prefs : List FsCodec)
    (current : Option GHashTable)
    (hpa : preference_associations lib blueprints codec_prefs = []) :
    create_local_codec_associations lib media_type blueprints codec_prefs current =
      if blueprints = [] then
        { codec_associations := none, local_codecs := [], out_of_payload_types := false }
      else if (add_blueprints lib codec_prefs current 0 blueprints
          { codec_associations := [], local_codecs := [],
            out_of_payload_types := false }).local_codecs = [] then
        { codec_associations := none, local_codecs := [],
          out_of_payload_types := (add_blueprints lib codec_prefs current 0 blueprints
            { codec_associations := [], local_codecs := [],
              out_of_payload_types := false }).out_of_payload_types }
      else
        { codec_associations := some (add_blueprints lib codec_prefs current 0 blueprints
            { codec_associations := [], local_codecs := [],
              out_of_payload_types := false }).codec_associations,
          local_codecs := (add_blueprints lib codec_prefs current 0 blueprints
            { codec_associations := [], local_codecs := [],
              out_of_payload_types := false }).local_codecs,
          out_of_payload_types := (add_blueprints lib codec_prefs current 0 blueprints
            { codec_associations := [], local_codecs := [],
              out_of_payload_types := false }).out_of_payload_types } := by
  simp only [create_local_codec_associations, hpa,
    assign_preference_ids, Bool.false_eq_true, if_false]

theorem mem_dynamic_ids (id : Int) (h : id ∈ dynamic_ids) : 96 ≤ id ∧ id ≤ 127 := by
  simp only [dynamic_ids, List.mem_map, List.mem_range] at h
  obtain ⟨i, hi, rfl⟩ := h
  omega

theorem lookup_extended_iff (table : GHashTable) (key : Int) :
    g_hash_table_lookup_extended table key = true ↔ key ∈ table_keys table := by
  simp only [g_hash_table_lookup_extended, List.any_eq_true, decide_eq_true_eq, table_keys,
    List.mem_map]

theorem first_empty_loop_spec (new old : Option GHashTable) (ids : List Int) :
    first_empty_loop new old ids = -1 ∨
      (first_empty_loop new old ids ∈ ids ∧
        first_empty_loop new old ids ∉ previous_keys new ∧
        first_empty_loop new old ids ∉ previous_keys old) := by
  induction ids with
  | nil => left; rfl
  | cons id rest ih =>
    unfold first_empty_loop
    split
    · rcases ih with h | ⟨h1, h2, h3⟩
      · left; exact h
      · right; exact ⟨List.mem_cons_of_mem _ h1, h2, h3⟩
    · split
      · rcases ih with h | ⟨h1, h2, h3⟩
        · left; exact h
        · right; exact ⟨List.mem_cons_of_mem _ h1, h2, h3⟩
      · rename_i hn ho
        right
        refine ⟨List.mem_cons_self _ _, ?_, ?_⟩
        · cases new with
          | none => simp [previous_keys]
          | some t =>
            simp only [previous_keys]
            rw [← lookup_extended_iff]
            simpa using hn
        · cases old with
          | none => simp [previous_keys]
          | some t =>
            simp only [previous_keys]
            rw [← lookup_extended_iff]
            simpa using ho

/-- What `_find_first_empty_dynamic_entry` returns is -1 or an id of [96,127]
that is a key of neither table. -/
theorem find_first_empty_dynamic_entry_spec (new old : Option GHashTable) :
    _find_first_empty_dynamic_entry new old = -1 ∨
      (96 ≤ _find_first_empty_dynamic_entry new old ∧
        _find_first_empty_dynamic_entry new old ≤ 127 ∧
        _find_first_empty_dynamic_entry new old ∉ previous_keys new ∧
        _find_first_empty_dynamic_entry new old ∉ previous_keys old) := by
  unfold _find_first_empty_dynamic_entry
  rcases first_empty_loop_spec new old dynamic_ids with h | ⟨h1, h2, h3⟩
  · left; exact h
  · right
    exact ⟨(mem_dynamic_ids _ h1).1, (mem_dynamic_ids _ h1).2, h2, h3⟩

theorem mem_insert (table : GHashTable) (key : Int) (value : CodecAssociation)
    (e : Int × CodecAssociation) (h : e ∈ g_hash_table_insert table key value) :
    e = (key, value) ∨ (e ∈ table ∧ e.1 ≠ key) := by
  simp only [g_hash_table_insert, List.mem_append, List.mem_filter, List.mem_singleton,
    decide_eq_true_eq] at h
  rcases h with h | h
  · right; exact h
  · left; exact h

/-- A property of the table and the codec list that every insertion of the
third loop keeps is a property of what the loop returns. -/
theorem add_blueprints_preserves (lib : CapsLibrary) (codec_prefs : List FsCodec)
    (current : Option GHashTable) (P : GHashTable → List FsCodec → Prop)
    (blueprints : List CodecBlueprint)
    (hstep : ∀ table codecs index bp id, P table codecs → bp ∈ blueprints →
      ((0 ≤ bp.codec.id ∧ id = bp.codec.id) ∨
        (bp.codec.id < 0 ∧ id = _find_first_empty_dynamic_entry current (some table) ∧
          ¬ id < 0)) →
      P (g_hash_table_insert table id
          { blueprint_index := index, blueprint := bp, codec := { bp.codec with id := id } })
        (codecs ++ [{ bp.codec with id := id }])) :
    ∀ (rest : List CodecBlueprint) (index : Nat) (build : Build),
      (∀ bp ∈ rest, bp ∈ blueprints) →
      P build.codec_associations build.local_codecs →
      P (add_blueprints lib codec_prefs current index rest build).codec_associations
        (add_blueprints lib codec_prefs current index rest build).local_codecs := by
  intro rest
  induction rest with
  | nil => intro index build _ h; exact h
  | cons bp rest ih =>
    intro index build hmem h
    have hrest : ∀ b ∈ rest, b ∈ blueprints := fun b hb => hmem b (by simp [hb])
    have hbp : bp ∈ blueprints := hmem bp (by simp)
    unfold add_blueprints
    split
    · exact ih _ _ hrest h
    · split
      · exact ih _ _ hrest h
      · split
        · exact ih _ _ hrest h
        · simp only [fs_codec_copy_eq]
          split
          · rename_i hneg
            split
            · exact h
            · rename_i hid
              apply ih _ _ hrest
              exact hstep _ _ index bp _ h hbp (Or.inr ⟨hneg, rfl, hid⟩)
          · rename_i hneg
            apply ih _ _ hrest
            have := hstep _ _ index bp bp.codec.id h hbp (Or.inl ⟨by omega, rfl⟩)
            simpa using this
theorem is_disabled_eq (lib : CapsLibrary) (codec_prefs : List FsCodec) (bp : CodecBlueprint) :
    _is_disabled lib codec_prefs bp = intersects_disable_entry lib codec_prefs bp := by
  induction codec_prefs with
  | nil => rfl
  | cons codec rest ih =>
    unfold _is_disabled
    simp only [intersects_disable_entry, List.any_cons] at ih ⊢
    by_cases hid : codec.id = FS_CODEC_ID_DISABLE
    · simp only [hid, ne_eq, not_true_eq_false, if_false, decide_True, Bool.true_and]
      cases hc : lib.fs_codec_to_gst_caps codec with
      | none => simp [ih]
      | some caps =>
        by_cases he : lib.gst_caps_is_empty (lib.gst_caps_intersect caps bp.rtp_caps) = true
        · simp [he, ih]
        · simp [he]
    · simp [hid, ih]

/-- The codec list of the third loop when the dynamic payload types do not run
out: one codec per blueprint that has a clock rate and is not disabled, in
blueprint order. -/
theorem add_blueprints_codecs (lib : CapsLibrary) (codec_prefs : List FsCodec)
    (current : Option GHashTable) :
    ∀ (rest : List CodecBlueprint) (index : Nat) (build : Build),
      (∀ e ∈ build.codec_associations, e.2.blueprint_index < index) →
      (add_blueprints lib codec_prefs current index rest build).out_of_payload_types = false →
      ∃ added,
        (add_blueprints lib codec_prefs current index rest build).local_codecs =
          build.local_codecs ++ added ∧
        List.Forall₂ from_blueprint added
          (rest.filter (fun bp => decide (bp.codec.clock_rate ≠ 0) &&
            !intersects_disable_entry lib codec_prefs bp)) := by
  intro rest
  induction rest with
  | nil =>
    intro index build _ _
    exact ⟨[], by simp [add_blueprints], by simp⟩
  | cons bp rest ih =>
    intro index build hidx hout
    have hidx1 : ∀ e ∈ build.codec_associations, e.2.blueprint_index < index + 1 :=
      fun e he => Nat.lt_succ_of_lt (hidx e he)
    have hnotused : g_hash_table_find_blueprint build.codec_associations index = false := by
      simp only [g_hash_table_find_blueprint, _ht_has_codec_blueprint, List.any_eq_false,
        decide_eq_true_eq]
      intro e he hc
      have := hidx e he
      omega
    unfold add_blueprints at hout ⊢
    by_cases hclock : bp.codec.clock_rate ≤ 0
    · have hc0 : bp.codec.clock_rate = 0 := by omega
      simp only [hclock, if_true] at hout ⊢
      obtain ⟨added, h1, h2⟩ := ih _ _ hidx1 hout
      refine ⟨added, h1, ?_⟩
      simpa [List.filter_cons, hc0] using h2
    · have hc0 : bp.codec.clock_rate ≠ 0 := by omega
      simp only [hclock, if_false, hnotused, Bool.false_eq_true] at hout ⊢
      by_cases hdis : _is_disabled lib codec_prefs bp = true
      · simp only [hdis, if_true] at hout ⊢
        obtain ⟨added, h1, h2⟩ := ih _ _ hidx1 hout
        refine ⟨added, h1, ?_⟩
        rw [is_disabled_eq] at hdis
        simpa [List.filter_cons, hdis] using h2
      · have hdis2 : intersects_disable_entry lib codec_prefs bp = false := by
          rw [← is_disabled_eq]; simpa using hdis
        have hfilter : (bp :: rest).filter (fun bp => decide (bp.codec.clock_rate ≠ 0) &&
            !intersects_disable_entry lib codec_prefs bp) =
            bp :: rest.filter (fun bp => decide (bp.codec.clock_rate ≠ 0) &&
              !intersects_disable_entry lib codec_prefs bp) := by
          simp [List.filter_cons, hc0, hdis2]
        simp only [hdis, Bool.false_eq_true, if_false, fs_codec_copy_eq] at hout ⊢
        rw [hfilter]
        by_cases hneg : bp.codec.id < 0
        · simp only [hneg, if_true] at hout ⊢
          by_cases hid : _find_first_empty_dynamic_entry current
              (some build.codec_associations) < 0
          · simp only [hid, if_true] at hout
            simp at hout
          · simp only [hid, if_false] at hout ⊢
            have hidx2 : ∀ e ∈ g_hash_table_insert build.codec_associations
                (_find_first_empty_dynamic_entry current (some build.codec_associations))
                { blueprint_index := index, blueprint := bp,
                  codec := { bp.codec with
                    id := _find_first_empty_dynamic_entry current
                      (some build.codec_associations) } },
                e.2.blueprint_index < index + 1 := by
              intro e he
              rcases mem_insert _ _ _ e he with h | ⟨h, _⟩
              · rw [h]; exact Nat.lt_succ_self _
              · exact hidx1 e h
            obtain ⟨added, h1, h2⟩ := ih _ _ hidx2 hout
            refine ⟨({ bp.codec with
              id := _find_first_empty_dynamic_entry current (some build.codec_associations) } :
                FsCodec) :: added, by rw [h1]; simp, ?_⟩
            refine List.Forall₂.cons ⟨fun h0 => by omega, fun _ => ?_⟩ h2
            rcases find_first_empty_dynamic_entry_spec current
                (some build.codec_associations) with h | ⟨ha, hb, _, _⟩
            · rw [h] at hid; omega
            · exact ⟨_, ha, hb, rfl⟩
        · simp only [hneg, if_false] at hout ⊢
          have hidx2 : ∀ e ∈ g_hash_table_insert build.codec_associations bp.codec.id
              { blueprint_index := index, blueprint := bp, codec := bp.codec },
              e.2.blueprint_index < index + 1 := by
            intro e he
            rcases mem_insert _ _ _ e he with h | ⟨h, _⟩
            · rw [h]; exact Nat.lt_succ_self _
            · exact hidx1 e h
          obtain ⟨added, h1, h2⟩ := ih _ _ hidx2 hout
          refine ⟨bp.codec :: added, by rw [h1]; simp, ?_⟩
          exact List.Forall₂.cons ⟨fun _ => rfl, fun h0 => absurd h0 hneg⟩ h2

theorem create_local_codecs_eq (lib : CapsLibrary) (media_type : FsMediaType)
    (blueprints : List CodecBlueprint) (codec_prefs : List FsCodec)
    (current : Option GHashTable)
    (hpa : preference_associations lib blueprints codec_prefs = []) :
    (create_local_codec_associations lib media_type blueprints codec_prefs current).local_codecs =
      (add_blueprints lib codec_prefs current 0 blueprints
        { codec_associations := [], local_codecs := [],
          out_of_payload_types := false }).local_codecs := by
  rw [create_local_codec_associations_eq _ _ _ _ _ hpa]
  split
  · rename_i h; subst h; rfl
  · split
    · rename_i h; rw [h]
    · rfl

theorem create_out_of_payload_types_eq (lib : CapsLibrary) (media_type : FsMediaType)
    (blueprints : List CodecBlueprint) (codec_prefs : List FsCodec)
    (current : Option GHashTable)
    (hpa : preference_associations lib blueprints codec_prefs = []) :
    (create_local_codec_associations lib media_type blueprints codec_prefs
        current).out_of_payload_types =
      (add_blueprints lib codec_prefs current 0 blueprints
        { codec_associations := [], local_codecs := [],
          out_of_payload_types := false }).out_of_payload_types := by
  rw [create_local_codec_associations_eq _ _ _ _ _ hpa]
  split
  · rename_i h; subst h; rfl
  · split <;> rfl

theorem create_table_eq (lib : CapsLibrary) (media_type : FsMediaType)
    (blueprints : List CodecBlueprint) (codec_prefs : List FsCodec)
    (current : Option GHashTable) (table : GHashTable)
    (hpa : preference_associations lib blueprints codec_prefs = [])
    (h : (create_local_codec_associations lib media_type blueprints codec_prefs
      current).codec_associations = some table) :
    table = (add_blueprints lib codec_prefs current 0 blueprints
        { codec_associations := [], local_codecs := [],
          out_of_payload_types := false }).codec_associations := by
  rw [create_local_codec_associations_eq _ _ _ _ _ hpa] at h
  split at h
  · simp at h
  · split at h
    · simp at h
    · simp only [Option.some.injEq] at h
      exact h.symm

/-! ## Claims C17 to C20: the local association builder -/

/-- C17 (the code at the failing input). A preference for PCMU with the explicit
id 100 and a parameter matches the PCMU blueprint (their descriptors
intersect), yet the codec list does not start with a codec derived from it:
it holds the codec of the blueprint, id 0 and no parameter, only.
`_find_matching_blueprint` returns NULL at line 145 for every preference. -/
theorem builder_preference_not_used :
    ex_caps_library.fs_codec_to_gst_caps (ex_audio 100 "PCMU" 8000 1 [ex_param "ptime" "20"]) =
      some { text := cstr "PCMU" } ∧
    ex_caps_library.gst_caps_is_empty
      (ex_caps_library.gst_caps_intersect { text := cstr "PCMU" }
        (ex_blueprint 0 "PCMU" 8000).rtp_caps) = false ∧
    (create_local_codec_associations ex_caps_library FsMediaType.FS_MEDIA_TYPE_AUDIO
      [ex_blueprint 0 "PCMU" 8000] [ex_audio 100 "PCMU" 8000 1 [ex_param "ptime" "20"]]
      none).local_codecs = [ex_audio 0 "PCMU" 8000 1 []] := by
  decide

/-- No preference ever finds its blueprint: the list built from the
preferences is empty, whatever the library, the blueprints and the
preferences are. -/
theorem builder_preferences_never_match (lib : CapsLibrary)
    (blueprints : List CodecBlueprint) (codec_prefs : List FsCodec) :
    (∀ codec ∈ codec_prefs, _find_matching_blueprint lib codec blueprints = none) ∧
      preference_associations lib blueprints codec_prefs = [] :=
  ⟨fun _ _ => rfl, preference_associations_nil lib blueprints codec_prefs⟩

/-- Counterexample to C20 as stated: the id 96 is free, and the blueprint with
the static id 0 is given the key 0 although 0 is a key of the previous
mapping. -/
theorem builder_static_id_reused :
    (96 : Int) ∉ previous_keys
      (some [ex_entry 0 0 (ex_blueprint 0 "PCMU" 8000)]) ∧
    (0 : Int) ∈ previous_keys
      (some [ex_entry 0 0 (ex_blueprint 0 "PCMU" 8000)]) ∧
    (create_local_codec_associations ex_caps_library FsMediaType.FS_MEDIA_TYPE_AUDIO
      [ex_blueprint 0 "PCMU" 8000] []
      (some [ex_entry 0 0 (ex_blueprint 0 "PCMU" 8000)])).codec_associations =
      some [ex_entry 0 0 (ex_blueprint 0 "PCMU" 8000)] := by
  decide

/-- C20, amended. Association builder, renegotiation stability: for every
blueprint list, preference list and previous mapping, no payload id that
`create_local_codec_associations` allocates dynamically (the key of an
association whose blueprint has a negative id) is a key of the
previous-session mapping. -/
theorem builder_dynamic_ids_avoid_previous (lib : CapsLibrary) (media_type : FsMediaType)
    (blueprints : List CodecBlueprint) (codec_prefs : List FsCodec)
    (current : Option GHashTable) (table : GHashTable)
    (htable : (create_local_codec_associations lib media_type blueprints codec_prefs
      current).codec_associations = some table) :
    ∀ e ∈ table, e.2.blueprint.codec.id < 0 → e.1 ∉ previous_keys current := by
  have hinv := add_blueprints_preserves lib codec_prefs current
    (fun table _ => ∀ e ∈ table, e.2.blueprint.codec.id < 0 → e.1 ∉ previous_keys current)
    blueprints
    (by
      intro table codecs index bp id hP _ hid e he hneg
      rcases mem_insert _ _ _ e he with h | ⟨h, _⟩
      · rw [h] at hneg ⊢
        simp only at hneg ⊢
        rcases hid with ⟨h0, _⟩ | ⟨_, hdyn, hnn⟩
        · omega
        · rcases find_first_empty_dynamic_entry_spec current (some table) with h | ⟨_, _, hc, _⟩
          · rw [← hdyn] at h; omega
          · rw [← hdyn] at hc; exact hc
      · exact hP e h hneg)
    blueprints 0
    { codec_associations := [], local_codecs := [], out_of_payload_types := false }
    (fun _ h => h) (fun e he => by simp at he)
  rw [create_table_eq lib media_type blueprints codec_prefs current table
    (preference_associations_nil lib blueprints codec_prefs) htable]
  exact hinv

/-- Witness of amended C20: the previous mapping holds 96, the unassigned iLBC
blueprint is given 97. -/
theorem builder_dynamic_ids_avoid_previous_witness :
    (create_local_codec_associations ex_caps_library FsMediaType.FS_MEDIA_TYPE_AUDIO
      [ex_blueprint (-1) "iLBC" 8000] []
      (some [ex_entry 96 0 (ex_blueprint (-1) "G729" 8000)])).codec_associations =
      some [ex_entry 97 0 (ex_blueprint (-1) "iLBC" 8000)] ∧
    ∀ e ∈ [ex_entry 97 0 (ex_blueprint (-1) "iLBC" 8000)],
      e.2.blueprint.codec.id < 0 → e.1 ∉ previous_keys
        (some [ex_entry 96 0 (ex_blueprint (-1) "G729" 8000)]) :=
  ⟨by decide,
    builder_dynamic_ids_avoid_previous ex_caps_library FsMediaType.FS_MEDIA_TYPE_AUDIO
      [ex_blueprint (-1) "iLBC" 8000] []
      (some [ex_entry 96 0 (ex_blueprint (-1) "G729" 8000)]) _ (by decide)⟩

/-! ## Claims C24 and C28: the dispatch and the iLBC rule on equal modes -/

/-- C24. Negotiation dispatch: for every pair of codecs with equal media type
and case-insensitively equal names, `sdp_is_compat` returns what the iLBC rule
returns when the codecs are audio codecs named iLBC (case-insensitively), what
the H263-1998 rule returns when they are video codecs named H263-1998
(case-insensitively), and what the default rule returns for every other pair. -/
theorem dispatch_by_media_and_name (l r : FsCodec)
    (hmedia : l.media_type = r.media_type)
    (hname : casefold l.encoding_name = casefold r.encoding_name) :
    sdp_is_compat l r = sdp_is_compat_by_rule l r ∧
    (is_ilbc l ↔ is_ilbc r) ∧ (is_h263_1998 l ↔ is_h263_1998 r) := by
  have hm : ¬ l.media_type ≠ r.media_type := by simp [hmedia]
  have hn : ¬ g_ascii_strcasecmp l.encoding_name r.encoding_name ≠ 0 := by
    rw [not_not, g_ascii_strcasecmp_eq_zero_iff]; exact hname
  refine ⟨?_, ?_, ?_⟩
  · have e1 : (FsMediaType.FS_MEDIA_TYPE_AUDIO = r.media_type ∧
        casefold (cstr "iLBC") = casefold r.encoding_name) ↔ is_ilbc r :=
      ⟨fun h => ⟨h.1.symm, h.2.symm⟩, fun h => ⟨h.1.symm, h.2.symm⟩⟩
    have e2 : (FsMediaType.FS_MEDIA_TYPE_VIDEO = r.media_type ∧
        casefold (cstr "H263-1998") = casefold r.encoding_name) ↔ is_h263_1998 r :=
      ⟨fun h => ⟨h.1.symm, h.2.symm⟩, fun h => ⟨h.1.symm, h.2.symm⟩⟩
    unfold sdp_is_compat sdp_is_compat_by_rule
    rw [if_neg hm, if_neg hn]
    simp only [sdp_compat_checks, sdp_dispatch, g_ascii_strcasecmp_eq_zero_iff]
    by_cases hi : is_ilbc r
    · rw [if_pos hi, if_pos (e1.mpr hi)]
    · rw [if_neg hi, if_neg (fun h => hi (e1.mp h))]
      by_cases hh : is_h263_1998 r
      · rw [if_pos hh, if_pos (e2.mpr hh)]
      · rw [if_neg hh, if_neg (fun h => hh (e2.mp h))]
  · unfold is_ilbc; rw [hmedia, hname]
  · unfold is_h263_1998; rw [hmedia, hname]

/-- Witness of C24: "ILBC" against "ilbc" on audio goes to the iLBC rule, and a
video codec named iLBC goes to the default rule. -/
theorem dispatch_by_media_and_name_witness :
    (sdp_is_compat (ex_audio 97 "ILBC" 8000 1 []) (ex_audio 102 "ilbc" 8000 1 []) =
        sdp_is_compat_by_rule (ex_audio 97 "ILBC" 8000 1 []) (ex_audio 102 "ilbc" 8000 1 []) ∧
      sdp_is_compat_by_rule (ex_audio 97 "ILBC" 8000 1 []) (ex_audio 102 "ilbc" 8000 1 []) =
        sdp_is_compat_ilbc (ex_audio 97 "ILBC" 8000 1 []) (ex_audio 102 "ilbc" 8000 1 [])) ∧
    (sdp_is_compat (ex_video 97 "iLBC" 8000 1 []) (ex_video 102 "iLBC" 8000 1 []) =
        sdp_is_compat_default (ex_video 97 "iLBC" 8000 1 []) (ex_video 102 "iLBC" 8000 1 []) ∧
      sdp_is_compat_ilbc (ex_video 97 "iLBC" 8000 1 []) (ex_video 102 "iLBC" 8000 1 []) ≠
        sdp_is_compat_default (ex_video 97 "iLBC" 8000 1 [])
          (ex_video 102 "iLBC" 8000 1 [])) :=
  ⟨⟨(dispatch_by_media_and_name _ _ (by decide) (by decide)).1, by decide⟩,
    by decide, by decide⟩

/-- C28 (the code at the failing input). Local and remote audio iLBC codecs each
carry the one parameter mode=20: negotiation succeeds, but the negotiated
parameter list is not the remote list, it holds "mode" twice. The inner loop
of `sdp_is_compat_ilbc` has no `break` for equal modes (lines 207-215), so it
runs to the end of the list and the local "mode" is appended (lines 228-240).
The same happens with mode=30 on both sides. -/
theorem ilbc_equal_modes_duplicated :
    sdp_is_compat (ex_audio 97 "iLBC" 8000 1 [ex_param "mode" "20"])
        (ex_audio 102 "iLBC" 8000 1 [ex_param "mode" "20"]) =
      some (ex_audio 102 "iLBC" 8000 1 [ex_param "mode" "20", ex_param "mode" "20"]) ∧
    sdp_is_compat (ex_audio 97 "iLBC" 8000 1 [ex_param "mode" "30"])
        (ex_audio 102 "iLBC" 8000 1 [ex_param "mode" "30"]) =
      some (ex_audio 102 "iLBC" 8000 1 [ex_param "mode" "30", ex_param "mode" "30"]) := by
  decide

/-- The sibling path of the same loop: a parameter other than "mode" with equal
values on both sides leaves the loop through `break` and is not appended. -/
theorem ilbc_equal_other_parameter_kept_once :
    sdp_is_compat (ex_audio 97 "iLBC" 8000 1 [ex_param "x" "1", ex_param "mode" "20"])
        (ex_audio 102 "iLBC" 8000 1 [ex_param "x" "1"]) =
      some (ex_audio 102 "iLBC" 8000 1 [ex_param "x" "1", ex_param "mode" "20"]) := by
  decide

/-! ## Claims C29 and C30: the flags and the string reader of the cache -/

theorem validate_blueprint_params_iff (p : FsCodecParameter) (bp_params : List FsCodecParameter) :
    validate_blueprint_params p bp_params = true ↔
      ∀ q ∈ bp_params.find? (fun q => decide (casefold p.name = casefold q.name)),
        casefold p.value = casefold q.value := by
  simp only [Option.mem_def]
  induction bp_params with
  | nil => simp [validate_blueprint_params]
  | cons b rest ih =>
    unfold validate_blueprint_params
    by_cases hname : casefold p.name = casefold b.name
    · have h0 : g_ascii_strcasecmp p.name b.name = 0 :=
        (g_ascii_strcasecmp_eq_zero_iff _ _).mpr hname
      rw [if_pos h0, List.find?_cons_of_pos _ (by simpa using hname)]
      by_cases hval : casefold p.value = casefold b.value
      · have hv : ¬ g_ascii_strcasecmp p.value b.value ≠ 0 := by
          rw [not_not]; exact (g_ascii_strcasecmp_eq_zero_iff _ _).mpr hval
        rw [if_neg hv]
        simp only [true_iff, Option.some.injEq]
        intro q hq; rw [← hq]; exact hval
      · have hv : g_ascii_strcasecmp p.value b.value ≠ 0 := by
          intro h; exact hval ((g_ascii_strcasecmp_eq_zero_iff _ _).mp h)
        rw [if_pos hv]
        simp only [Bool.false_eq_true, false_iff, Option.some.injEq, not_forall]
        exact ⟨b, rfl, hval⟩
    · have h0 : ¬ g_ascii_strcasecmp p.name b.name = 0 := by
        intro h; exact hname ((g_ascii_strcasecmp_eq_zero_iff _ _).mp h)
      rw [if_neg h0, List.find?_cons_of_neg _ (by simpa using hname)]
      exact ih

theorem validate_codec_params_iff (blueprint : CodecBlueprint)
    (codec_params : List FsCodecParameter) :
    validate_codec_params blueprint codec_params = true ↔
      shared_params_agree codec_params blueprint.codec.optional_params := by
  induction codec_params with
  | nil => simp [validate_codec_params, shared_params_agree]
  | cons p rest ih =>
    unfold validate_codec_params
    simp only [shared_params_agree, List.mem_cons, forall_eq_or_imp] at ih ⊢
    by_cases hp : validate_blueprint_params p blueprint.codec.optional_params = true
    · rw [if_pos hp, ih]
      exact ⟨fun h => ⟨(validate_blueprint_params_iff _ _).mp hp, h⟩, fun h => h.2⟩
    · rw [if_neg hp]
      simp only [Bool.false_eq_true, false_iff, not_and]
      intro h
      exact absurd ((validate_blueprint_params_iff _ _).mpr h) hp

theorem validate_find_blueprint_iff (codec : FsCodec) (blueprints : List CodecBlueprint) :
    validate_find_blueprint codec blueprints = true ↔
      ∃ bp ∈ blueprints,
        casefold bp.codec.encoding_name = casefold codec.encoding_name ∧
        clock_rates_agree bp.codec.clock_rate codec.clock_rate ∧
        shared_params_agree codec.optional_params bp.codec.optional_params := by
  induction blueprints with
  | nil => simp [validate_find_blueprint]
  | cons b rest ih =>
    unfold validate_find_blueprint
    simp only [List.mem_cons, exists_eq_or_imp]
    by_cases hname : casefold b.codec.encoding_name = casefold codec.encoding_name
    · have h0 : ¬ g_ascii_strcasecmp b.codec.encoding_name codec.encoding_name ≠ 0 := by
        rw [not_not]; exact (g_ascii_strcasecmp_eq_zero_iff _ _).mpr hname
      rw [if_neg h0]
      by_cases hclock : clock_rates_agree b.codec.clock_rate codec.clock_rate
      · have h1 : ¬ (b.codec.clock_rate ≠ 0 ∧ codec.clock_rate ≠ 0 ∧
            b.codec.clock_rate ≠ codec.clock_rate) := by
          unfold clock_rates_agree at hclock; omega
        have h2 : ¬ (b.codec.clock_rate = 0 ∧ codec.clock_rate = 0) := by
          unfold clock_rates_agree at hclock; omega
        rw [if_neg h1, if_neg h2]
        by_cases hp : validate_codec_params b codec.optional_params = true
        · rw [if_pos hp]
          simp only [true_iff]
          exact Or.inl ⟨hname, hclock, (validate_codec_params_iff _ _).mp hp⟩
        · rw [if_neg hp, ih]
          constructor
          · intro h; exact Or.inr h
          · rintro (h | h)
            · exact absurd ((validate_codec_params_iff _ _).mpr h.2.2) hp
            · exact h
      · have hskip : (if b.codec.clock_rate ≠ 0 ∧ codec.clock_rate ≠ 0 ∧
              b.codec.clock_rate ≠ codec.clock_rate then
            validate_find_blueprint codec rest
          else if b.codec.clock_rate = 0 ∧ codec.clock_rate = 0 then
            validate_find_blueprint codec rest
          else if validate_codec_params b codec.optional_params = true then true
          else validate_find_blueprint codec rest) = validate_find_blueprint codec rest := by
          by_cases h1 : b.codec.clock_rate ≠ 0 ∧ codec.clock_rate ≠ 0 ∧
              b.codec.clock_rate ≠ codec.clock_rate
          · rw [if_pos h1]
          · rw [if_neg h1]
            have h2 : b.codec.clock_rate = 0 ∧ codec.clock_rate = 0 := by
              unfold clock_rates_agree at hclock; omega
            rw [if_pos h2]
        rw [hskip, ih]
        constructor
        · intro h; exact Or.inr h
        · rintro (h | h)
          · exact absurd h.2.1 hclock
          · exact h
    · have h0 : g_ascii_strcasecmp b.codec.encoding_name codec.encoding_name ≠ 0 := by
        intro h; exact hname ((g_ascii_strcasecmp_eq_zero_iff _ _).mp h)
      rw [if_pos h0, ih]
      constructor
      · intro h; exact Or.inr h
      · rintro (h | h)
        · exact absurd h.1 hname
        · exact h

/-- Counterexample to C25 as stated: a preference with clock rate 0 against a
blueprint of the same name with clock rate 0, neither with parameters, is
removed, although the two clock rates are equal and unspecified on both
sides. -/
theorem validate_both_clock_rates_unspecified_removed :
    (ex_audio (-1) "PCMU" 0 1 []).clock_rate = (ex_blueprint 0 "PCMU" 0).codec.clock_rate ∧
    validate_codecs_configuration FsMediaType.FS_MEDIA_TYPE_AUDIO [ex_blueprint 0 "PCMU" 0]
      [ex_audio (-1) "PCMU" 0 1 []] = [] := by
  decide

/-- C25, amended. Preference validation: `validate_codecs_configuration` returns
the preference list with exactly the invalid codecs removed and the others in
their original order, where a preference codec is valid if and only if its
media type is the requested one and some blueprint has a case-insensitively
equal encoding name, a clock rate such that at least one of the two clock
rates is specified and both are equal when both are specified, and, for every
parameter of the preference that the blueprint names too, a
case-insensitively equal value in its first parameter of that name. -/
theorem validate_keeps_valid_preferences (media_type : FsMediaType)
    (blueprints : List CodecBlueprint) (codecs : List FsCodec) :
    validate_codecs_configuration media_type blueprints codecs =
      codecs.filter (fun codec => decide (valid_preference media_type blueprints codec)) := by
  induction codecs with
  | nil => rfl
  | cons codec rest ih =>
    unfold validate_codecs_configuration
    by_cases hm : media_type ≠ codec.media_type
    · have hk : ¬ decide (valid_preference media_type blueprints codec) = true := by
        rw [decide_eq_true_eq]; intro h; exact hm h.1.symm
      rw [if_pos hm, ih]
      simp only [List.filter_cons]
      rw [if_neg hk]
    · rw [if_neg hm]
      by_cases hf : validate_find_blueprint codec blueprints = true
      · have hk : decide (valid_preference media_type blueprints codec) = true := by
          rw [decide_eq_true_eq]
          exact ⟨(not_not.mp hm).symm, (validate_find_blueprint_iff _ _).mp hf⟩
        rw [if_neg (not_not.mpr hf), ih]
        simp only [List.filter_cons]
        rw [if_pos hk]
      · have hk : ¬ decide (valid_preference media_type blueprints codec) = true := by
          rw [decide_eq_true_eq]; intro h
          exact hf ((validate_find_blueprint_iff _ _).mpr h.2)
        rw [if_pos hf, ih]
        simp only [List.filter_cons]
        rw [if_neg hk]

/-- The validation on a list with one invalid codec of each kind: wrong media
type, unknown name, different clock rate, different value of a shared
parameter; a value that differs in case only is accepted. -/
theorem validate_examples :
    validate_codecs_configuration FsMediaType.FS_MEDIA_TYPE_AUDIO
      [{ ex_blueprint 0 "PCMU" 8000 with
          codec := ex_audio 0 "PCMU" 8000 1 [ex_param "ptime" "ab"] },
        ex_blueprint (-1) "iLBC" 0]
      [ex_audio (-1) "pcmu" 0 1 [ex_param "PTIME" "AB"],
        ex_video (-1) "PCMU" 8000 1 [],
        ex_audio (-1) "G729" 8000 1 [],
        ex_audio (-1) "PCMU" 16000 1 [],
        ex_audio (-1) "PCMU" 8000 1 [ex_param "ptime" "cd"],
        ex_audio (-1) "ILBC" 8000 1 [ex_param "mode" "20"]] =
      [ex_audio (-1) "pcmu" 0 1 [ex_param "PTIME" "AB"],
        ex_audio (-1) "ILBC" 8000 1 [ex_param "mode" "20"]] := by
  decide

/-! ## The allocation of dynamic payload types -/

theorem table_occupied_iff (t : Option GHashTable) (id : Int) :
    (match t with
      | some table => g_hash_table_lookup_extended table id
      | none => false) = true ↔ id ∈ previous_keys t := by
  cases t with
  | none => simp [previous_keys]
  | some table =>
    simp only [previous_keys]
    exact lookup_extended_iff table id

/-- On an increasing list of ids the loop stops at or before every free id. -/
theorem first_empty_loop_lowest (new old : Option GHashTable) (ids : List Int)
    (hsorted : ids.Pairwise (fun a b => a < b)) (j : Int) (hj : j ∈ ids)
    (hn : j ∉ previous_keys new) (ho : j ∉ previous_keys old) :
    first_empty_loop new old ids ∈ ids ∧ first_empty_loop new old ids ≤ j := by
  induction ids with
  | nil => simp at hj
  | cons id rest ih =>
    have hs := List.pairwise_cons.mp hsorted
    unfold first_empty_loop
    split
    · rename_i h1
      have hne : j ≠ id := by
        intro h; rw [h] at hn; exact hn ((table_occupied_iff new id).mp h1)
      have hjr : j ∈ rest := by
        rcases List.mem_cons.mp hj with h | h
        · exact absurd h hne
        · exact h
      obtain ⟨ha, hb⟩ := ih hs.2 hjr
      exact ⟨List.mem_cons_of_mem _ ha, hb⟩
    · split
      · rename_i h1 h2
        have hne : j ≠ id := by
          intro h; rw [h] at ho; exact ho ((table_occupied_iff old id).mp h2)
        have hjr : j ∈ rest := by
          rcases List.mem_cons.mp hj with h | h
          · exact absurd h hne
          · exact h
        obtain ⟨ha, hb⟩ := ih hs.2 hjr
        exact ⟨List.mem_cons_of_mem _ ha, hb⟩
      · refine ⟨List.mem_cons_self _ _, ?_⟩
        rcases List.mem_cons.mp hj with h | h
        · omega
        · have := hs.1 j h; omega

theorem dynamic_ids_sorted : dynamic_ids.Pairwise (fun a b => a < b) := by
  decide

theorem mem_dynamic_ids_of_range (j : Int) (h96 : 96 ≤ j) (h127 : j ≤ 127) :
    j ∈ dynamic_ids := by
  simp only [dynamic_ids, List.mem_map, List.mem_range]
  exact ⟨(j - 96).toNat, by omega, by omega⟩

/-- A free id of [96,127] bounds what `_find_first_empty_dynamic_entry` returns. -/
theorem find_first_empty_dynamic_entry_lowest (new old : Option GHashTable) (j : Int)
    (h96 : 96 ≤ j) (h127 : j ≤ 127)
    (hn : j ∉ previous_keys new) (ho : j ∉ previous_keys old) :
    96 ≤ _find_first_empty_dynamic_entry new old ∧
      _find_first_empty_dynamic_entry new old ≤ j := by
  unfold _find_first_empty_dynamic_entry
  obtain ⟨ha, hb⟩ := first_empty_loop_lowest new old dynamic_ids dynamic_ids_sorted j
    (mem_dynamic_ids_of_range j h96 h127) hn ho
  exact ⟨(mem_dynamic_ids _ ha).1, hb⟩

/-- When `_find_first_empty_dynamic_entry` finds no id, every id of [96,127] is
a key of one of the tables. -/
theorem find_first_empty_dynamic_entry_none (new old : Option GHashTable)
    (h : _find_first_empty_dynamic_entry new old < 0) (j : Int)
    (h96 : 96 ≤ j) (h127 : j ≤ 127) :
    j ∈ previous_keys new ∨ j ∈ previous_keys old := by
  by_contra hfree
  rw [not_or] at hfree
  have := find_first_empty_dynamic_entry_lowest new old j h96 h127 hfree.1 hfree.2
  omega

theorem mem_keys_insert (table : GHashTable) (key : Int) (value : CodecAssociation)
    (j : Int) :
    j ∈ table_keys (g_hash_table_insert table key value) ↔ j = key ∨ j ∈ table_keys table := by
  simp only [table_keys, g_hash_table_insert, List.map_append, List.mem_append, List.mem_map,
    List.mem_filter, decide_eq_true_eq, List.map_cons, List.map_nil, List.mem_singleton]
  constructor
  · rintro (⟨e, ⟨he, _⟩, rfl⟩ | h)
    · exact Or.inr ⟨e, he, rfl⟩
    · exact Or.inl h
  · rintro (h | ⟨e, he, rfl⟩)
    · exact Or.inr h
    · by_cases hk : e.1 = key
      · exact Or.inr hk
      · exact Or.inl ⟨e, ⟨he, hk⟩, rfl⟩

/-! ## The third loop of the builder, blueprint by blueprint -/

theorem usable_blueprints_cons_of_usable (lib : CapsLibrary) (codec_prefs : List FsCodec)
    (bp : CodecBlueprint) (rest : List CodecBlueprint) (hc : bp.codec.clock_rate ≠ 0)
    (hd : intersects_disable_entry lib codec_prefs bp = false) :
    usable_blueprints lib codec_prefs (bp :: rest) =
      bp :: usable_blueprints lib codec_prefs rest := by
  simp [usable_blueprints, List.filter_cons, hc, hd]

theorem usable_blueprints_cons_of_no_clock_rate (lib : CapsLibrary) (codec_prefs : List FsCodec)
    (bp : CodecBlueprint) (rest : List CodecBlueprint) (hc : bp.codec.clock_rate = 0) :
    usable_blueprints lib codec_prefs (bp :: rest) = usable_blueprints lib codec_prefs rest := by
  simp [usable_blueprints, List.filter_cons, hc]

theorem usable_blueprints_cons_of_disabled (lib : CapsLibrary) (codec_prefs : List FsCodec)
    (bp : CodecBlueprint) (rest : List CodecBlueprint)
    (hd : intersects_disable_entry lib codec_prefs bp = true) :
    usable_blueprints lib codec_prefs (bp :: rest) = usable_blueprints lib codec_prefs rest := by
  simp [usable_blueprints, List.filter_cons, hd]

theorem blueprints_added_nil (lib : CapsLibrary) (codec_prefs : List FsCodec)
    (current : Option GHashTable) (build : Build) :
    blueprints_added lib codec_prefs current [] build build :=
  ⟨[], [], by simp, List.Forall₂.nil, by simp [handed_out_ids], by simp [handed_out_ids],
    Or.inl ⟨rfl, rfl⟩⟩

theorem blueprints_added_skip (lib : CapsLibrary) (codec_prefs : List FsCodec)
    (current : Option GHashTable) (bp : CodecBlueprint) (rest : List CodecBlueprint)
    (build result : Build)
    (hskip : usable_blueprints lib codec_prefs (bp :: rest) =
      usable_blueprints lib codec_prefs rest)
    (h : blueprints_added lib codec_prefs current rest build result) :
    blueprints_added lib codec_prefs current (bp :: rest) build result := by
  obtain ⟨added, kept, h1, h2, h3, h4, h5⟩ := h
  refine ⟨added, kept, h1, h2, h3, h4, ?_⟩
  rw [hskip]
  exact h5

theorem blueprints_added_exhausted (lib : CapsLibrary) (codec_prefs : List FsCodec)
    (current : Option GHashTable) (bp : CodecBlueprint) (rest : List CodecBlueprint)
    (build : Build)
    (hus : usable_blueprints lib codec_prefs (bp :: rest) =
      bp :: usable_blueprints lib codec_prefs rest)
    (hneg : bp.codec.id < 0)
    (hfull : _find_first_empty_dynamic_entry current (some build.codec_associations) < 0) :
    blueprints_added lib codec_prefs current (bp :: rest) build
      { build with out_of_payload_types := true } := by
  refine ⟨[], [], by simp, List.Forall₂.nil, by simp [handed_out_ids],
    by simp [handed_out_ids], Or.inr ⟨rfl, bp, usable_blueprints lib codec_prefs rest, ?_, hneg, ?_⟩⟩
  · rw [hus]; rfl
  · intro j h96 h127
    rcases find_first_empty_dynamic_entry_none current (some build.codec_associations) hfull
      j h96 h127 with h | h
    · exact Or.inr h
    · exact Or.inl h

theorem blueprints_added_insert (lib : CapsLibrary) (codec_prefs : List FsCodec)
    (current : Option GHashTable) (bp : CodecBlueprint) (rest : List CodecBlueprint)
    (build result : Build) (index : Nat) (id : Int)
    (hus : usable_blueprints lib codec_prefs (bp :: rest) =
      bp :: usable_blueprints lib codec_prefs rest)
    (hid : (0 ≤ bp.codec.id ∧ id = bp.codec.id) ∨
      (bp.codec.id < 0 ∧
        id = _find_first_empty_dynamic_entry current (some build.codec_associations) ∧
        ¬ id < 0))
    (h : blueprints_added lib codec_prefs current rest
      { build with
        codec_associations := g_hash_table_insert build.codec_associations id
          { blueprint_index := index, blueprint := bp, codec := { bp.codec with id := id } }
        local_codecs := build.local_codecs ++ [{ bp.codec with id := id }] } result) :
    blueprints_added lib codec_prefs current (bp :: rest) build result := by
  obtain ⟨added, kept, h1, h2, h3, h4, h5⟩ := h
  simp only at h1 h4 h5
  have hkeys : ∀ d, d ∉ table_keys (g_hash_table_insert build.codec_associations id
      { blueprint_index := index, blueprint := bp, codec := { bp.codec with id := id } }) →
      d ≠ id ∧ d ∉ table_keys build.codec_associations := by
    intro d hd
    rw [mem_keys_insert, not_or] at hd
    exact hd
  have h5' : (result.out_of_payload_types = build.out_of_payload_types ∧
        bp :: kept = usable_blueprints lib codec_prefs (bp :: rest)) ∨
      (result.out_of_payload_types = true ∧
        ∃ next rest1, usable_blueprints lib codec_prefs (bp :: rest) =
            (bp :: kept) ++ next :: rest1 ∧
          next.codec.id < 0 ∧
          ∀ j, 96 ≤ j → j ≤ 127 →
            j ∈ table_keys result.codec_associations ∨ j ∈ previous_keys current) := by
    rcases h5 with ⟨ho, hk⟩ | ⟨ho, next, rest1, hu, hn, hall⟩
    · exact Or.inl ⟨ho, by rw [hus, hk]⟩
    · exact Or.inr ⟨ho, next, rest1, by rw [hus, hu]; rfl, hn, hall⟩
  have hcodecs : result.local_codecs =
      build.local_codecs ++ ({ bp.codec with id := id } : FsCodec) :: added := by
    rw [h1]; simp
  rcases hid with ⟨h0, hstatic⟩ | ⟨hneg, hdyn, hnn⟩
  · have hno : ¬ bp.codec.id < 0 := by omega
    have hH : handed_out_ids (({ bp.codec with id := id } : FsCodec) :: added) (bp :: kept) =
        handed_out_ids added kept := by
      simp only [handed_out_ids, hno, if_false]
    refine ⟨_ :: added, bp :: kept, hcodecs, List.Forall₂.cons ⟨fun _ => ?_, fun hc => ?_⟩ h2,
      ?_, ?_, h5'⟩
    · rw [hstatic]
    · omega
    · rw [hH]; exact h3
    · rw [hH]
      intro d hd
      obtain ⟨ha, hb, hc, he⟩ := h4 d hd
      exact ⟨ha, hb, (hkeys d hc).2, he⟩
  · have hH : handed_out_ids (({ bp.codec with id := id } : FsCodec) :: added) (bp :: kept) =
        id :: handed_out_ids added kept := by
      simp only [handed_out_ids, hneg, if_true]
    have hspec : 96 ≤ id ∧ id ≤ 127 ∧ id ∉ previous_keys current ∧
        id ∉ table_keys build.codec_associations := by
      rcases find_first_empty_dynamic_entry_spec current
          (some build.codec_associations) with hm | ⟨ha, hb, hc, he⟩
      · rw [← hdyn] at hm; omega
      · rw [← hdyn] at ha hb hc he
        exact ⟨ha, hb, hc, he⟩
    refine ⟨_ :: added, bp :: kept, hcodecs, List.Forall₂.cons ⟨fun hc => ?_, fun _ => ?_⟩ h2,
      ?_, ?_, h5'⟩
    · omega
    · exact ⟨id, hspec.1, hspec.2.1, rfl⟩
    · rw [hH]
      refine List.Pairwise.cons ?_ h3
      intro d hd
      obtain ⟨ha, hb, hc, he⟩ := h4 d hd
      have hlow := find_first_empty_dynamic_entry_lowest current
        (some build.codec_associations) d ha hb he (hkeys d hc).2
      rw [← hdyn] at hlow
      have := (hkeys d hc).1
      omega
    · rw [hH]
      intro d hd
      rcases List.mem_cons.mp hd with h | h
      · rw [h]; exact ⟨hspec.1, hspec.2.1, hspec.2.2.2, hspec.2.2.1⟩
      · obtain ⟨ha, hb, hc, he⟩ := h4 d h
        exact ⟨ha, hb, (hkeys d hc).2, he⟩

/-- The third loop, whether or not the dynamic payload types run out. -/
theorem add_blueprints_added (lib : CapsLibrary) (codec_prefs : List FsCodec)
    (current : Option GHashTable) :
    ∀ (rest : List CodecBlueprint) (index : Nat) (build : Build),
      (∀ e ∈ build.codec_associations, e.2.blueprint_index < index) →
      blueprints_added lib codec_prefs current rest build
        (add_blueprints lib codec_prefs current index rest build) := by
  intro rest
  induction rest with
  | nil =>
    intro index build _
    exact blueprints_added_nil lib codec_prefs current build
  | cons bp rest ih =>
    intro index build hidx
    have hidx1 : ∀ e ∈ build.codec_associations, e.2.blueprint_index < index + 1 :=
      fun e he => Nat.lt_succ_of_lt (hidx e he)
    have hnotused : g_hash_table_find_blueprint build.codec_associations index = false := by
      simp only [g_hash_table_find_blueprint, _ht_has_codec_blueprint, List.any_eq_false,
        decide_eq_true_eq]
      intro e he hc
      have := hidx e he
      omega
    have hidx2 : ∀ id : Int, ∀ e ∈ g_hash_table_insert build.codec_associations id
        { blueprint_index := index, blueprint := bp, codec := { bp.codec with id := id } },
        e.2.blueprint_index < index + 1 := by
      intro id e he
      rcases mem_insert _ _ _ e he with h | ⟨h, _⟩
      · rw [h]; exact Nat.lt_succ_self _
      · exact hidx1 e h
    unfold add_blueprints
    by_cases hclock : bp.codec.clock_rate ≤ 0
    · rw [if_pos hclock]
      exact blueprints_added_skip lib codec_prefs current bp rest build _
        (usable_blueprints_cons_of_no_clock_rate lib codec_prefs bp rest (by omega))
        (ih _ _ hidx1)
    · rw [if_neg hclock]
      simp only [hnotused, Bool.false_eq_true, if_false]
      by_cases hdis : _is_disabled lib codec_prefs bp = true
      · rw [if_pos hdis]
        rw [is_disabled_eq] at hdis
        exact blueprints_added_skip lib codec_prefs current bp rest build _
          (usable_blueprints_cons_of_disabled lib codec_prefs bp rest hdis) (ih _ _ hidx1)
      · rw [if_neg hdis]
        have hdis2 : intersects_disable_entry lib codec_prefs bp = false := by
          rw [← is_disabled_eq]; simpa using hdis
        have hus := usable_blueprints_cons_of_usable lib codec_prefs bp rest
          (by omega) hdis2
        simp only [fs_codec_copy_eq]
        by_cases hneg : bp.codec.id < 0
        · rw [if_pos hneg]
          by_cases hid : _find_first_empty_dynamic_entry current
              (some build.codec_associations) < 0
          · rw [if_pos hid]
            exact blueprints_added_exhausted lib codec_prefs current bp rest build hus hneg hid
          · rw [if_neg hid]
            exact blueprints_added_insert lib codec_prefs current bp rest build _ index _ hus
              (Or.inr ⟨hneg, rfl, hid⟩) (ih _ _ (hidx2 _))
        · rw [if_neg hneg]
          exact blueprints_added_insert lib codec_prefs current bp rest build _ index
            bp.codec.id hus (Or.inl ⟨by omega, rfl⟩) (ih _ _ (hidx2 _))

/-! ## Claims C21, C22, C23 and C27: a whole build -/

theorem handed_out_ids_append (added : List FsCodec) (kept more : List CodecBlueprint)
    (h : List.Forall₂ from_blueprint added kept) :
    handed_out_ids added (kept ++ more) = handed_out_ids added kept := by
  induction h with
  | nil => cases more <;> rfl
  | cons _ _ ih =>
    simp only [List.cons_append, handed_out_ids, List.append_eq, ih]

/-- The third loop started by `create_local_codec_associations`, from the empty
table and the empty list. -/
theorem create_blueprints_added (lib : CapsLibrary) (codec_prefs : List FsCodec)
    (current : Option GHashTable) (blueprints : List CodecBlueprint) :
    blueprints_added lib codec_prefs current blueprints
      { codec_associations := [], local_codecs := [], out_of_payload_types := false }
      (add_blueprints lib codec_prefs current 0 blueprints
        { codec_associations := [], local_codecs := [], out_of_payload_types := false }) :=
  add_blueprints_added lib codec_prefs current blueprints 0 _ (fun e he => by simp at he)

/-- The codec list of a build stands, codec by codec, for the first usable
blueprints, and the ids handed out increase along it. -/
theorem create_local_codecs_aligned (lib : CapsLibrary) (media_type : FsMediaType)
    (blueprints : List CodecBlueprint) (codec_prefs : List FsCodec)
    (current : Option GHashTable) :
    List.Forall₂ from_blueprint
      (create_local_codec_associations lib media_type blueprints codec_prefs
        current).local_codecs
      ((usable_blueprints lib codec_prefs blueprints).take
        (create_local_codec_associations lib media_type blueprints codec_prefs
          current).local_codecs.length) ∧
    List.Pairwise (fun a b => a < b)
      (handed_out_ids
        (create_local_codec_associations lib media_type blueprints codec_prefs
          current).local_codecs
        (usable_blueprints lib codec_prefs blueprints)) := by
  have hpa := preference_associations_nil lib blueprints codec_prefs
  rw [create_local_codecs_eq _ _ _ _ _ hpa]
  obtain ⟨added, kept, h1, h2, h3, _, h5⟩ :=
    create_blueprints_added lib codec_prefs current blueprints
  simp only [List.nil_append] at h1
  rw [h1]
  have hlen := h2.length_eq
  rcases h5 with ⟨_, hk⟩ | ⟨_, next, rest1, hu, _, _⟩
  · rw [← hk, hlen, List.take_length]
    exact ⟨h2, h3⟩
  · rw [hu, hlen, List.take_left, handed_out_ids_append _ _ _ h2]
    exact ⟨h2, h3⟩

/-- The table of the third loop is empty as long as its codec list is. -/
theorem add_blueprints_table_of_no_codec (lib : CapsLibrary) (codec_prefs : List FsCodec)
    (current : Option GHashTable) (blueprints : List CodecBlueprint)
    (h : (add_blueprints lib codec_prefs current 0 blueprints
      { codec_associations := [], local_codecs := [],
        out_of_payload_types := false }).local_codecs = []) :
    (add_blueprints lib codec_prefs current 0 blueprints
      { codec_associations := [], local_codecs := [],
        out_of_payload_types := false }).codec_associations = [] :=
  add_blueprints_preserves lib codec_prefs current
    (fun table codecs => codecs = [] → table = []) blueprints
    (by
      intro table codecs index bp id _ _ _ hc
      simp at hc)
    blueprints 0
    { codec_associations := [], local_codecs := [], out_of_payload_types := false }
    (fun _ hb => hb) (fun _ => rfl) h

/-- The table a build returns: none when there is no blueprint or no codec,
the table of the third loop otherwise. -/
theorem create_codec_associations_eq (lib : CapsLibrary) (media_type : FsMediaType)
    (blueprints : List CodecBlueprint) (codec_prefs : List FsCodec)
    (current : Option GHashTable) :
    (create_local_codec_associations lib media_type blueprints codec_prefs
        current).codec_associations =
      if (create_local_codec_associations lib media_type blueprints codec_prefs
          current).local_codecs = [] then none
      else some (add_blueprints lib codec_prefs current 0 blueprints
        { codec_associations := [], local_codecs := [],
          out_of_payload_types := false }).codec_associations := by
  have hpa := preference_associations_nil lib blueprints codec_prefs
  rw [create_local_codec_associations_eq _ _ _ _ _ hpa]
  by_cases hb : blueprints = []
  · rw [if_pos hb, if_pos rfl]
  · rw [if_neg hb]
    by_cases hc : (add_blueprints lib codec_prefs current 0 blueprints
        { codec_associations := [], local_codecs := [],
          out_of_payload_types := false }).local_codecs = []
    · rw [if_pos hc, if_pos rfl]
    · rw [if_neg hc, if_neg hc]

/-- C23. Association builder, empty result: `create_local_codec_associations`
returns no mapping if and only if the codec list it returns is empty; and it
returns no mapping and an empty list when the blueprint list is empty, when
every blueprint has clock rate 0, and when the RTP descriptor of every
blueprint intersects the descriptor of a DISABLE preference. -/
theorem builder_empty_result (lib : CapsLibrary) (media_type : FsMediaType)
    (blueprints : List CodecBlueprint) (codec_prefs : List FsCodec)
    (current : Option GHashTable) :
    ((create_local_codec_associations lib media_type blueprints codec_prefs
        current).codec_associations = none ↔
      (create_local_codec_associations lib media_type blueprints codec_prefs
        current).local_codecs = []) ∧
    (blueprints = [] →
      (create_local_codec_associations lib media_type blueprints codec_prefs
        current).codec_associations = none ∧
      (create_local_codec_associations lib media_type blueprints codec_prefs
        current).local_codecs = []) ∧
    ((∀ bp ∈ blueprints, bp.codec.clock_rate = 0) →
      (create_local_codec_associations lib media_type blueprints codec_prefs
        current).codec_associations = none ∧
      (create_local_codec_associations lib media_type blueprints codec_prefs
        current).local_codecs = []) ∧
    ((∀ bp ∈ blueprints, intersects_disable_entry lib codec_prefs bp = true) →
      (create_local_codec_associations lib media_type blueprints codec_prefs
        current).codec_associations = none ∧
      (create_local_codec_associations lib media_type blueprints codec_prefs
        current).local_codecs = []) := by
  have hiff : (create_local_codec_associations lib media_type blueprints codec_prefs
        current).codec_associations = none ↔
      (create_local_codec_associations lib media_type blueprints codec_prefs
        current).local_codecs = [] := by
    rw [create_codec_associations_eq]
    constructor
    · intro h
      by_contra hc
      rw [if_neg hc] at h
      simp at h
    · intro h
      rw [if_pos h]
  have hnone : usable_blueprints lib codec_prefs blueprints = [] →
      (create_local_codec_associations lib media_type blueprints codec_prefs
        current).codec_associations = none ∧
      (create_local_codec_associations lib media_type blueprints codec_prefs
        current).local_codecs = [] := by
    intro hu
    have h := (create_local_codecs_aligned lib media_type blueprints codec_prefs current).1
    rw [hu, List.take_nil] at h
    have hnil := List.length_eq_zero.mp h.length_eq
    exact ⟨hiff.mpr hnil, hnil⟩
  refine ⟨hiff, ?_, ?_, ?_⟩
  · intro hb
    apply hnone
    rw [hb]
    rfl
  · intro hclock
    apply hnone
    simp only [usable_blueprints, List.filter_eq_nil_iff, Bool.and_eq_true, decide_eq_true_eq,
      not_and]
    intro bp hbp hc
    exact absurd (hclock bp hbp) hc
  · intro hdis
    apply hnone
    simp only [usable_blueprints, List.filter_eq_nil_iff, Bool.and_eq_true,
      Bool.not_eq_true', not_and]
    intro bp hbp _
    rw [hdis bp hbp]
    simp

/-- The three empty builds of C23 on examples, and a build that is not empty. -/
theorem builder_empty_result_examples :
    (create_local_codec_associations ex_caps_library FsMediaType.FS_MEDIA_TYPE_AUDIO
      [] [ex_audio 0 "PCMU" 8000 1 []] none).codec_associations = none ∧
    (create_local_codec_associations ex_caps_library FsMediaType.FS_MEDIA_TYPE_AUDIO
      [ex_blueprint 0 "PCMU" 0, ex_blueprint 8 "PCMA" 0] [] none).codec_associations = none ∧
    (create_local_codec_associations ex_caps_library FsMediaType.FS_MEDIA_TYPE_AUDIO
      [ex_blueprint 0 "PCMU" 8000] [ex_audio (-2) "pcmu" 0 0 []]
      none).codec_associations = none ∧
    (create_local_codec_associations ex_caps_library FsMediaType.FS_MEDIA_TYPE_AUDIO
      [ex_blueprint 0 "PCMU" 8000] [ex_audio (-2) "pcma" 0 0 []]
      none).codec_associations = some [ex_entry 0 0 (ex_blueprint 0 "PCMU" 8000)] := by
  decide

/-- C27 (the code at the failing input). Two blueprints with the static payload
id 0 and a clock rate: the codec list holds two codecs with the id 0, and
the mapping holds one entry, that of the second blueprint, which replaced the
entry of the first. The third loop inserts a static id without looking it up
(line 386). -/
theorem builder_static_id_collision :
    (create_local_codec_associations ex_caps_library FsMediaType.FS_MEDIA_TYPE_AUDIO
      [ex_blueprint 0 "PCMU" 8000, ex_blueprint 0 "G711" 8000] [] none).local_codecs =
      [ex_audio 0 "PCMU" 8000 1 [], ex_audio 0 "G711" 8000 1 []] ∧
    (create_local_codec_associations ex_caps_library FsMediaType.FS_MEDIA_TYPE_AUDIO
      [ex_blueprint 0 "PCMU" 8000, ex_blueprint 0 "G711" 8000] [] none).codec_associations =
      some [ex_entry 0 1 (ex_blueprint 0 "G711" 8000)] := by
  decide

/-- The sibling loop over the preference associations (lines 326-349) does look
the id up: of two associations whose codecs carry the id 0, the second is
given the dynamic id 96, and the table has an entry for each. -/
theorem builder_preference_id_collision_avoided :
    (assign_preference_ids none
      [(ex_entry 0 0 (ex_blueprint 0 "PCMU" 8000)).2,
        (ex_entry 0 1 (ex_blueprint 0 "G711" 8000)).2]
      { codec_associations := [], local_codecs := [],
        out_of_payload_types := false }).local_codecs =
      [ex_audio 0 "PCMU" 8000 1 [], ex_audio 96 "G711" 8000 1 []] ∧
    table_keys (assign_preference_ids none
      [(ex_entry 0 0 (ex_blueprint 0 "PCMU" 8000)).2,
        (ex_entry 0 1 (ex_blueprint 0 "G711" 8000)).2]
      { codec_associations := [], local_codecs := [],
        out_of_payload_types := false }).codec_associations = [0, 96] := by
  decide

/-! ## Claim C26: structures with a rejected field -/

/-- C26 (the code at the failing input). The RTP structure with the fields
encoding-name="PCMU", clock-rate=8000, payload=100 in that order holds a field
that `extract_field_data` rejects (an exact payload greater than 96), yet
`parse_codec_cap_list` adds a blueprint for it: PCMU, clock rate 8000, the id
left unassigned. The value `gst_structure_foreach` returns is not looked at
(lines 521-522), so a rejected field only ends the visit of the fields. The same
with a field media="audio" in front. -/
theorem discovery_rejected_field_not_skipped :
    extract_field_data (cstr "payload") (GValue.int 100) (ex_codec_fields (-1) "PCMU" 8000) =
      (false, ex_codec_fields (-1) "PCMU" 8000) ∧
    parse_codec_cap_list
      [ex_codec_cap "audio/x-mulaw"
        [ex_string_field "encoding-name" "PCMU", ex_int_field "clock-rate" 8000,
          ex_int_field "payload" 100]]
      FsMediaType.FS_MEDIA_TYPE_AUDIO =
      some [⟨ex_audio (-1) "PCMU" 8000 0 [],
        ex_codec_cap "audio/x-mulaw"
          [ex_string_field "encoding-name" "PCMU", ex_int_field "clock-rate" 8000,
            ex_int_field "payload" 100]⟩] ∧
    parse_codec_cap_list
      [ex_codec_cap "audio/x-mulaw"
        [ex_string_field "media" "audio", ex_string_field "encoding-name" "PCMU",
          ex_int_field "clock-rate" 8000, ex_int_field "payload" 100]]
      FsMediaType.FS_MEDIA_TYPE_AUDIO =
      some [⟨ex_audio (-1) "PCMU" 8000 0 [],
        ex_codec_cap "audio/x-mulaw"
          [ex_string_field "media" "audio", ex_string_field "encoding-name" "PCMU",
            ex_int_field "clock-rate" 8000, ex_int_field "payload" 100]⟩] := by
  decide

/-- The same fields with the rejected one first: the visit ends before the
encoding name is read, and the structure is skipped for want of a name. Whether
a structure with a rejected field is skipped depends on the field order. -/
theorem discovery_rejected_field_first_skipped :
    parse_codec_cap_list
      [ex_codec_cap "audio/x-mulaw"
        [ex_int_field "payload" 100, ex_string_field "encoding-name" "PCMU",
          ex_int_field "clock-rate" 8000]]
      FsMediaType.FS_MEDIA_TYPE_AUDIO = some [] ∧
    parse_codec_cap_list
      [ex_codec_cap "audio/x-mulaw"
        [ex_string_field "encoding-name" "PCMU", ex_int_field "clock-rate" 8000,
          ex_int_field "payload" 0]]
      FsMediaType.FS_MEDIA_TYPE_AUDIO =
      some [⟨ex_audio 0 "PCMU" 8000 0 [],
        ex_codec_cap "audio/x-mulaw"
          [ex_string_field "encoding-name" "PCMU", ex_int_field "clock-rate" 8000,
            ex_int_field "payload" 0]⟩] := by
  decide

/-- The visit of `gst_structure_foreach` ends at the first rejected field: the
fields after it are not read, and the codec is left as the fields before it
made it. -/
theorem gst_structure_foreach_stops_at_rejected (before after : List (CString × GValue))
    (field_name : CString) (value : GValue) (codec : CodecFields)
    (hbefore : (gst_structure_foreach before codec).1 = true)
    (hrejected : (extract_field_data field_name value
      (gst_structure_foreach before codec).2).1 = false) :
    gst_structure_foreach (before ++ (field_name, value) :: after) codec =
      (false, (extract_field_data field_name value (gst_structure_foreach before codec).2).2) := by
  induction before generalizing codec with
  | nil =>
    simp only [List.nil_append, gst_structure_foreach] at hrejected ⊢
    cases h : extract_field_data field_name value codec with
    | mk ok codec1 =>
      rw [h] at hrejected
      simp only at hrejected
      subst hrejected
      rfl
  | cons f rest ih =>
    obtain ⟨name, v⟩ := f
    simp only [List.cons_append, gst_structure_foreach] at hbefore hrejected ⊢
    cases h : extract_field_data name v codec with
    | mk ok codec1 =>
      rw [h] at hbefore hrejected
      cases ok with
      | false => simp at hbefore
      | true =>
        simp only at hbefore hrejected ⊢
        exact ih codec1 hbefore hrejected

end Farsight
